import Mathlib

/-!
Calibration session, tracking session and camera pairing of dove-eye.

A shallow embedding of `lib/src/camera_pair.cc`,
`lib/src/camera_calibration.cc` and `lib/src/tracker.cc`, followed by theorems
about the embedded functions.

Conventions of the embedding.

* `std::vector` members are lists; `v[i]` is `List.getD` and `v[i] = x` is
  `List.set`.  An index outside the vector is undefined behaviour in the
  source; `Session.Consistent` states that every index the session uses is in
  range, and `Reachable.consistent` proves it for all reachable sessions.
* `CameraIndex`, `size_t` and the frame counter are natural numbers (the
  declaration of `CameraIndex` is in a header that is not part of the sources
  at hand, so no width is assumed).
* Image payloads, point sets and solver outputs are carried, never inspected,
  by the session.  The detector and the two OpenCV solvers are functions
  supplied from outside (`Env`), and so is the tracking algorithm
  (`InnerTracker`), whose instances carry a private state.
* Every call to the detector or to a solver is recorded in an event log that
  is returned next to the new state, so that "is invoked" is a statement about
  the log.
* A failed `assert` is the result `none`.
* A value of type `double` is the rational number it denotes, and an operation
  that delivers a `double` rounds its exact result to the nearest value of the
  format, ties to even (`roundToDouble`).
-/

namespace dove_eye

/-! ## Camera pairs (`camera_pair.cc`) -/

/-- Modelled from the spec: the value type `CameraPair` with fields `index`,
`cam1`, `cam2` (the header `camera_pair.h` is absent from the sources). -/
structure CameraPair where
  index : Nat
  cam1 : Nat
  cam2 : Nat
deriving DecidableEq, Repr

/-- Modelled from the spec: the element that `PairArray result(pair_count)`
places in every slot.  `std::vector<T>(n)` value-initialises its elements,
which for a plain record of integers is all zeroes. -/
def CameraPair.zero : CameraPair := ⟨0, 0, 0⟩

/-- Modelled from the spec: `CameraPair::Pairity`, declared in the absent
header `camera_pair.h`; the closed form `cameraCount·(cameraCount−1)/2`. -/
def Pairity (arity : Nat) : Nat := arity * (arity - 1) / 2

/-- Body of the inner loop of `GenerateArray` (lines 17-19): three writes
through `result[index]`.  The loop state is the pair `(result, index)`; the
source contains no statement that changes `index`, so it is returned as is. -/
def generateInner (cam1 : Nat) (st : List CameraPair × Nat) (cam2 : Nat) :
    List CameraPair × Nat :=
  (st.1.set st.2 { index := st.2, cam1 := cam1, cam2 := cam2 }, st.2)

/-- The outer loop body of `GenerateArray` (line 16):
`for (cam2 = cam1 + 1; cam2 < camera_count; ++cam2)`. -/
def generateOuter (camera_count : Nat) (st : List CameraPair × Nat) (cam1 : Nat) :
    List CameraPair × Nat :=
  (List.range' (cam1 + 1) (camera_count - (cam1 + 1))).foldl (generateInner cam1) st

/-- `CameraPair::GenerateArray` (camera_pair.cc, lines 10-24). -/
def GenerateArray (camera_count : Nat) : List CameraPair :=
  let pair_count := camera_count * (camera_count - 1) / 2
  let result := List.replicate pair_count CameraPair.zero
  let index := 0
  ((List.range camera_count).foldl (generateOuter camera_count) (result, index)).1

/-- The canonical pair list as the specification words it: outer loop over
`cam1` ascending, inner loop over `cam2` ascending, one pair emitted per
iteration, each with the next sequential index.  This definition follows the
specification, not the source. -/
def canonicalPairs (n : Nat) : List CameraPair :=
  (((List.range n).flatMap fun a =>
      (List.range' (a + 1) (n - (a + 1))).map fun b => (a, b)).enum).map
    fun ib => { index := ib.1, cam1 := ib.2.1, cam2 := ib.2.2 }

/-! ## Carriers for frames, point sets and results -/

/-- The image container `cv::Mat` of OpenCV, as far as the session is
concerned: a size and a payload that is handed to the detector. -/
structure Mat where
  rows : Nat
  cols : Nat
  data : List Nat
deriving DecidableEq, Repr, Inhabited

/-- The value `cv::Mat::size()`. -/
def Mat.size (m : Mat) : Nat × Nat := (m.rows, m.cols)

/-- The record `Frame` (frame.h): a timestamp and the image.  The timestamp is
a `double` in the source and is never read by the calibration session. -/
structure Frame where
  timestamp : Nat
  data : Mat
deriving DecidableEq, Repr, Inhabited

/-- A detected set of image points (`Point2Vector`); coordinates are never
inspected by the session. -/
abbrev Point2Vector := List (Int × Int)

/-- A set of pattern points in space (`Point3Vector`). -/
abbrev Point3Vector := List (Int × Int × Int)

/-- Modelled from the spec: `Frameset` (the header `frameset.h` is absent), a
fixed-size ordered collection of per-camera frames, each slot independently
flagged valid or invalid. -/
structure Frameset where
  frames : List Frame
  valid : List Bool
deriving DecidableEq, Repr

/-- The value `frameset.Arity()`. -/
def Frameset.Arity (frameset : Frameset) : Nat := frameset.frames.length

/-- The test `frameset.IsValid(cam)`. -/
def Frameset.IsValid (frameset : Frameset) (cam : Nat) : Bool := frameset.valid.getD cam false

/-- The access `frameset[cam]`. -/
def Frameset.frame (frameset : Frameset) (cam : Nat) : Frame := frameset.frames.getD cam default

/-- Per-camera result: camera matrix and distortion coefficients. -/
structure CameraParameters where
  camera_matrix : Mat
  distortion_coefficients : Mat
deriving DecidableEq, Repr, Inhabited

/-- Per-pair result: rotation, translation and fundamental matrix. -/
structure PairParameters where
  rotation : Mat
  translation : Mat
  fundamental_matrix : Mat
deriving DecidableEq, Repr, Inhabited

/-- Modelled from the spec: the member `data_` (`CalibrationData`, declared in
an absent header): one result per camera and one per pair. -/
structure CalibrationData where
  camera_parameters_ : List CameraParameters
  pair_parameters_ : List PairParameters
deriving DecidableEq, Repr

/-- Modelled from the spec: the constructor call `data_(arity)`, sizing the
per-camera results to `arity` and the per-pair results to `Pairity(arity)`. -/
def CalibrationData.ofArity (arity : Nat) : CalibrationData :=
  { camera_parameters_ := List.replicate arity default
    pair_parameters_ := List.replicate (Pairity arity) default }

/-- `CalibrationState` with the enumerators as the source spells them. -/
inductive CalibrationState where
  | kUnitialized
  | kCollecting
  | kReady
deriving DecidableEq, Repr

open CalibrationState

/-- Position of a state in the order Uninitialized < Collecting < Ready. -/
def CalibrationState.rank : CalibrationState → Nat
  | kUnitialized => 0
  | kCollecting => 1
  | kReady => 2

/-- The configuration source read by `Reset()`: the two named options. -/
structure Parameters where
  CALIBRATION_FRAMES : Nat
  CALIBRATION_SKIP : Nat
deriving DecidableEq, Repr

/-- What the session borrows or calls from outside: the pattern detector
(`pattern_->Match`, `pattern_->ObjectPoints`) and the two OpenCV solvers.
`Match` returns the detected points on success.  `calibrateCamera` receives
the object points, the image points, the image size and the stored camera
parameters it overwrites; `stereoCalibrate` receives the object points, both
image point sequences, the intrinsics of both cameras as fixed inputs and the
stored pair parameters it overwrites. -/
structure Env where
  Match : Mat → Option Point2Vector
  ObjectPoints : Point3Vector
  calibrateCamera : List Point3Vector → List Point2Vector → Nat × Nat →
    CameraParameters → CameraParameters
  stereoCalibrate : List Point3Vector → List Point2Vector → List Point2Vector →
    CameraParameters → CameraParameters → PairParameters → PairParameters

/-- One call that leaves the session: a detector call on a camera's frame, a
single-camera solve, or a stereo solve, with the samples handed over. -/
inductive Event where
  | detect (cam : Nat)
  | calibrateCamera (cam : Nat) (object_points : List Point3Vector)
      (image_points : List Point2Vector)
  | stereoCalibrate (index cam1 cam2 : Nat) (object_points : List Point3Vector)
      (image_points1 image_points2 : List Point2Vector)
deriving DecidableEq, Repr

/-! ## The calibration session (`camera_calibration.cc`) -/

/-- The data members of `CameraCalibration`.  The borrowed references
(`parameters_`, `pattern_`) are passed to the operations that read them. -/
structure Session where
  arity_ : Nat
  pairs_ : List CameraPair
  data_ : CalibrationData
  frames_to_collect_ : Nat
  frames_skip_ : Nat
  frame_no_ : Nat
  image_points_ : List (List Point2Vector)
  image_points_pair_ : List (List Point2Vector × List Point2Vector)
  camera_states_ : List CalibrationState
  pair_states_ : List CalibrationState
deriving DecidableEq, Repr

/-- The read `camera_states_[cam]`. -/
def Session.cameraState (s : Session) (cam : Nat) : CalibrationState :=
  s.camera_states_.getD cam kUnitialized

/-- The read `pair_states_[index]`. -/
def Session.pairState (s : Session) (index : Nat) : CalibrationState :=
  s.pair_states_.getD index kUnitialized

/-- The read `image_points_[cam]`. -/
def Session.cameraBuffer (s : Session) (cam : Nat) : List Point2Vector :=
  s.image_points_.getD cam []

/-- The read `image_points_pair_[index]`. -/
def Session.pairBuffer (s : Session) (index : Nat) : List Point2Vector × List Point2Vector :=
  s.image_points_pair_.getD index ([], [])

/-- The read `data_.camera_parameters_[cam]`. -/
def Session.cameraParameters (s : Session) (cam : Nat) : CameraParameters :=
  s.data_.camera_parameters_.getD cam default

/-- The read `data_.pair_parameters_[index]`. -/
def Session.pairParameters (s : Session) (index : Nat) : PairParameters :=
  s.data_.pair_parameters_.getD index default

/-- `CameraCalibration::Reset` (lines 150-159); `parameters` is the content of
the configuration source at the time of the call. -/
def Reset (parameters : Parameters) (s : Session) : Session :=
  { s with
    frames_to_collect_ := parameters.CALIBRATION_FRAMES
    frames_skip_ := parameters.CALIBRATION_SKIP
    frame_no_ := 0
    image_points_ := List.replicate s.arity_ []
    image_points_pair_ := List.replicate (Pairity s.arity_) ([], [])
    camera_states_ := List.replicate s.arity_ kUnitialized
    pair_states_ := List.replicate (Pairity s.arity_) kUnitialized }

/-- The constructor `CameraCalibration::CameraCalibration` (lines 15-24): the
member initialisers followed by `Reset()`. -/
def CameraCalibration (parameters : Parameters) (arity : Nat) : Session :=
  Reset parameters
    { arity_ := arity
      pairs_ := GenerateArray arity
      data_ := CalibrationData.ofArity arity
      frames_to_collect_ := 0
      frames_skip_ := 0
      frame_no_ := 0
      image_points_ := []
      image_points_pair_ := []
      camera_states_ := []
      pair_states_ := [] }

/-- The running state of one `MeasureFrameset` call: the session, the local
`result`, and the calls made so far to the detector and the solvers. -/
structure Run where
  session : Session
  result : Bool
  log : List Event
deriving DecidableEq, Repr

/-- Lines 49-52: the detector is called on the camera's frame; on success the
points are appended and the camera is Collecting. -/
def cameraDetect (env : Env) (frameset : Frameset) (cam : Nat) (s : Session) : Session :=
  match env.Match (frameset.frame cam).data with
  | some image_points =>
      { s with
        image_points_ := s.image_points_.set cam (s.cameraBuffer cam ++ [image_points])
        camera_states_ := s.camera_states_.set cam kCollecting }
  | none => s

/-- Lines 54-67: once the buffer has reached the threshold, the single-camera
solve runs on it, the camera is Ready and the buffer is cleared. -/
def cameraSolve (env : Env) (frameset : Frameset) (cam : Nat) (s : Session) :
    Session × List Event :=
  if s.frames_to_collect_ ≤ (s.cameraBuffer cam).length then
    let object_points := List.replicate (s.cameraBuffer cam).length env.ObjectPoints
    let solved := env.calibrateCamera object_points (s.cameraBuffer cam)
      (frameset.frame cam).data.size (s.cameraParameters cam)
    ({ s with
       data_ := { s.data_ with
                  camera_parameters_ := s.data_.camera_parameters_.set cam solved }
       camera_states_ := s.camera_states_.set cam kReady
       image_points_ := s.image_points_.set cam [] },
     [Event.calibrateCamera cam object_points (s.cameraBuffer cam)])
  else (s, [])

/-- Body of the camera loop (lines 38-77). -/
def measureCamera (env : Env) (frameset : Frameset) (r : Run) (cam : Nat) : Run :=
  if frameset.IsValid cam = false then
    { r with result := r.result && decide (r.session.cameraState cam = kReady) }
  else
    match r.session.cameraState cam with
    | kReady => r
    | _ =>
      let s1 := cameraDetect env frameset cam r.session
      let s2 := cameraSolve env frameset cam s1
      { session := s2.1, result := false, log := r.log ++ [Event.detect cam] ++ s2.2 }

/-- Lines 99-105: both detections (the second only if the first succeeds); if
both succeed the points are appended in lockstep and the pair is Collecting.
Returns the session and the detector calls made. -/
def pairDetect (env : Env) (frameset : Frameset) (pair : CameraPair) (s : Session) :
    Session × List Event :=
  match env.Match (frameset.frame pair.cam1).data with
  | none => (s, [Event.detect pair.cam1])
  | some image_points1 =>
    match env.Match (frameset.frame pair.cam2).data with
    | none => (s, [Event.detect pair.cam1, Event.detect pair.cam2])
    | some image_points2 =>
      ({ s with
         image_points_pair_ := s.image_points_pair_.set pair.index
           ((s.pairBuffer pair.index).1 ++ [image_points1],
            (s.pairBuffer pair.index).2 ++ [image_points2])
         pair_states_ := s.pair_states_.set pair.index kCollecting },
       [Event.detect pair.cam1, Event.detect pair.cam2])

/-- Lines 107-135: once the first buffer of the pair has reached the threshold,
the stereo solve runs, the pair is Ready and both buffers are cleared. -/
def pairSolve (env : Env) (pair : CameraPair) (s : Session) : Session × List Event :=
  let collected := (s.pairBuffer pair.index).1.length
  if s.frames_to_collect_ ≤ collected then
    let object_points := List.replicate collected env.ObjectPoints
    let solved := env.stereoCalibrate object_points (s.pairBuffer pair.index).1
      (s.pairBuffer pair.index).2 (s.cameraParameters pair.cam1)
      (s.cameraParameters pair.cam2) (s.pairParameters pair.index)
    ({ s with
       data_ := { s.data_ with
                  pair_parameters_ := s.data_.pair_parameters_.set pair.index solved }
       pair_states_ := s.pair_states_.set pair.index kReady
       image_points_pair_ := s.image_points_pair_.set pair.index ([], []) },
     [Event.stereoCalibrate pair.index pair.cam1 pair.cam2 object_points
        (s.pairBuffer pair.index).1 (s.pairBuffer pair.index).2])
  else (s, [])

/-- Body of the pair loop (lines 79-145). -/
def measurePair (env : Env) (frameset : Frameset) (r : Run) (pair : CameraPair) : Run :=
  if r.session.cameraState pair.cam1 ≠ kReady ∨ r.session.cameraState pair.cam2 ≠ kReady then
    { r with result := r.result && decide (r.session.pairState pair.index = kReady) }
  else if frameset.IsValid pair.cam1 = false ∨ frameset.IsValid pair.cam2 = false then
    { r with result := r.result && decide (r.session.pairState pair.index = kReady) }
  else
    match r.session.pairState pair.index with
    | kReady => r
    | _ =>
      let s1 := pairDetect env frameset pair r.session
      let s2 := pairSolve env pair s1.1
      { session := s2.1, result := false, log := r.log ++ s1.2 ++ s2.2 }

/-- Lines 33-147 of `MeasureFrameset`: `result = true`, the camera loop, the
pair loop over `pairs_`, `return result`. -/
def measureWork (env : Env) (s : Session) (frameset : Frameset) : Run :=
  s.pairs_.foldl (measurePair env frameset)
    ((List.range s.arity_).foldl (measureCamera env frameset)
      { session := s, result := true, log := [] })

/-- `CameraCalibration::MeasureFrameset` (lines 26-148).  `none` is the failed
assertion `frameset.Arity() == arity_`.  The test of line 29 reads the frame
counter before the post-increment; a skipped call returns `false`. -/
def MeasureFrameset (env : Env) (s : Session) (frameset : Frameset) : Option Run :=
  if frameset.Arity ≠ s.arity_ then none
  else if s.frame_no_ % (s.frames_skip_ + 1) ≠ 0 then
    some { session := { s with frame_no_ := s.frame_no_ + 1 }, result := false, log := [] }
  else
    some (measureWork env { s with frame_no_ := s.frame_no_ + 1 } frameset)

/-- Rounding of a rational to the nearest integer, a tie going to the even
neighbour. -/
def roundHalfEven (x : ℚ) : ℤ :=
  if x - ⌊x⌋ < 1 / 2 then ⌊x⌋
  else if 1 / 2 < x - ⌊x⌋ then ⌊x⌋ + 1
  else if ⌊x⌋ % 2 = 0 then ⌊x⌋ else ⌊x⌋ + 1

/-- The binary exponent of a non-zero rational: the `e` with
`2^e ≤ |x| < 2^(e+1)`.  The difference of the bit lengths of numerator and
denominator is either `e` or `e + 1`. -/
def binaryExponent (x : ℚ) : ℤ :=
  let e : ℤ := (Nat.log2 x.num.natAbs : ℤ) - (Nat.log2 x.den : ℤ)
  if (2 : ℚ) ^ e ≤ |x| then e else e - 1

/-- The value of type `double` (IEEE 754 binary64, 53 significant bits) that
an arithmetic operation with the exact result `x` delivers in the default
rounding mode, round to nearest with ties to even: `x` is rounded to a
multiple of `2^(e-52)`, `e` being its binary exponent.  The exponent range of
the format is not modelled; the operands below are container sizes and the
sample threshold, and their quotient is far inside it. -/
def roundToDouble (x : ℚ) : ℚ :=
  if x = 0 then 0
  else roundHalfEven (x / 2 ^ (binaryExponent x - 52)) * 2 ^ (binaryExponent x - 52)

/-- Conversion of an integer to `double`: `static_cast<double>(n)`, and the
implicit conversion of the `size_t` operand of a mixed division. -/
def toDouble (n : Nat) : ℚ := roundToDouble n

/-- The operator `/` on two `double` operands (the divisor is not zero in any
session with a positive threshold). -/
def doubleDiv (a b : ℚ) : ℚ := roundToDouble (a / b)

/-- `CameraCalibration::CameraProgress` (lines 161-175); `none` is the failed
assertion `cam < Arity()`.  The returned `double` is given as the rational
number it denotes; line 169 converts both integers and divides. -/
def CameraProgress (s : Session) (cam : Nat) : Option ℚ :=
  if cam < s.arity_ then
    match s.cameraState cam with
    | kUnitialized => some 0
    | kCollecting =>
        some (doubleDiv (toDouble (s.cameraBuffer cam).length) (toDouble s.frames_to_collect_))
    | kReady => some 1
  else none

/-- `CameraCalibration::PairProgress` (lines 177-193); `none` is the failed
assertion `index < CameraPair::Pairity(Arity())`. -/
def PairProgress (s : Session) (index : Nat) : Option ℚ :=
  if index < Pairity s.arity_ then
    match s.pairState index with
    | kUnitialized => some 0
    | kCollecting =>
        let collected := (s.pairBuffer index).1.length
        some (doubleDiv (toDouble collected) (toDouble s.frames_to_collect_))
    | kReady => some 1
  else none

/-- A sequence of `MeasureFrameset` calls with no `Reset()` in between: the
session after the last call, the value each call returned, and all detector
and solver calls in order.  `none` if one of the calls fails its assertion. -/
def measureAll (env : Env) : Session → List Frameset → Option (Session × List Bool × List Event)
  | s, [] => some (s, [], [])
  | s, frameset :: rest =>
    match MeasureFrameset env s frameset with
    | none => none
    | some r =>
      match measureAll env r.session rest with
      | none => none
      | some (s', results, log) => some (s', r.result :: results, r.log ++ log)

/-- Sessions reachable from construction (arity at least 1) by
`MeasureFrameset` calls on framesets of matching arity and `Reset()` calls,
the threshold read from the configuration being at least 1 each time. -/
inductive Reachable (env : Env) : Session → Prop where
  | construct (parameters : Parameters) (arity : Nat) (harity : 1 ≤ arity)
      (hframes : 1 ≤ parameters.CALIBRATION_FRAMES) :
      Reachable env (CameraCalibration parameters arity)
  | measure (s : Session) (frameset : Frameset) (r : Run) (hs : Reachable env s)
      (hcall : MeasureFrameset env s frameset = some r) : Reachable env r.session
  | reset (s : Session) (parameters : Parameters) (hs : Reachable env s)
      (hframes : 1 ≤ parameters.CALIBRATION_FRAMES) : Reachable env (Reset parameters s)

/-! ## Consistency of states and buffers -/

/-- A state and the length of its buffer agree for threshold `threshold`:
Uninitialized and Ready have an empty buffer, Collecting has at least one
sample and fewer than the threshold. -/
def slotOK (threshold : Nat) (st : CalibrationState) (collected : Nat) : Prop :=
  match st with
  | kUnitialized => collected = 0
  | kCollecting => 1 ≤ collected ∧ collected < threshold
  | kReady => collected = 0

/-- Number of samples a slot counts as collected out of `threshold`: none when
Uninitialized, the buffer length when Collecting, all when Ready. -/
def collectedOf (threshold : Nat) (st : CalibrationState) (collected : Nat) : Nat :=
  match st with
  | kUnitialized => 0
  | kCollecting => collected
  | kReady => threshold

/-- The class invariant of a calibration session: every entry of the pair list
addresses existing slots, the four per-index vectors have the sizes `Reset()`
gives them, the threshold is positive, every camera and pair slot is
consistent with its buffer, and the two buffers of a pair have the same
length. -/
structure Session.Consistent (s : Session) : Prop where
  pairs_in_range : ∀ pair ∈ s.pairs_,
    pair.index < Pairity s.arity_ ∧ pair.cam1 < s.arity_ ∧ pair.cam2 < s.arity_
  camera_states_size : s.camera_states_.length = s.arity_
  image_points_size : s.image_points_.length = s.arity_
  pair_states_size : s.pair_states_.length = Pairity s.arity_
  image_points_pair_size : s.image_points_pair_.length = Pairity s.arity_
  threshold_pos : 1 ≤ s.frames_to_collect_
  camera_ok : ∀ cam, slotOK s.frames_to_collect_ (s.cameraState cam) (s.cameraBuffer cam).length
  pair_ok : ∀ index, slotOK s.frames_to_collect_ (s.pairState index) (s.pairBuffer index).1.length
  lockstep : ∀ index, (s.pairBuffer index).1.length = (s.pairBuffer index).2.length

/-- Whether an event is a single-camera solve for camera `cam`. -/
def Event.isCameraSolve (cam : Nat) : Event → Bool
  | Event.calibrateCamera c _ _ => decide (c = cam)
  | _ => false

/-! ## Concrete inputs used in evaluations -/

/-- A detector that finds the pattern in every image, with solvers that return
the stored parameters. -/
def detectAlways : Env :=
  { Match := fun _ => some []
    ObjectPoints := []
    calibrateCamera := fun _ _ _ stored => stored
    stereoCalibrate := fun _ _ _ _ _ stored => stored }

/-- A frameset of the given validity flags, every slot holding an empty frame. -/
def framesetOf (valid : List Bool) : Frameset :=
  { frames := List.replicate valid.length default, valid := valid }

/-- A session of two cameras in which both cameras and the only pair are
Ready, as left by a completed calibration with threshold 1. -/
def readyPairSession : Session :=
  { CameraCalibration ⟨1, 0⟩ 2 with
    frame_no_ := 2
    camera_states_ := [kReady, kReady]
    pair_states_ := [kReady] }

/-! ## The tracking session (`tracker.cc`) -/

/-- `TrackState` with the enumerators as `tracker.cc` spells them. -/
inductive TrackState where
  | kUninitialized
  | kMarkSet
  | kTracking
  | kLost
deriving DecidableEq, Repr

open TrackState

/-- A tracked image position (`InnerTracker::Mark`); coordinates are never
inspected by the tracking session. -/
abbrev Mark := Int × Int

/-- Modelled from the spec: `Positset` (the header `positset.h` is absent), a
fixed-size ordered collection of per-camera positions with the same per-slot
validity flags as a `Frameset`. -/
structure Positset where
  positions : List Mark
  valid : List Bool
deriving DecidableEq, Repr

/-- Modelled from the spec: the constructor call `trackpoints_(arity)`, which
gives `arity` slots, all invalid. -/
def Positset.ofArity (arity : Nat) : Positset :=
  { positions := List.replicate arity (0, 0), valid := List.replicate arity false }

/-- The test `positset.IsValid(cam)`. -/
def Positset.IsValid (p : Positset) (cam : Nat) : Bool := p.valid.getD cam false

/-- The read `positset[cam]`. -/
def Positset.position (p : Positset) (cam : Nat) : Mark := p.positions.getD cam (0, 0)

/-- The call `positset.SetValid(cam, value)`. -/
def Positset.SetValid (p : Positset) (cam : Nat) (value : Bool) : Positset :=
  { p with valid := p.valid.set cam value }

/-- The write `positset[cam] = mark`, also made through the output pointer
`&trackpoints_[cam]` handed to the algorithm. -/
def Positset.assign (p : Positset) (cam : Nat) (mark : Mark) : Positset :=
  { p with positions := p.positions.set cam mark }

/-- Modelled from the spec: the tracking algorithm `InnerTracker` (the header
`inner_tracker.h` is absent).  `σ` is the private state of one instance.
`Clone` is the state of a fresh copy of the prototype.  `InitializeTracking`
receives the instance, the frame and the seed position; `Track` receives the
instance, the frame and the stored position.  Both return the success flag,
the position left in the output slot, and the instance after the call. -/
structure InnerTracker (σ : Type) where
  Clone : σ
  InitializeTracking : σ → Frame → Mark → Bool × Mark × σ
  Track : σ → Frame → Mark → Bool × Mark × σ

/-- The data members of `Tracker`, under the names `tracker.cc` uses for them
(`arity`, `trackpoints_`, `trackstates_`, `trackers_`). -/
structure TrackSession (σ : Type) where
  arity : Nat
  trackpoints_ : Positset
  trackstates_ : List TrackState
  trackers_ : List σ
deriving DecidableEq, Repr

/-- A call of the tracking session to the algorithm instance of a camera. -/
inductive TrackEvent where
  | init (cam : Nat)
  | track (cam : Nat)
deriving DecidableEq, Repr

/-- Whether an event is a call to the algorithm instance of camera `cam`. -/
def TrackEvent.isFor (cam : Nat) : TrackEvent → Bool
  | TrackEvent.init c => decide (c = cam)
  | TrackEvent.track c => decide (c = cam)

/-- The read `trackstates_[cam]`. -/
def TrackSession.trackState {σ : Type} (t : TrackSession σ) (cam : Nat) : TrackState :=
  t.trackstates_.getD cam kUninitialized

/-- The read `trackers_[cam]`; `fresh` stands for an index outside the vector. -/
def TrackSession.tracker {σ : Type} (t : TrackSession σ) (fresh : σ) (cam : Nat) : σ :=
  t.trackers_.getD cam fresh

/-- The constructor `Tracker::Tracker` (lines 9-17): all cameras
Uninitialized, all output slots invalid, one clone of the prototype per
camera. -/
def Tracker {σ : Type} (alg : InnerTracker σ) (arity : Nat) : TrackSession σ :=
  { arity := arity
    trackpoints_ := Positset.ofArity arity
    trackstates_ := List.replicate arity kUninitialized
    trackers_ := List.replicate arity alg.Clone }

/-- `Tracker::SetMark` (lines 20-30); `none` is a failed assertion, either
`cam < arity` or `project_other == false`. -/
def SetMark {σ : Type} (t : TrackSession σ) (cam : Nat) (mark : Mark) (project_other : Bool) :
    Option (TrackSession σ) :=
  if ¬ cam < t.arity then none
  else if project_other ≠ false then none
  else
    some { t with
           trackpoints_ := (t.trackpoints_.assign cam mark).SetValid cam false
           trackstates_ := t.trackstates_.set cam kMarkSet }

/-- The running state of one `Track` call: the session and the calls made so
far to the algorithm instances. -/
structure TrackRun (σ : Type) where
  session : TrackSession σ
  log : List TrackEvent
deriving DecidableEq, Repr

/-- The Positset a `Track` call returns: a copy of `trackpoints_`. -/
def TrackRun.positset {σ : Type} (r : TrackRun σ) : Positset := r.session.trackpoints_

/-- `Tracker::TrackSingle` (lines 42-73). -/
def TrackSingle {σ : Type} (alg : InnerTracker σ) (cam : Nat) (frame : Frame) (r : TrackRun σ) :
    TrackRun σ :=
  match r.session.trackState cam with
  | kUninitialized => r
  | kMarkSet =>
    let out := alg.InitializeTracking (r.session.tracker alg.Clone cam) frame
      (r.session.trackpoints_.position cam)
    let called : TrackSession σ :=
      { r.session with
        trackers_ := r.session.trackers_.set cam out.2.2
        trackpoints_ := r.session.trackpoints_.assign cam out.2.1 }
    if out.1 = true then
      { session := { called with
                     trackstates_ := called.trackstates_.set cam kTracking
                     trackpoints_ := called.trackpoints_.SetValid cam true }
        log := r.log ++ [TrackEvent.init cam] }
    else
      { session := { called with trackpoints_ := called.trackpoints_.SetValid cam false }
        log := r.log ++ [TrackEvent.init cam] }
  | kTracking =>
    let out := alg.Track (r.session.tracker alg.Clone cam) frame
      (r.session.trackpoints_.position cam)
    let called : TrackSession σ :=
      { r.session with
        trackers_ := r.session.trackers_.set cam out.2.2
        trackpoints_ := r.session.trackpoints_.assign cam out.2.1 }
    if out.1 = false then
      { session := { called with
                     trackstates_ := called.trackstates_.set cam kLost
                     trackpoints_ := called.trackpoints_.SetValid cam false }
        log := r.log ++ [TrackEvent.track cam] }
    else
      { session := called, log := r.log ++ [TrackEvent.track cam] }
  | kLost => r

/-- `Tracker::Track` (lines 32-40); `none` is the failed assertion
`frameset.Arity() == arity`. -/
def Track {σ : Type} (alg : InnerTracker σ) (t : TrackSession σ) (frameset : Frameset) :
    Option (TrackRun σ) :=
  if frameset.Arity ≠ t.arity then none
  else
    some ((List.range t.arity).foldl
      (fun r cam => TrackSingle alg cam (frameset.frame cam) r) { session := t, log := [] })

/-- A sequence of `Track` calls with no `SetMark` in between: the session
after the last call and all calls to the algorithm instances, in order. -/
def trackAll {σ : Type} (alg : InnerTracker σ) :
    TrackSession σ → List Frameset → Option (TrackRun σ)
  | t, [] => some { session := t, log := [] }
  | t, frameset :: rest =>
    match Track alg t frameset with
    | none => none
    | some r =>
      match trackAll alg r.session rest with
      | none => none
      | some r' => some { session := r'.session, log := r.log ++ r'.log }

/-- What a `Track` call reads and writes for camera `cam`: track state, stored
position, validity flag and algorithm instance. -/
def TrackSession.slot {σ : Type} (t : TrackSession σ) (fresh : σ) (cam : Nat) :
    TrackState × Mark × Bool × σ :=
  (t.trackState cam, t.trackpoints_.position cam, t.trackpoints_.IsValid cam,
    t.tracker fresh cam)

/-- The four per-camera vectors of a tracking session have `arity` entries. -/
structure TrackSession.Sized {σ : Type} (t : TrackSession σ) : Prop where
  positions_size : t.trackpoints_.positions.length = t.arity
  valid_size : t.trackpoints_.valid.length = t.arity
  trackstates_size : t.trackstates_.length = t.arity
  trackers_size : t.trackers_.length = t.arity

/-- Whether `InitializeTracking` fails for camera `cam` on every call of a
sequence of `Track` calls, each call being judged on the session it starts
from. -/
def initFailsAlong {σ : Type} (alg : InnerTracker σ) (cam : Nat) :
    TrackSession σ → List Frameset → Prop
  | _, [] => True
  | t, frameset :: rest =>
    (alg.InitializeTracking (t.tracker alg.Clone cam) (frameset.frame cam)
        (t.trackpoints_.position cam)).1 = false ∧
      match Track alg t frameset with
      | none => True
      | some r => initFailsAlong alg cam r.session rest

/-- Tracking sessions reachable from construction by `SetMark` calls without
projection and `Track` calls. -/
inductive TrackReachable {σ : Type} (alg : InnerTracker σ) : TrackSession σ → Prop where
  | construct (arity : Nat) : TrackReachable alg (Tracker alg arity)
  | setMark (t t' : TrackSession σ) (cam : Nat) (mark : Mark) (ht : TrackReachable alg t)
      (hcall : SetMark t cam mark false = some t') : TrackReachable alg t'
  | track (t : TrackSession σ) (frameset : Frameset) (r : TrackRun σ)
      (ht : TrackReachable alg t) (hcall : Track alg t frameset = some r) :
      TrackReachable alg r.session

/-- An algorithm without private state whose `InitializeTracking` succeeds
exactly on frames with timestamp 1, moving the position to (5, 5), and whose
`Track` succeeds exactly on frames with timestamp 1, keeping the position. -/
def stampTracker : InnerTracker Unit :=
  { Clone := ()
    InitializeTracking := fun _ frame _ => (decide (frame.timestamp = 1), (5, 5), ())
    Track := fun _ frame mark => (decide (frame.timestamp = 1), mark, ()) }

/-- A frameset whose slots are all valid and hold empty frames with the given
timestamps. -/
def stampedFrameset (stamps : List Nat) : Frameset :=
  { frames := stamps.map fun stamp => { timestamp := stamp, data := default }
    valid := List.replicate stamps.length true }

/-- A tracking session of two cameras in which camera 0 is Tracking at (5, 5)
and camera 1 is Uninitialized, as reached from construction by
`SetMark(0, (3, 4))` and one `Track` call on frames stamped 1 and 0. -/
def trackingPair : TrackSession Unit :=
  { arity := 2
    trackpoints_ := { positions := [(5, 5), (0, 0)], valid := [true, false] }
    trackstates_ := [kTracking, kUninitialized]
    trackers_ := [(), ()] }

/-- A tracking session of three cameras that agrees with `trackingPair` on
camera 0 and differs from it in arity and in the other cameras. -/
def trackingTriple : TrackSession Unit :=
  { arity := 3
    trackpoints_ := { positions := [(5, 5), (1, 1), (2, 2)], valid := [true, true, false] }
    trackstates_ := [kTracking, kTracking, kLost]
    trackers_ := [(), (), ()] }

/-! ## Counting solver calls -/

/-- Whether an event is a stereo solve for pair index `index`. -/
def Event.isStereoSolve (index : Nat) : Event → Bool
  | Event.stereoCalibrate i _ _ _ _ _ => decide (i = index)
  | _ => false

/-- Number of single-camera solves made for camera `cam` in a log. -/
def cameraSolves (cam : Nat) (log : List Event) : Nat :=
  (log.filter (Event.isCameraSolve cam)).length

/-- Number of stereo solves made for pair index `index` in a log. -/
def stereoSolves (index : Nat) (log : List Event) : Nat :=
  (log.filter (Event.isStereoSolve index)).length

/-- The number 1 if a slot that was not Ready before is Ready after, else 0. -/
def becameReady (before after : CalibrationState) : Nat :=
  if before ≠ kReady ∧ after = kReady then 1 else 0

/-! # Theorems -/

/-! ## Lists as vectors -/

theorem getD_set_general {α : Type} (l : List α) (i j : Nat) (v d : α) :
    (l.set i v).getD j d = if i = j ∧ i < l.length then v else l.getD j d := by
  simp only [List.getD_eq_getElem?_getD, List.getElem?_set]
  by_cases h : i = j
  · subst h
    by_cases h2 : i < l.length
    · simp [h2]
    · simp [h2, List.getElem?_eq_none (Nat.le_of_not_lt h2)]
  · simp [h]

theorem getD_replicate_general {α : Type} (n j : Nat) (v d : α) :
    (List.replicate n v).getD j d = if j < n then v else d := by
  simp only [List.getD_eq_getElem?_getD, List.getElem?_replicate]
  by_cases h : j < n <;> simp [h]

/-! ## `GenerateArray` -/

theorem generateInner_fold_length (cam1 : Nat) (cams : List Nat) (st : List CameraPair × Nat) :
    (cams.foldl (generateInner cam1) st).1.length = st.1.length := by
  induction cams generalizing st with
  | nil => rfl
  | cons c cs ih => rw [List.foldl_cons, ih]; simp [generateInner]

theorem generateOuter_fold_length (n : Nat) (cams : List Nat) (st : List CameraPair × Nat) :
    (cams.foldl (generateOuter n) st).1.length = st.1.length := by
  induction cams generalizing st with
  | nil => rfl
  | cons c cs ih =>
    rw [List.foldl_cons, ih]
    exact generateInner_fold_length c _ st

theorem GenerateArray_length_eq (n : Nat) : (GenerateArray n).length = n * (n - 1) / 2 := by
  unfold GenerateArray
  simp only [generateOuter_fold_length, List.length_replicate]

/-- C1: at camera count 3 `GenerateArray` returns three entries of which only
the first was ever written (by the last loop iteration), the other two being
the zero pair; this is not the canonical list, whose entries carry the indices
0, 1, 2 and the pairs (0,1), (0,2), (1,2). -/
theorem GenerateArray_three_not_canonical :
    GenerateArray 3 = [⟨0, 1, 2⟩, ⟨0, 0, 0⟩, ⟨0, 0, 0⟩] ∧
      canonicalPairs 3 = [⟨0, 0, 1⟩, ⟨1, 0, 2⟩, ⟨2, 1, 2⟩] ∧
      GenerateArray 3 ≠ canonicalPairs 3 := by
  decide

/-- C2: `GenerateArray N` has `N*(N-1)/2` entries, and `Reset()` (hence the
constructor, which ends in `Reset()`) sizes the pair-state and pair-buffer
containers of a session of arity `N` to the same number. -/
theorem GenerateArray_length_and_Reset_sizes (N : Nat) (parameters : Parameters) (s : Session) :
    (GenerateArray N).length = N * (N - 1) / 2 ∧
      (Reset parameters s).pair_states_.length = s.arity_ * (s.arity_ - 1) / 2 ∧
      (Reset parameters s).image_points_pair_.length = s.arity_ * (s.arity_ - 1) / 2 ∧
      (CameraCalibration parameters N).pair_states_.length = (GenerateArray N).length ∧
      (CameraCalibration parameters N).image_points_pair_.length = (GenerateArray N).length := by
  refine ⟨GenerateArray_length_eq N, ?_, ?_, ?_, ?_⟩ <;>
    simp [Reset, CameraCalibration, Pairity, GenerateArray_length_eq]

/-! ## The value returned by `MeasureFrameset` -/

theorem measureCamera_of_ready (env : Env) (frameset : Frameset) (r : Run) (cam : Nat)
    (h : r.session.cameraState cam = kReady) :
    (measureCamera env frameset r cam).session = r.session ∧
      (measureCamera env frameset r cam).log = r.log := by
  unfold measureCamera
  split
  · exact ⟨rfl, rfl⟩
  · split
    · exact ⟨rfl, rfl⟩
    · next hne => exact absurd h (hne)

theorem cameraDetect_frame (env : Env) (frameset : Frameset) (cam : Nat) (s : Session) :
    (cameraDetect env frameset cam s).arity_ = s.arity_ ∧
      (cameraDetect env frameset cam s).pairs_ = s.pairs_ ∧
      (cameraDetect env frameset cam s).frames_to_collect_ = s.frames_to_collect_ ∧
      (cameraDetect env frameset cam s).frames_skip_ = s.frames_skip_ ∧
      (cameraDetect env frameset cam s).frame_no_ = s.frame_no_ ∧
      (cameraDetect env frameset cam s).pair_states_ = s.pair_states_ ∧
      (cameraDetect env frameset cam s).image_points_pair_ = s.image_points_pair_ ∧
      (cameraDetect env frameset cam s).data_ = s.data_ := by
  unfold cameraDetect
  cases env.Match (frameset.frame cam).data <;> simp

theorem cameraSolve_frame (env : Env) (frameset : Frameset) (cam : Nat) (s : Session) :
    (cameraSolve env frameset cam s).1.arity_ = s.arity_ ∧
      (cameraSolve env frameset cam s).1.pairs_ = s.pairs_ ∧
      (cameraSolve env frameset cam s).1.frames_to_collect_ = s.frames_to_collect_ ∧
      (cameraSolve env frameset cam s).1.frames_skip_ = s.frames_skip_ ∧
      (cameraSolve env frameset cam s).1.frame_no_ = s.frame_no_ ∧
      (cameraSolve env frameset cam s).1.pair_states_ = s.pair_states_ ∧
      (cameraSolve env frameset cam s).1.image_points_pair_ = s.image_points_pair_ ∧
      (cameraSolve env frameset cam s).1.data_.pair_parameters_ = s.data_.pair_parameters_ := by
  unfold cameraSolve
  by_cases h : s.frames_to_collect_ ≤ (s.cameraBuffer cam).length
  · simp [h]
  · simp [h]

theorem measureCamera_frame (env : Env) (frameset : Frameset) (r : Run) (cam : Nat) :
    (measureCamera env frameset r cam).session.arity_ = r.session.arity_ ∧
      (measureCamera env frameset r cam).session.pairs_ = r.session.pairs_ ∧
      (measureCamera env frameset r cam).session.frames_to_collect_ =
        r.session.frames_to_collect_ ∧
      (measureCamera env frameset r cam).session.frames_skip_ = r.session.frames_skip_ ∧
      (measureCamera env frameset r cam).session.frame_no_ = r.session.frame_no_ ∧
      (measureCamera env frameset r cam).session.pair_states_ = r.session.pair_states_ ∧
      (measureCamera env frameset r cam).session.image_points_pair_ =
        r.session.image_points_pair_ ∧
      (measureCamera env frameset r cam).session.data_.pair_parameters_ =
        r.session.data_.pair_parameters_ := by
  unfold measureCamera
  split
  · simp
  · split
    · simp
    · obtain ⟨h1, h2, h3, h4, h5, h6, h7, h8⟩ :=
        cameraSolve_frame env frameset cam (cameraDetect env frameset cam r.session)
      obtain ⟨g1, g2, g3, g4, g5, g6, g7, g8⟩ := cameraDetect_frame env frameset cam r.session
      exact ⟨h1.trans g1, h2.trans g2, h3.trans g3, h4.trans g4, h5.trans g5, h6.trans g6,
        h7.trans g7, h8.trans (congrArg _ g8)⟩

theorem pairDetect_frame (env : Env) (frameset : Frameset) (pair : CameraPair) (s : Session) :
    (pairDetect env frameset pair s).1.arity_ = s.arity_ ∧
      (pairDetect env frameset pair s).1.pairs_ = s.pairs_ ∧
      (pairDetect env frameset pair s).1.frames_to_collect_ = s.frames_to_collect_ ∧
      (pairDetect env frameset pair s).1.frames_skip_ = s.frames_skip_ ∧
      (pairDetect env frameset pair s).1.frame_no_ = s.frame_no_ ∧
      (pairDetect env frameset pair s).1.camera_states_ = s.camera_states_ ∧
      (pairDetect env frameset pair s).1.image_points_ = s.image_points_ ∧
      (pairDetect env frameset pair s).1.data_ = s.data_ := by
  unfold pairDetect
  cases env.Match (frameset.frame pair.cam1).data with
  | none => simp
  | some p1 =>
    cases env.Match (frameset.frame pair.cam2).data <;> simp

theorem pairSolve_frame (env : Env) (pair : CameraPair) (s : Session) :
    (pairSolve env pair s).1.arity_ = s.arity_ ∧
      (pairSolve env pair s).1.pairs_ = s.pairs_ ∧
      (pairSolve env pair s).1.frames_to_collect_ = s.frames_to_collect_ ∧
      (pairSolve env pair s).1.frames_skip_ = s.frames_skip_ ∧
      (pairSolve env pair s).1.frame_no_ = s.frame_no_ ∧
      (pairSolve env pair s).1.camera_states_ = s.camera_states_ ∧
      (pairSolve env pair s).1.image_points_ = s.image_points_ ∧
      (pairSolve env pair s).1.data_.camera_parameters_ = s.data_.camera_parameters_ := by
  unfold pairSolve
  by_cases h : s.frames_to_collect_ ≤ (s.pairBuffer pair.index).1.length
  · simp [h]
  · simp [h]

theorem measurePair_frame (env : Env) (frameset : Frameset) (r : Run) (pair : CameraPair) :
    (measurePair env frameset r pair).session.arity_ = r.session.arity_ ∧
      (measurePair env frameset r pair).session.pairs_ = r.session.pairs_ ∧
      (measurePair env frameset r pair).session.frames_to_collect_ =
        r.session.frames_to_collect_ ∧
      (measurePair env frameset r pair).session.frames_skip_ = r.session.frames_skip_ ∧
      (measurePair env frameset r pair).session.frame_no_ = r.session.frame_no_ ∧
      (measurePair env frameset r pair).session.camera_states_ = r.session.camera_states_ ∧
      (measurePair env frameset r pair).session.image_points_ = r.session.image_points_ ∧
      (measurePair env frameset r pair).session.data_.camera_parameters_ =
        r.session.data_.camera_parameters_ := by
  unfold measurePair
  split
  · simp
  · split
    · simp
    · split
      · simp
      · obtain ⟨h1, h2, h3, h4, h5, h6, h7, h8⟩ :=
          pairSolve_frame env pair (pairDetect env frameset pair r.session).1
        obtain ⟨g1, g2, g3, g4, g5, g6, g7, g8⟩ := pairDetect_frame env frameset pair r.session
        exact ⟨h1.trans g1, h2.trans g2, h3.trans g3, h4.trans g4, h5.trans g5, h6.trans g6,
          h7.trans g7, h8.trans (congrArg _ g8)⟩

theorem cameraLoop_frame (env : Env) (frameset : Frameset) (cams : List Nat) (r : Run) :
    (cams.foldl (measureCamera env frameset) r).session.arity_ = r.session.arity_ ∧
      (cams.foldl (measureCamera env frameset) r).session.pairs_ = r.session.pairs_ ∧
      (cams.foldl (measureCamera env frameset) r).session.frames_to_collect_ =
        r.session.frames_to_collect_ ∧
      (cams.foldl (measureCamera env frameset) r).session.frames_skip_ =
        r.session.frames_skip_ ∧
      (cams.foldl (measureCamera env frameset) r).session.frame_no_ = r.session.frame_no_ ∧
      (cams.foldl (measureCamera env frameset) r).session.pair_states_ =
        r.session.pair_states_ ∧
      (cams.foldl (measureCamera env frameset) r).session.image_points_pair_ =
        r.session.image_points_pair_ ∧
      (cams.foldl (measureCamera env frameset) r).session.data_.pair_parameters_ =
        r.session.data_.pair_parameters_ := by
  induction cams generalizing r with
  | nil => simp
  | cons c cs ih =>
    rw [List.foldl_cons]
    obtain ⟨h1, h2, h3, h4, h5, h6, h7, h8⟩ := ih (measureCamera env frameset r c)
    obtain ⟨g1, g2, g3, g4, g5, g6, g7, g8⟩ := measureCamera_frame env frameset r c
    exact ⟨h1.trans g1, h2.trans g2, h3.trans g3, h4.trans g4, h5.trans g5, h6.trans g6,
      h7.trans g7, h8.trans g8⟩

theorem pairLoop_frame (env : Env) (frameset : Frameset) (pairs : List CameraPair) (r : Run) :
    (pairs.foldl (measurePair env frameset) r).session.arity_ = r.session.arity_ ∧
      (pairs.foldl (measurePair env frameset) r).session.pairs_ = r.session.pairs_ ∧
      (pairs.foldl (measurePair env frameset) r).session.frames_to_collect_ =
        r.session.frames_to_collect_ ∧
      (pairs.foldl (measurePair env frameset) r).session.frames_skip_ =
        r.session.frames_skip_ ∧
      (pairs.foldl (measurePair env frameset) r).session.frame_no_ = r.session.frame_no_ ∧
      (pairs.foldl (measurePair env frameset) r).session.camera_states_ =
        r.session.camera_states_ ∧
      (pairs.foldl (measurePair env frameset) r).session.image_points_ =
        r.session.image_points_ ∧
      (pairs.foldl (measurePair env frameset) r).session.data_.camera_parameters_ =
        r.session.data_.camera_parameters_ := by
  induction pairs generalizing r with
  | nil => simp
  | cons c cs ih =>
    rw [List.foldl_cons]
    obtain ⟨h1, h2, h3, h4, h5, h6, h7, h8⟩ := ih (measurePair env frameset r c)
    obtain ⟨g1, g2, g3, g4, g5, g6, g7, g8⟩ := measurePair_frame env frameset r c
    exact ⟨h1.trans g1, h2.trans g2, h3.trans g3, h4.trans g4, h5.trans g5, h6.trans g6,
      h7.trans g7, h8.trans g8⟩

theorem measureWork_config (env : Env) (s : Session) (frameset : Frameset) :
    (measureWork env s frameset).session.arity_ = s.arity_ ∧
      (measureWork env s frameset).session.pairs_ = s.pairs_ ∧
      (measureWork env s frameset).session.frames_to_collect_ = s.frames_to_collect_ ∧
      (measureWork env s frameset).session.frames_skip_ = s.frames_skip_ ∧
      (measureWork env s frameset).session.frame_no_ = s.frame_no_ := by
  unfold measureWork
  obtain ⟨h1, h2, h3, h4, h5, -⟩ := pairLoop_frame env frameset s.pairs_
    ((List.range s.arity_).foldl (measureCamera env frameset)
      { session := s, result := true, log := [] })
  obtain ⟨g1, g2, g3, g4, g5, -⟩ := cameraLoop_frame env frameset (List.range s.arity_)
    { session := s, result := true, log := [] }
  exact ⟨h1.trans g1, h2.trans g2, h3.trans g3, h4.trans g4, h5.trans g5⟩

theorem MeasureFrameset_config (env : Env) (s : Session) (frameset : Frameset) (r : Run)
    (h : MeasureFrameset env s frameset = some r) :
    r.session.arity_ = s.arity_ ∧ r.session.pairs_ = s.pairs_ ∧
      r.session.frames_to_collect_ = s.frames_to_collect_ ∧
      r.session.frames_skip_ = s.frames_skip_ ∧ r.session.frame_no_ = s.frame_no_ + 1 := by
  unfold MeasureFrameset at h
  split at h
  · exact absurd h (by simp)
  · split at h
    · cases h; simp
    · cases h
      exact measureWork_config env { s with frame_no_ := s.frame_no_ + 1 } frameset

theorem MeasureFrameset_some (env : Env) (s : Session) (frameset : Frameset)
    (harity : frameset.Arity = s.arity_) : ∃ r, MeasureFrameset env s frameset = some r := by
  unfold MeasureFrameset
  rw [if_neg (not_not.2 harity)]
  split <;> exact ⟨_, rfl⟩

theorem measureAll_some (env : Env) (frames : List Frameset) (s : Session)
    (harity : ∀ frameset ∈ frames, frameset.Arity = s.arity_) :
    ∃ s' results log, measureAll env s frames = some (s', results, log) ∧
      s'.arity_ = s.arity_ ∧ s'.pairs_ = s.pairs_ ∧
      s'.frames_to_collect_ = s.frames_to_collect_ ∧ s'.frames_skip_ = s.frames_skip_ ∧
      s'.frame_no_ = s.frame_no_ + frames.length ∧ results.length = frames.length := by
  induction frames generalizing s with
  | nil => exact ⟨s, [], [], rfl, rfl, rfl, rfl, rfl, rfl, rfl⟩
  | cons f fs ih =>
    obtain ⟨r, hr⟩ := MeasureFrameset_some env s f (harity f (List.mem_cons_self f fs))
    obtain ⟨c1, c2, c3, c4, c5⟩ := MeasureFrameset_config env s f r hr
    obtain ⟨s', results, log, hrun, d1, d2, d3, d4, d5, d6⟩ := ih r.session (by
      intro frameset hmem
      rw [c1]
      exact harity frameset (List.mem_cons_of_mem f hmem))
    refine ⟨s', r.result :: results, r.log ++ log, ?_, d1.trans c1, d2.trans c2, d3.trans c3,
      d4.trans c4, ?_, ?_⟩
    · simp [measureAll, hr, hrun]
    · rw [d5, c5, List.length_cons]; omega
    · simp [d6]

/-! ## C3, C4, C5: the returned flag and the frame-skip policy -/

theorem Reachable.pairs (env : Env) (s : Session) (hs : Reachable env s) :
    s.pairs_ = GenerateArray s.arity_ ∧ 1 ≤ s.arity_ := by
  induction hs with
  | construct parameters arity harity _ => exact ⟨rfl, harity⟩
  | measure s frameset r _ hcall ih =>
    obtain ⟨c1, c2, -⟩ := MeasureFrameset_config env s frameset r hcall
    rw [c1, c2]
    exact ih
  | reset s parameters _ _ ih => exact ih

/-- In a reachable session of one or two cameras the pair list addresses
exactly the pair states: every entry carries an index below `N*(N-1)/2` and
every such index is carried by an entry. -/
theorem Reachable.pairs_address_all (env : Env) (s : Session) (hs : Reachable env s)
    (harity : s.arity_ ≤ 2) :
    (∀ pair ∈ s.pairs_, pair.index < s.arity_ * (s.arity_ - 1) / 2) ∧
      ∀ index, index < s.arity_ * (s.arity_ - 1) / 2 →
        ∃ pair ∈ s.pairs_, pair.index = index := by
  obtain ⟨hp, h1⟩ := Reachable.pairs env s hs
  rw [hp]
  have h : s.arity_ = 1 ∨ s.arity_ = 2 := by omega
  rcases h with h | h <;> rw [h] <;> decide

/-- C4 (counterexample): one camera, threshold 1, skip 1.  Calls 0 and 2 do
the work and call 2 returns `true`; call 3 is skipped (3 is not a multiple of
2) and returns `false`, not the `true` its predecessor returned. -/
theorem MeasureFrameset_skipped_after_true :
    (measureAll detectAlways (CameraCalibration ⟨1, 1⟩ 1)
        (List.replicate 4 (framesetOf [true]))).map (fun x => x.2.1) =
      some [false, false, true, false] ∧ 3 % ((CameraCalibration ⟨1, 1⟩ 1).frames_skip_ + 1) ≠ 0 := by
  decide

/-- C4 (amended): every `MeasureFrameset` call that the frame-skip policy skips
returns `false`, whatever the previous call returned. -/
theorem MeasureFrameset_skipped_returns_false (env : Env) (s : Session) (frameset : Frameset)
    (harity : frameset.Arity = s.arity_) (hskip : s.frame_no_ % (s.frames_skip_ + 1) ≠ 0) :
    ∃ r, MeasureFrameset env s frameset = some r ∧ r.result = false := by
  refine ⟨{ session := { s with frame_no_ := s.frame_no_ + 1 }, result := false, log := [] }, ?_, rfl⟩
  unfold MeasureFrameset
  rw [if_neg (not_not.2 harity), if_pos hskip]

/-- C4 (witness): the amended statement at a one-camera session with skip 1
whose frame counter stands at 1. -/
theorem MeasureFrameset_skipped_returns_false_witness :
    ∃ r, MeasureFrameset detectAlways { CameraCalibration ⟨1, 1⟩ 1 with frame_no_ := 1 }
      (framesetOf [true]) = some r ∧ r.result = false :=
  MeasureFrameset_skipped_returns_false detectAlways
    { CameraCalibration ⟨1, 1⟩ 1 with frame_no_ := 1 } (framesetOf [true]) (by decide) (by decide)

/-- C5: count the `MeasureFrameset` calls from 0 after construction or
`Reset()`.  After any number of calls on framesets of matching arity the frame
counter equals the number of calls made, so the next call has that number; if
the number is not a multiple of skip + 1, the next call leaves the session as
it is except for the frame counter, which advances by one, and its log of
detector and solver calls is empty. -/
theorem MeasureFrameset_skipped_is_noop (env : Env) (parameters : Parameters) (arity : Nat)
    (s0 s : Session) (frames : List Frameset) (next : Frameset)
    (hfresh : s0 = CameraCalibration parameters arity ∨ s0 = Reset parameters s)
    (hframes : ∀ frameset ∈ frames, frameset.Arity = s0.arity_)
    (hnext : next.Arity = s0.arity_) :
    ∃ s' results log, measureAll env s0 frames = some (s', results, log) ∧
      s'.frame_no_ = frames.length ∧
      s'.frames_skip_ = parameters.CALIBRATION_SKIP ∧
      (frames.length % (parameters.CALIBRATION_SKIP + 1) ≠ 0 →
        MeasureFrameset env s' next =
          some { session := { s' with frame_no_ := s'.frame_no_ + 1 }, result := false, log := [] }) := by
  obtain ⟨s', results, log, hrun, h1, -, -, h4, h5, -⟩ := measureAll_some env frames s0 hframes
  have hno : s0.frame_no_ = 0 := by
    rcases hfresh with h | h <;> rw [h] <;> rfl
  have hsk : s0.frames_skip_ = parameters.CALIBRATION_SKIP := by
    rcases hfresh with h | h <;> rw [h] <;> rfl
  refine ⟨s', results, log, hrun, by omega, h4.trans hsk, ?_⟩
  intro hnot
  unfold MeasureFrameset
  rw [if_neg (not_not.2 (hnext.trans h1.symm)), if_pos]
  rw [h4, hsk, h5, hno, Nat.zero_add]
  exact hnot

/-- C5 (witness): a fresh one-camera session with skip 2 and one call made;
call number 1 is not a multiple of 3. -/
theorem MeasureFrameset_skipped_is_noop_witness :
    [framesetOf [true]].length % ((⟨1, 2⟩ : Parameters).CALIBRATION_SKIP + 1) ≠ 0 ∧
    ∃ s' results log,
      measureAll detectAlways (CameraCalibration ⟨1, 2⟩ 1) [framesetOf [true]] =
        some (s', results, log) ∧
      s'.frame_no_ = [framesetOf [true]].length ∧
      s'.frames_skip_ = (⟨1, 2⟩ : Parameters).CALIBRATION_SKIP ∧
      ([framesetOf [true]].length % ((⟨1, 2⟩ : Parameters).CALIBRATION_SKIP + 1) ≠ 0 →
        MeasureFrameset detectAlways s' (framesetOf [true]) =
          some { session := { s' with frame_no_ := s'.frame_no_ + 1 }, result := false, log := [] }) :=
  ⟨by decide, MeasureFrameset_skipped_is_noop detectAlways ⟨1, 2⟩ 1 (CameraCalibration ⟨1, 2⟩ 1)
    (CameraCalibration ⟨1, 2⟩ 1) [framesetOf [true]] (framesetOf [true]) (Or.inl rfl)
    (by decide) (by decide)⟩

/-! ## Effect of the loop bodies on one slot -/

theorem cameraDetect_none (env : Env) (frameset : Frameset) (cam : Nat) (s : Session)
    (h : env.Match (frameset.frame cam).data = none) : cameraDetect env frameset cam s = s := by
  simp [cameraDetect, h]

theorem cameraDetect_some (env : Env) (frameset : Frameset) (cam : Nat) (s : Session)
    (points : Point2Vector) (h : env.Match (frameset.frame cam).data = some points) :
    cameraDetect env frameset cam s =
      { s with
        image_points_ := s.image_points_.set cam (s.cameraBuffer cam ++ [points])
        camera_states_ := s.camera_states_.set cam kCollecting } := by
  simp [cameraDetect, h]

theorem cameraSolve_below (env : Env) (frameset : Frameset) (cam : Nat) (s : Session)
    (h : ¬ s.frames_to_collect_ ≤ (s.cameraBuffer cam).length) :
    cameraSolve env frameset cam s = (s, []) := by
  simp [cameraSolve, h]

theorem cameraSolve_reached (env : Env) (frameset : Frameset) (cam : Nat) (s : Session)
    (h : s.frames_to_collect_ ≤ (s.cameraBuffer cam).length) :
    cameraSolve env frameset cam s =
      ({ s with
         data_ := { s.data_ with
                    camera_parameters_ := s.data_.camera_parameters_.set cam
                      (env.calibrateCamera
                        (List.replicate (s.cameraBuffer cam).length env.ObjectPoints)
                        (s.cameraBuffer cam) (frameset.frame cam).data.size
                        (s.cameraParameters cam)) }
         camera_states_ := s.camera_states_.set cam kReady
         image_points_ := s.image_points_.set cam [] },
       [Event.calibrateCamera cam (List.replicate (s.cameraBuffer cam).length env.ObjectPoints)
          (s.cameraBuffer cam)]) := by
  simp [cameraSolve, h]

theorem measureCamera_invalid (env : Env) (frameset : Frameset) (r : Run) (cam : Nat)
    (h : frameset.IsValid cam = false) :
    (measureCamera env frameset r cam).session = r.session ∧
      (measureCamera env frameset r cam).log = r.log := by
  simp [measureCamera, h]

theorem measureCamera_work (env : Env) (frameset : Frameset) (r : Run) (cam : Nat)
    (hvalid : frameset.IsValid cam = true) (hne : r.session.cameraState cam ≠ kReady) :
    measureCamera env frameset r cam =
      { session := (cameraSolve env frameset cam (cameraDetect env frameset cam r.session)).1
        result := false
        log := r.log ++ [Event.detect cam] ++
          (cameraSolve env frameset cam (cameraDetect env frameset cam r.session)).2 } := by
  unfold measureCamera
  rw [if_neg (by simp [hvalid])]
  split
  · next h => exact absurd h hne
  · rfl

theorem measureCamera_sizes (env : Env) (frameset : Frameset) (r : Run) (cam : Nat) :
    (measureCamera env frameset r cam).session.camera_states_.length =
        r.session.camera_states_.length ∧
      (measureCamera env frameset r cam).session.image_points_.length =
        r.session.image_points_.length ∧
      (measureCamera env frameset r cam).session.data_.camera_parameters_.length =
        r.session.data_.camera_parameters_.length := by
  unfold measureCamera
  split
  · simp
  · split
    · simp
    · simp only [cameraSolve, cameraDetect]
      split <;> split <;> simp

theorem measureCamera_other (env : Env) (frameset : Frameset) (r : Run) (cam j : Nat)
    (hj : j ≠ cam) :
    (measureCamera env frameset r cam).session.cameraState j = r.session.cameraState j ∧
      (measureCamera env frameset r cam).session.cameraBuffer j = r.session.cameraBuffer j ∧
      (measureCamera env frameset r cam).session.cameraParameters j =
        r.session.cameraParameters j ∧
      (measureCamera env frameset r cam).log.filter (Event.isCameraSolve j) =
        r.log.filter (Event.isCameraSolve j) := by
  unfold measureCamera
  split
  · simp
  · split
    · simp
    · simp only [cameraSolve, cameraDetect]
      split <;> split <;>
        simp [Session.cameraState, Session.cameraBuffer, Session.cameraParameters,
          getD_set_general, Ne.symm hj, Event.isCameraSolve]

theorem measureCamera_detected (env : Env) (frameset : Frameset) (r : Run) (cam : Nat)
    (points : Point2Vector)
    (hs1 : cam < r.session.camera_states_.length) (hs2 : cam < r.session.image_points_.length)
    (hvalid : frameset.IsValid cam = true) (hne : r.session.cameraState cam ≠ kReady)
    (hm : env.Match (frameset.frame cam).data = some points) :
    (r.session.frames_to_collect_ ≤ (r.session.cameraBuffer cam).length + 1 →
        (measureCamera env frameset r cam).session.cameraState cam = kReady ∧
        (measureCamera env frameset r cam).session.cameraBuffer cam = [] ∧
        (measureCamera env frameset r cam).log = r.log ++ [Event.detect cam,
          Event.calibrateCamera cam
            (List.replicate ((r.session.cameraBuffer cam).length + 1) env.ObjectPoints)
            (r.session.cameraBuffer cam ++ [points])]) ∧
      (¬ r.session.frames_to_collect_ ≤ (r.session.cameraBuffer cam).length + 1 →
        (measureCamera env frameset r cam).session.cameraState cam = kCollecting ∧
        (measureCamera env frameset r cam).session.cameraBuffer cam =
          r.session.cameraBuffer cam ++ [points] ∧
        (measureCamera env frameset r cam).log = r.log ++ [Event.detect cam]) := by
  rw [measureCamera_work env frameset r cam hvalid hne,
    cameraDetect_some env frameset cam _ points hm]
  have hb : Session.cameraBuffer
      { r.session with
        image_points_ := r.session.image_points_.set cam (r.session.cameraBuffer cam ++ [points])
        camera_states_ := r.session.camera_states_.set cam kCollecting } cam =
      r.session.cameraBuffer cam ++ [points] := by
    simp [Session.cameraBuffer, getD_set_general, hs2]
  constructor
  · intro hT
    rw [cameraSolve_reached env frameset cam _ (by rw [hb]; simpa using hT)]
    rw [hb]
    simp [Session.cameraState, Session.cameraBuffer, getD_set_general, hs1, hs2]
  · intro hT
    rw [cameraSolve_below env frameset cam _ (by rw [hb]; simpa using hT)]
    simp [Session.cameraState, Session.cameraBuffer, getD_set_general, hs1, hs2]

theorem measureCamera_undetected (env : Env) (frameset : Frameset) (r : Run) (cam : Nat)
    (hs1 : cam < r.session.camera_states_.length) (hs2 : cam < r.session.image_points_.length)
    (hvalid : frameset.IsValid cam = true) (hne : r.session.cameraState cam ≠ kReady)
    (hm : env.Match (frameset.frame cam).data = none) :
    (r.session.frames_to_collect_ ≤ (r.session.cameraBuffer cam).length →
        (measureCamera env frameset r cam).session.cameraState cam = kReady ∧
        (measureCamera env frameset r cam).session.cameraBuffer cam = [] ∧
        (measureCamera env frameset r cam).log = r.log ++ [Event.detect cam,
          Event.calibrateCamera cam
            (List.replicate (r.session.cameraBuffer cam).length env.ObjectPoints)
            (r.session.cameraBuffer cam)]) ∧
      (¬ r.session.frames_to_collect_ ≤ (r.session.cameraBuffer cam).length →
        (measureCamera env frameset r cam).session = r.session ∧
        (measureCamera env frameset r cam).log = r.log ++ [Event.detect cam]) := by
  rw [measureCamera_work env frameset r cam hvalid hne, cameraDetect_none env frameset cam _ hm]
  constructor
  · intro hT
    rw [cameraSolve_reached env frameset cam _ hT]
    simp [Session.cameraState, Session.cameraBuffer, getD_set_general, hs1, hs2]
  · intro hT
    rw [cameraSolve_below env frameset cam _ hT]
    simp

/-! ## C6: a camera collects up to the threshold and is solved once -/

theorem cameraLoop_sizes (env : Env) (frameset : Frameset) (cams : List Nat) (r : Run) :
    (cams.foldl (measureCamera env frameset) r).session.camera_states_.length =
        r.session.camera_states_.length ∧
      (cams.foldl (measureCamera env frameset) r).session.image_points_.length =
        r.session.image_points_.length ∧
      (cams.foldl (measureCamera env frameset) r).session.data_.camera_parameters_.length =
        r.session.data_.camera_parameters_.length := by
  induction cams generalizing r with
  | nil => simp
  | cons c cs ih =>
    rw [List.foldl_cons]
    obtain ⟨h1, h2, h3⟩ := ih (measureCamera env frameset r c)
    obtain ⟨g1, g2, g3⟩ := measureCamera_sizes env frameset r c
    exact ⟨h1.trans g1, h2.trans g2, h3.trans g3⟩

theorem cameraLoop_other (env : Env) (frameset : Frameset) (cams : List Nat) (r : Run) (j : Nat)
    (hj : j ∉ cams) :
    (cams.foldl (measureCamera env frameset) r).session.cameraState j = r.session.cameraState j ∧
      (cams.foldl (measureCamera env frameset) r).session.cameraBuffer j =
        r.session.cameraBuffer j ∧
      (cams.foldl (measureCamera env frameset) r).session.cameraParameters j =
        r.session.cameraParameters j ∧
      (cams.foldl (measureCamera env frameset) r).log.filter (Event.isCameraSolve j) =
        r.log.filter (Event.isCameraSolve j) := by
  induction cams generalizing r with
  | nil => simp
  | cons c cs ih =>
    rw [List.foldl_cons]
    obtain ⟨h1, h2, h3, h4⟩ := ih (measureCamera env frameset r c)
      (fun h => hj (List.mem_cons_of_mem c h))
    obtain ⟨g1, g2, g3, g4⟩ := measureCamera_other env frameset r c j
      (fun h => hj (h ▸ List.mem_cons_self c cs))
    exact ⟨h1.trans g1, h2.trans g2, h3.trans g3, h4.trans g4⟩

theorem pairDetect_log_camera (env : Env) (frameset : Frameset) (pair : CameraPair)
    (s : Session) (j : Nat) :
    (pairDetect env frameset pair s).2.filter (Event.isCameraSolve j) = [] := by
  unfold pairDetect
  cases env.Match (frameset.frame pair.cam1).data with
  | none => rfl
  | some p1 => cases env.Match (frameset.frame pair.cam2).data <;> rfl

theorem pairSolve_log_camera (env : Env) (pair : CameraPair) (s : Session) (j : Nat) :
    (pairSolve env pair s).2.filter (Event.isCameraSolve j) = [] := by
  unfold pairSolve
  by_cases h : s.frames_to_collect_ ≤ (s.pairBuffer pair.index).1.length
  · simp [h, Event.isCameraSolve]
  · simp [h]

theorem measurePair_log_camera (env : Env) (frameset : Frameset) (r : Run) (pair : CameraPair)
    (j : Nat) :
    (measurePair env frameset r pair).log.filter (Event.isCameraSolve j) =
      r.log.filter (Event.isCameraSolve j) := by
  unfold measurePair
  split
  · rfl
  · split
    · rfl
    · split
      · rfl
      · simp only [List.filter_append, pairDetect_log_camera, pairSolve_log_camera,
          List.append_nil]

theorem pairLoop_log_camera (env : Env) (frameset : Frameset) (pairs : List CameraPair) (r : Run)
    (j : Nat) :
    (pairs.foldl (measurePair env frameset) r).log.filter (Event.isCameraSolve j) =
      r.log.filter (Event.isCameraSolve j) := by
  induction pairs generalizing r with
  | nil => rfl
  | cons c cs ih =>
    rw [List.foldl_cons, ih, measurePair_log_camera]

theorem range_split (n c : Nat) (hc : c < n) :
    ∃ before after, List.range n = before ++ c :: after ∧ c ∉ before ∧ c ∉ after := by
  obtain ⟨before, after, h⟩ := List.append_of_mem (List.mem_range.2 hc)
  refine ⟨before, after, h, ?_, ?_⟩
  · intro hmem
    have hnd := List.nodup_range n
    rw [h] at hnd
    have := (List.nodup_append.1 hnd).2.2
    exact this hmem (List.mem_cons_self c after)
  · intro hmem
    have hnd := List.nodup_range n
    rw [h] at hnd
    have := (List.nodup_cons.1 (List.nodup_append.1 hnd).2.1).1
    exact this hmem

theorem measureWork_camera_detected (env : Env) (s : Session) (frameset : Frameset) (c : Nat)
    (points : Point2Vector) (hc : c < s.arity_)
    (hs1 : c < s.camera_states_.length) (hs2 : c < s.image_points_.length)
    (hvalid : frameset.IsValid c = true) (hne : s.cameraState c ≠ kReady)
    (hm : env.Match (frameset.frame c).data = some points) :
    (s.frames_to_collect_ ≤ (s.cameraBuffer c).length + 1 →
        (measureWork env s frameset).session.cameraState c = kReady ∧
        (measureWork env s frameset).session.cameraBuffer c = [] ∧
        (measureWork env s frameset).log.filter (Event.isCameraSolve c) =
          [Event.calibrateCamera c
            (List.replicate ((s.cameraBuffer c).length + 1) env.ObjectPoints)
            (s.cameraBuffer c ++ [points])]) ∧
      (¬ s.frames_to_collect_ ≤ (s.cameraBuffer c).length + 1 →
        (measureWork env s frameset).session.cameraState c = kCollecting ∧
        (measureWork env s frameset).session.cameraBuffer c = s.cameraBuffer c ++ [points] ∧
        (measureWork env s frameset).log.filter (Event.isCameraSolve c) = []) := by
  obtain ⟨before, after, hsplit, hb, ha⟩ := range_split s.arity_ c hc
  unfold measureWork
  rw [hsplit, List.foldl_append, List.foldl_cons]
  generalize hr0 : (before.foldl (measureCamera env frameset)
    { session := s, result := true, log := [] }) = r0
  obtain ⟨b1, b2, -, b4⟩ := cameraLoop_other env frameset before
    { session := s, result := true, log := [] } c hb
  obtain ⟨z1, z2, -⟩ := cameraLoop_sizes env frameset before
    { session := s, result := true, log := [] }
  obtain ⟨f1, f2, f3, -⟩ := cameraLoop_frame env frameset before
    { session := s, result := true, log := [] }
  rw [hr0] at b1 b2 b4 z1 z2 f1 f2 f3
  simp only [List.filter_nil] at b4 z1 z2 b1 b2 f3
  obtain ⟨d1, d2⟩ := measureCamera_detected env frameset r0 c points (by omega) (by omega)
    hvalid (by rw [b1]; exact hne) hm
  generalize hr1 : measureCamera env frameset r0 c = r1 at d1 d2
  obtain ⟨a1, a2, -, a4⟩ := cameraLoop_other env frameset after r1 c ha
  generalize hr2 : after.foldl (measureCamera env frameset) r1 = r2 at a1 a2 a4
  obtain ⟨-, -, -, -, -, p1, p2, -⟩ := pairLoop_frame env frameset s.pairs_ r2
  have p3 := pairLoop_log_camera env frameset s.pairs_ r2 c
  have hst : ∀ r : Run, r.session.camera_states_ = r2.session.camera_states_ →
      r.session.cameraState c = r2.session.cameraState c := by
    intro r h; simp only [Session.cameraState, h]
  have hbuf : ∀ r : Run, r.session.image_points_ = r2.session.image_points_ →
      r.session.cameraBuffer c = r2.session.cameraBuffer c := by
    intro r h; simp only [Session.cameraBuffer, h]
  rw [hst _ p1, hbuf _ p2, p3, a1, a2, a4]
  rw [f3, b2] at d1 d2
  constructor
  · intro hT
    obtain ⟨e1, e2, e3⟩ := d1 hT
    refine ⟨e1, e2, ?_⟩
    rw [e3, List.filter_append, b4]
    simp [Event.isCameraSolve]
  · intro hT
    obtain ⟨e1, e2, e3⟩ := d2 hT
    refine ⟨e1, e2, ?_⟩
    rw [e3, List.filter_append, b4]
    simp [Event.isCameraSolve]

theorem MeasureFrameset_work (env : Env) (s : Session) (frameset : Frameset)
    (harity : frameset.Arity = s.arity_) (hwork : s.frame_no_ % (s.frames_skip_ + 1) = 0) :
    MeasureFrameset env s frameset =
      some (measureWork env { s with frame_no_ := s.frame_no_ + 1 } frameset) := by
  unfold MeasureFrameset
  rw [if_neg (not_not.2 harity), if_neg (not_not.2 hwork)]

theorem measureWork_sizes (env : Env) (s : Session) (frameset : Frameset) :
    (measureWork env s frameset).session.camera_states_.length = s.camera_states_.length ∧
      (measureWork env s frameset).session.image_points_.length = s.image_points_.length := by
  unfold measureWork
  obtain ⟨-, -, -, -, -, p1, p2, -⟩ := pairLoop_frame env frameset s.pairs_
    ((List.range s.arity_).foldl (measureCamera env frameset)
      { session := s, result := true, log := [] })
  obtain ⟨z1, z2, -⟩ := cameraLoop_sizes env frameset (List.range s.arity_)
    { session := s, result := true, log := [] }
  rw [p1, p2]
  exact ⟨z1, z2⟩

theorem measureWork_camera_detected_next (env : Env) (s : Session) (frameset : Frameset) (c : Nat)
    (points : Point2Vector) (hc : c < s.arity_)
    (hs1 : c < s.camera_states_.length) (hs2 : c < s.image_points_.length)
    (hvalid : frameset.IsValid c = true) (hne : s.cameraState c ≠ kReady)
    (hm : env.Match (frameset.frame c).data = some points) (r : Run)
    (hr : measureWork env { s with frame_no_ := s.frame_no_ + 1 } frameset = r) :
    (s.frames_to_collect_ ≤ (s.cameraBuffer c).length + 1 →
        r.session.cameraState c = kReady ∧ r.session.cameraBuffer c = [] ∧
        r.log.filter (Event.isCameraSolve c) =
          [Event.calibrateCamera c
            (List.replicate ((s.cameraBuffer c).length + 1) env.ObjectPoints)
            (s.cameraBuffer c ++ [points])]) ∧
      (¬ s.frames_to_collect_ ≤ (s.cameraBuffer c).length + 1 →
        r.session.cameraState c = kCollecting ∧
        r.session.cameraBuffer c = s.cameraBuffer c ++ [points] ∧
        r.log.filter (Event.isCameraSolve c) = []) := by
  subst hr
  exact measureWork_camera_detected env { s with frame_no_ := s.frame_no_ + 1 } frameset c
    points hc hs1 hs2 hvalid hne hm

theorem camera_collects_from (env : Env) (c : Nat)
    (hdetect : ∀ image, (env.Match image).isSome = true) (frames : List Frameset) (s : Session)
    (hc : c < s.arity_) (hskip : s.frames_skip_ = 0)
    (hs1 : c < s.camera_states_.length) (hs2 : c < s.image_points_.length)
    (hne : s.cameraState c ≠ kReady)
    (hframes : ∀ frameset ∈ frames, frameset.Arity = s.arity_ ∧ frameset.IsValid c = true)
    (hroom : (s.cameraBuffer c).length + frames.length ≤ s.frames_to_collect_)
    (hbelow : (s.cameraBuffer c).length < s.frames_to_collect_) :
    ∃ s' results log, measureAll env s frames = some (s', results, log) ∧
      ((s.cameraBuffer c).length + frames.length < s.frames_to_collect_ →
        s'.cameraState c ≠ kReady ∧
        (frames ≠ [] ∨ s.cameraState c = kCollecting → s'.cameraState c = kCollecting) ∧
        (s'.cameraBuffer c).length = (s.cameraBuffer c).length + frames.length ∧
        log.filter (Event.isCameraSolve c) = []) ∧
      ((s.cameraBuffer c).length + frames.length = s.frames_to_collect_ →
        s'.cameraState c = kReady ∧
        ∃ samples, samples.length = s.frames_to_collect_ ∧
          log.filter (Event.isCameraSolve c) =
            [Event.calibrateCamera c (List.replicate s.frames_to_collect_ env.ObjectPoints)
              samples]) := by
  induction frames generalizing s with
  | nil =>
    refine ⟨s, [], [], rfl, ?_, ?_⟩
    · intro _
      refine ⟨hne, ?_, rfl, rfl⟩
      rintro (h | h)
      · exact absurd rfl h
      · exact h
    · intro h
      simp only [List.length_nil, Nat.add_zero] at h
      omega
  | cons f fs ih =>
    obtain ⟨hfa, hfv⟩ := hframes f (List.mem_cons_self f fs)
    have hcall := MeasureFrameset_work env s f hfa (by rw [hskip]; exact Nat.mod_one _)
    obtain ⟨points, hm⟩ := Option.isSome_iff_exists.1 (hdetect (f.frame c).data)
    obtain ⟨z1, z2⟩ := measureWork_sizes env { s with frame_no_ := s.frame_no_ + 1 } f
    obtain ⟨c1, -, c3, c4, -⟩ := measureWork_config env { s with frame_no_ := s.frame_no_ + 1 } f
    generalize hr : measureWork env { s with frame_no_ := s.frame_no_ + 1 } f = r
      at hcall z1 z2 c1 c3 c4
    obtain ⟨w1, w2⟩ := measureWork_camera_detected_next env s f c points hc hs1 hs2 hfv hne hm r hr
    change r.session.arity_ = s.arity_ at c1
    change r.session.frames_to_collect_ = s.frames_to_collect_ at c3
    change r.session.frames_skip_ = s.frames_skip_ at c4
    change r.session.camera_states_.length = s.camera_states_.length at z1
    change r.session.image_points_.length = s.image_points_.length at z2
    simp only [List.length_cons] at hroom ⊢
    by_cases hT : s.frames_to_collect_ ≤ (s.cameraBuffer c).length + 1
    · obtain ⟨e1, e2, e3⟩ := w1 hT
      have hfs : fs = [] := by
        cases fs with
        | nil => rfl
        | cons a as => simp only [List.length_cons] at hroom; omega
      subst hfs
      refine ⟨r.session, [r.result], r.log ++ [], ?_, ?_, ?_⟩
      · simp [measureAll, hcall]
      · intro h
        simp only [List.length_nil] at h
        omega
      · intro _
        refine ⟨e1, s.cameraBuffer c ++ [points], ?_, ?_⟩
        · simp only [List.length_append, List.length_singleton, List.length_nil] at hroom ⊢
          omega
        · rw [List.append_nil, e3]
          have : (s.cameraBuffer c).length + 1 = s.frames_to_collect_ := by
            simp only [List.length_nil] at hroom; omega
          rw [this]
    · obtain ⟨e1, e2, e3⟩ := w2 hT
      have hlen : (r.session.cameraBuffer c).length = (s.cameraBuffer c).length + 1 := by
        rw [e2]; simp
      obtain ⟨s', results, log, hrun, g1, g2⟩ := ih r.session (by omega) (c4.trans hskip)
        (by omega) (by omega) (by rw [e1]; decide)
        (by
          intro frameset hmem
          rw [c1]
          exact hframes frameset (List.mem_cons_of_mem f hmem))
        (by rw [hlen, c3]; omega) (by rw [hlen, c3]; omega)
      rw [hlen, c3] at g1 g2
      refine ⟨s', r.result :: results, r.log ++ log, ?_, ?_, ?_⟩
      · simp [measureAll, hcall, hrun]
      · intro h
        obtain ⟨k1, k2, k3, k4⟩ := g1 (by omega)
        refine ⟨k1, fun _ => k2 (Or.inr e1), by omega, ?_⟩
        rw [List.filter_append, e3, k4]
        rfl
      · intro h
        obtain ⟨k1, samples, k2, k3⟩ := g2 (by omega)
        refine ⟨k1, samples, k2, ?_⟩
        rw [List.filter_append, e3, k3]
        rfl

/-- C6: threshold `T ≥ 1`, skip 0, a detector that always succeeds, camera `c`
valid in every frameset, starting from a freshly constructed session.  After
`k` calls with `1 ≤ k < T` camera `c` is Collecting with `k` buffered samples
and no single-camera solve has been made for it; after `T` calls it is Ready
and the log of all `T` calls holds exactly one single-camera solve for `c`,
on `T` image-point samples and `T` copies of the object points. -/
theorem camera_ready_exactly_at_threshold (env : Env) (T N c : Nat) (hT : 1 ≤ T) (hc : c < N)
    (hdetect : ∀ image, (env.Match image).isSome = true) (frames : List Frameset)
    (hframes : ∀ frameset ∈ frames, frameset.Arity = N ∧ frameset.IsValid c = true)
    (hlen : frames.length ≤ T) :
    ∃ s' results log,
      measureAll env (CameraCalibration ⟨T, 0⟩ N) frames = some (s', results, log) ∧
      (1 ≤ frames.length → frames.length < T →
        s'.cameraState c = kCollecting ∧ (s'.cameraBuffer c).length = frames.length ∧
        log.filter (Event.isCameraSolve c) = []) ∧
      (frames.length = T →
        s'.cameraState c = kReady ∧
        ∃ samples, samples.length = T ∧
          log.filter (Event.isCameraSolve c) =
            [Event.calibrateCamera c (List.replicate T env.ObjectPoints) samples]) := by
  have hbuf : ((CameraCalibration ⟨T, 0⟩ N).cameraBuffer c).length = 0 := by
    simp [CameraCalibration, Reset, Session.cameraBuffer, getD_replicate_general, hc]
  have hst : (CameraCalibration ⟨T, 0⟩ N).cameraState c = kUnitialized := by
    simp [CameraCalibration, Reset, Session.cameraState, getD_replicate_general, hc]
  obtain ⟨s', results, log, hrun, g1, g2⟩ := camera_collects_from env c hdetect frames
    (CameraCalibration ⟨T, 0⟩ N) hc rfl
    (by simp [CameraCalibration, Reset, hc]) (by simp [CameraCalibration, Reset, hc])
    (by rw [hst]; decide) hframes
    (by rw [hbuf]; simpa [CameraCalibration, Reset] using hlen)
    (by rw [hbuf]; simpa [CameraCalibration, Reset] using hT)
  rw [hbuf] at g1 g2
  have hTT : (CameraCalibration ⟨T, 0⟩ N).frames_to_collect_ = T := rfl
  rw [hTT] at g1 g2
  refine ⟨s', results, log, hrun, ?_, ?_⟩
  · intro h1 h2
    obtain ⟨-, k2, k3, k4⟩ := g1 (by omega)
    refine ⟨k2 (Or.inl ?_), by omega, k4⟩
    intro hnil
    rw [hnil] at h1
    exact absurd h1 (by decide)
  · intro h
    exact g2 (by omega)

/-- C6 (witness): threshold 3, two cameras, camera 0, three framesets with
both slots valid. -/
theorem camera_ready_exactly_at_threshold_witness :
    ∃ s' results log,
      measureAll detectAlways (CameraCalibration ⟨3, 0⟩ 2)
        (List.replicate 3 (framesetOf [true, true])) = some (s', results, log) ∧
      (1 ≤ (List.replicate 3 (framesetOf [true, true])).length →
        (List.replicate 3 (framesetOf [true, true])).length < 3 →
        s'.cameraState 0 = kCollecting ∧
        (s'.cameraBuffer 0).length = (List.replicate 3 (framesetOf [true, true])).length ∧
        log.filter (Event.isCameraSolve 0) = []) ∧
      ((List.replicate 3 (framesetOf [true, true])).length = 3 →
        s'.cameraState 0 = kReady ∧
        ∃ samples, samples.length = 3 ∧
          log.filter (Event.isCameraSolve 0) =
            [Event.calibrateCamera 0 (List.replicate 3 detectAlways.ObjectPoints) samples]) :=
  camera_ready_exactly_at_threshold detectAlways 3 2 0 (by decide) (by decide) (fun _ => rfl)
    (List.replicate 3 (framesetOf [true, true])) (by decide) (by decide)

/-! ## C7: a pair and its member cameras -/

/-- C7: three cameras, threshold 1, no skipping, slot 0 invalid and slots 1
and 2 valid.  One call makes cameras 1 and 2 Ready and, through the first
entry of the pair list, the pair state at index 0 Ready.  The list also holds
the entry with index 0 and member cameras 0 and 0, and camera 0 is still
Uninitialized. -/
theorem pair_ready_while_member_camera_is_not :
    (MeasureFrameset detectAlways (CameraCalibration ⟨1, 0⟩ 3)
        (framesetOf [false, true, true])).map
        (fun r => (r.session.pairs_, r.session.pair_states_, r.session.camera_states_)) =
      some ([⟨0, 1, 2⟩, ⟨0, 0, 0⟩, ⟨0, 0, 0⟩], [kReady, kUnitialized, kUnitialized],
        [kUnitialized, kReady, kReady]) := by
  decide

/-! ## C8: states never move backwards -/

theorem pairDetect_cases (env : Env) (frameset : Frameset) (pair : CameraPair) (s : Session) :
    (pairDetect env frameset pair s).1 = s ∨
      ∃ points1 points2,
        env.Match (frameset.frame pair.cam1).data = some points1 ∧
        env.Match (frameset.frame pair.cam2).data = some points2 ∧
        pairDetect env frameset pair s =
          ({ s with
             image_points_pair_ := s.image_points_pair_.set pair.index
               ((s.pairBuffer pair.index).1 ++ [points1],
                (s.pairBuffer pair.index).2 ++ [points2])
             pair_states_ := s.pair_states_.set pair.index kCollecting },
           [Event.detect pair.cam1, Event.detect pair.cam2]) := by
  unfold pairDetect
  cases h1 : env.Match (frameset.frame pair.cam1).data with
  | none => exact Or.inl rfl
  | some p1 =>
    cases h2 : env.Match (frameset.frame pair.cam2).data with
    | none => exact Or.inl rfl
    | some p2 => exact Or.inr ⟨p1, p2, rfl, rfl, rfl⟩

theorem pairSolve_below (env : Env) (pair : CameraPair) (s : Session)
    (h : ¬ s.frames_to_collect_ ≤ (s.pairBuffer pair.index).1.length) :
    pairSolve env pair s = (s, []) := by
  simp [pairSolve, h]

theorem pairSolve_reached (env : Env) (pair : CameraPair) (s : Session)
    (h : s.frames_to_collect_ ≤ (s.pairBuffer pair.index).1.length) :
    pairSolve env pair s =
      ({ s with
         data_ := { s.data_ with
                    pair_parameters_ := s.data_.pair_parameters_.set pair.index
                      (env.stereoCalibrate
                        (List.replicate (s.pairBuffer pair.index).1.length env.ObjectPoints)
                        (s.pairBuffer pair.index).1 (s.pairBuffer pair.index).2
                        (s.cameraParameters pair.cam1) (s.cameraParameters pair.cam2)
                        (s.pairParameters pair.index)) }
         pair_states_ := s.pair_states_.set pair.index kReady
         image_points_pair_ := s.image_points_pair_.set pair.index ([], []) },
       [Event.stereoCalibrate pair.index pair.cam1 pair.cam2
          (List.replicate (s.pairBuffer pair.index).1.length env.ObjectPoints)
          (s.pairBuffer pair.index).1 (s.pairBuffer pair.index).2]) := by
  simp [pairSolve, h]

theorem measurePair_cases (env : Env) (frameset : Frameset) (r : Run) (pair : CameraPair) :
    (measurePair env frameset r pair).session = r.session ∨
      (r.session.pairState pair.index ≠ kReady ∧
        r.session.cameraState pair.cam1 = kReady ∧ r.session.cameraState pair.cam2 = kReady ∧
        frameset.IsValid pair.cam1 = true ∧ frameset.IsValid pair.cam2 = true ∧
        measurePair env frameset r pair =
          { session := (pairSolve env pair (pairDetect env frameset pair r.session).1).1
            result := false
            log := r.log ++ (pairDetect env frameset pair r.session).2 ++
              (pairSolve env pair (pairDetect env frameset pair r.session).1).2 }) := by
  unfold measurePair
  split
  · exact Or.inl rfl
  · next hcams =>
    split
    · exact Or.inl rfl
    · next hvalid =>
      split
      · exact Or.inl rfl
      · next hne =>
        refine Or.inr ⟨hne, ?_, ?_, ?_, ?_, rfl⟩
        · by_contra h; exact hcams (Or.inl h)
        · by_contra h; exact hcams (Or.inr h)
        · cases hv : frameset.IsValid pair.cam1
          · exact absurd (Or.inl hv) hvalid
          · rfl
        · cases hv : frameset.IsValid pair.cam2
          · exact absurd (Or.inr hv) hvalid
          · rfl

theorem rank_le_collecting_of_ne_ready (st : CalibrationState) (h : st ≠ kReady) :
    st.rank ≤ kCollecting.rank := by
  cases st <;> simp [CalibrationState.rank] at h ⊢

theorem rank_le_ready (st : CalibrationState) : st.rank ≤ kReady.rank := by
  cases st <;> simp [CalibrationState.rank]

theorem measureCamera_rank (env : Env) (frameset : Frameset) (r : Run) (cam j : Nat) :
    (r.session.cameraState j).rank ≤
      ((measureCamera env frameset r cam).session.cameraState j).rank := by
  unfold measureCamera
  split
  · exact le_refl _
  · split
    · exact le_refl _
    · next hne =>
      have h1 : (r.session.cameraState j).rank ≤
          ((cameraDetect env frameset cam r.session).cameraState j).rank := by
        cases hm : env.Match (frameset.frame cam).data with
        | none => rw [cameraDetect_none env frameset cam _ hm]
        | some points =>
          rw [cameraDetect_some env frameset cam _ points hm]
          simp only [Session.cameraState, getD_set_general]
          split
          · next hj =>
            rw [← hj.1]
            exact rank_le_collecting_of_ne_ready _ hne
          · exact le_refl _
      refine le_trans h1 ?_
      simp only [cameraSolve]
      split
      · simp only [Session.cameraState, getD_set_general]
        split
        · exact rank_le_ready _
        · exact le_refl _
      · exact le_refl _

theorem pairSolve_rank (env : Env) (pair : CameraPair) (s : Session) (j : Nat) :
    (s.pairState j).rank ≤ ((pairSolve env pair s).1.pairState j).rank := by
  by_cases h : s.frames_to_collect_ ≤ (s.pairBuffer pair.index).1.length
  · rw [pairSolve_reached env pair s h]
    simp only [Session.pairState, getD_set_general]
    split
    · exact rank_le_ready _
    · exact le_refl _
  · rw [pairSolve_below env pair s h]

theorem measurePair_rank (env : Env) (frameset : Frameset) (r : Run) (pair : CameraPair)
    (j : Nat) :
    (r.session.pairState j).rank ≤
      ((measurePair env frameset r pair).session.pairState j).rank := by
  rcases measurePair_cases env frameset r pair with h | ⟨hne, -, -, -, -, h⟩
  · rw [h]
  · rw [h]
    refine le_trans ?_ (pairSolve_rank env pair _ j)
    rcases pairDetect_cases env frameset pair r.session with hd | ⟨p1, p2, -, -, hd⟩
    · rw [hd]
    · rw [hd]
      simp only [Session.pairState, getD_set_general]
      split
      · next hj =>
        rw [← hj.1]
        exact rank_le_collecting_of_ne_ready _ hne
      · exact le_refl _

theorem cameraLoop_rank (env : Env) (frameset : Frameset) (cams : List Nat) (r : Run) (j : Nat) :
    (r.session.cameraState j).rank ≤
      ((cams.foldl (measureCamera env frameset) r).session.cameraState j).rank := by
  induction cams generalizing r with
  | nil => exact le_refl _
  | cons c cs ih =>
    rw [List.foldl_cons]
    exact le_trans (measureCamera_rank env frameset r c j) (ih _)

theorem pairLoop_rank (env : Env) (frameset : Frameset) (pairs : List CameraPair) (r : Run)
    (j : Nat) :
    (r.session.pairState j).rank ≤
      ((pairs.foldl (measurePair env frameset) r).session.pairState j).rank := by
  induction pairs generalizing r with
  | nil => exact le_refl _
  | cons c cs ih =>
    rw [List.foldl_cons]
    exact le_trans (measurePair_rank env frameset r c j) (ih _)

theorem measureWork_rank (env : Env) (s : Session) (frameset : Frameset) :
    (∀ cam, (s.cameraState cam).rank ≤ ((measureWork env s frameset).session.cameraState cam).rank) ∧
      ∀ index, (s.pairState index).rank ≤
        ((measureWork env s frameset).session.pairState index).rank := by
  unfold measureWork
  obtain ⟨-, -, -, -, -, p1, -, -⟩ := pairLoop_frame env frameset s.pairs_
    ((List.range s.arity_).foldl (measureCamera env frameset)
      { session := s, result := true, log := [] })
  obtain ⟨-, -, -, -, -, c1, -, -⟩ := cameraLoop_frame env frameset (List.range s.arity_)
    { session := s, result := true, log := [] }
  constructor
  · intro cam
    simp only [Session.cameraState, p1]
    exact cameraLoop_rank env frameset (List.range s.arity_)
      { session := s, result := true, log := [] } cam
  · intro index
    refine le_trans ?_ (pairLoop_rank env frameset s.pairs_ _ index)
    simp only [Session.pairState, c1]
    exact le_refl _

theorem MeasureFrameset_rank (env : Env) (s : Session) (frameset : Frameset) (r : Run)
    (h : MeasureFrameset env s frameset = some r) :
    (∀ cam, (s.cameraState cam).rank ≤ (r.session.cameraState cam).rank) ∧
      ∀ index, (s.pairState index).rank ≤ (r.session.pairState index).rank := by
  unfold MeasureFrameset at h
  split at h
  · exact absurd h (by simp)
  · split at h
    · cases h
      exact ⟨fun _ => le_refl _, fun _ => le_refl _⟩
    · cases h
      exact measureWork_rank env { s with frame_no_ := s.frame_no_ + 1 } frameset

theorem ready_of_rank_le (a b : CalibrationState) (h : a.rank ≤ b.rank) (ha : a = kReady) :
    b = kReady := by
  subst ha
  cases b <;> simp [CalibrationState.rank] at h ⊢

/-- C8: over any number of `MeasureFrameset` calls with no `Reset()` in
between (one call included), on framesets of matching arity, no camera state
and no pair state moves backwards in the order Uninitialized < Collecting <
Ready; a camera or pair that is Ready before the calls is Ready after them. -/
theorem states_never_regress (env : Env) (frames : List Frameset) (s : Session)
    (hframes : ∀ frameset ∈ frames, frameset.Arity = s.arity_) :
    ∃ s' results log, measureAll env s frames = some (s', results, log) ∧
      (∀ cam, (s.cameraState cam).rank ≤ (s'.cameraState cam).rank) ∧
      (∀ index, (s.pairState index).rank ≤ (s'.pairState index).rank) ∧
      (∀ cam, s.cameraState cam = kReady → s'.cameraState cam = kReady) ∧
      (∀ index, s.pairState index = kReady → s'.pairState index = kReady) := by
  have key : ∃ s' results log, measureAll env s frames = some (s', results, log) ∧
      (∀ cam, (s.cameraState cam).rank ≤ (s'.cameraState cam).rank) ∧
      (∀ index, (s.pairState index).rank ≤ (s'.pairState index).rank) := by
    induction frames generalizing s with
    | nil => exact ⟨s, [], [], rfl, fun _ => le_refl _, fun _ => le_refl _⟩
    | cons f fs ih =>
      obtain ⟨r, hr⟩ := MeasureFrameset_some env s f (hframes f (List.mem_cons_self f fs))
      obtain ⟨c1, -⟩ := MeasureFrameset_config env s f r hr
      obtain ⟨m1, m2⟩ := MeasureFrameset_rank env s f r hr
      obtain ⟨s', results, log, hrun, k1, k2⟩ := ih r.session (by
        intro frameset hmem
        rw [c1]
        exact hframes frameset (List.mem_cons_of_mem f hmem))
      refine ⟨s', r.result :: results, r.log ++ log, ?_, fun cam => le_trans (m1 cam) (k1 cam),
        fun index => le_trans (m2 index) (k2 index)⟩
      simp [measureAll, hr, hrun]
  obtain ⟨s', results, log, hrun, k1, k2⟩ := key
  exact ⟨s', results, log, hrun, k1, k2,
    fun cam h => ready_of_rank_le _ _ (k1 cam) h,
    fun index h => ready_of_rank_le _ _ (k2 index) h⟩

/-- C8 (witness): two calls on a three-camera session. -/
theorem states_never_regress_witness :
    ∃ s' results log,
      measureAll detectAlways (CameraCalibration ⟨1, 0⟩ 3)
        [framesetOf [false, true, true], framesetOf [true, true, true]] =
        some (s', results, log) ∧
      (∀ cam, ((CameraCalibration ⟨1, 0⟩ 3).cameraState cam).rank ≤ (s'.cameraState cam).rank) ∧
      (∀ index, ((CameraCalibration ⟨1, 0⟩ 3).pairState index).rank ≤
        (s'.pairState index).rank) ∧
      (∀ cam, (CameraCalibration ⟨1, 0⟩ 3).cameraState cam = kReady →
        s'.cameraState cam = kReady) ∧
      (∀ index, (CameraCalibration ⟨1, 0⟩ 3).pairState index = kReady →
        s'.pairState index = kReady) :=
  states_never_regress detectAlways
    [framesetOf [false, true, true], framesetOf [true, true, true]]
    (CameraCalibration ⟨1, 0⟩ 3) (by decide)

/-! ## The class invariant -/

theorem generateInner_fold_entries (n cam1 : Nat) (hcam1 : cam1 < n) (cams : List Nat)
    (hcams : ∀ c ∈ cams, c < n) (st : List CameraPair × Nat)
    (hst : st.2 = 0 ∧ ∀ p ∈ st.1, p.index = 0 ∧ p.cam1 < n ∧ p.cam2 < n) :
    (cams.foldl (generateInner cam1) st).2 = 0 ∧
      ∀ p ∈ (cams.foldl (generateInner cam1) st).1, p.index = 0 ∧ p.cam1 < n ∧ p.cam2 < n := by
  induction cams generalizing st with
  | nil => exact hst
  | cons c cs ih =>
    rw [List.foldl_cons]
    apply ih (fun x hx => hcams x (List.mem_cons_of_mem c hx))
    refine ⟨hst.1, ?_⟩
    intro p hp
    rcases List.mem_or_eq_of_mem_set hp with h | h
    · exact hst.2 p h
    · subst h
      exact ⟨hst.1, hcam1, hcams c (List.mem_cons_self c cs)⟩

theorem generateOuter_fold_entries (n : Nat) (cams : List Nat) (hcams : ∀ c ∈ cams, c < n)
    (st : List CameraPair × Nat)
    (hst : st.2 = 0 ∧ ∀ p ∈ st.1, p.index = 0 ∧ p.cam1 < n ∧ p.cam2 < n) :
    (cams.foldl (generateOuter n) st).2 = 0 ∧
      ∀ p ∈ (cams.foldl (generateOuter n) st).1, p.index = 0 ∧ p.cam1 < n ∧ p.cam2 < n := by
  induction cams generalizing st with
  | nil => exact hst
  | cons c cs ih =>
    rw [List.foldl_cons]
    apply ih (fun x hx => hcams x (List.mem_cons_of_mem c hx))
    apply generateInner_fold_entries n c (hcams c (List.mem_cons_self c cs)) _ _ st hst
    intro x hx
    have := (List.mem_range'_1.1 hx).2
    have hc := hcams c (List.mem_cons_self c cs)
    omega

theorem GenerateArray_entries (n : Nat) :
    ∀ p ∈ GenerateArray n, p.index < Pairity n ∧ p.cam1 < n ∧ p.cam2 < n := by
  intro p hp
  have hlen : 0 < (GenerateArray n).length := List.length_pos_of_mem hp
  rw [GenerateArray_length_eq] at hlen
  have hn : 0 < n := by
    rcases Nat.eq_zero_or_pos n with h | h
    · subst h; simp at hlen
    · exact h
  have key := (generateOuter_fold_entries n (List.range n) (fun c hc => List.mem_range.1 hc)
    (List.replicate (n * (n - 1) / 2) CameraPair.zero, 0)
    ⟨rfl, fun q hq => by
      rw [(List.mem_replicate.1 hq).2]
      exact ⟨rfl, hn, hn⟩⟩).2 p hp
  exact ⟨by rw [key.1]; exact hlen, key.2⟩

theorem Reset_consistent (parameters : Parameters) (s : Session)
    (hframes : 1 ≤ parameters.CALIBRATION_FRAMES)
    (hpairs : ∀ pair ∈ s.pairs_,
      pair.index < Pairity s.arity_ ∧ pair.cam1 < s.arity_ ∧ pair.cam2 < s.arity_) :
    (Reset parameters s).Consistent := by
  constructor
  · exact hpairs
  · simp [Reset]
  · simp [Reset]
  · simp [Reset]
  · simp [Reset]
  · exact hframes
  · intro cam
    simp only [Reset, Session.cameraState, Session.cameraBuffer, getD_replicate_general]
    split <;> simp [slotOK]
  · intro index
    simp only [Reset, Session.pairState, Session.pairBuffer, getD_replicate_general]
    split <;> simp [slotOK]
  · intro index
    simp only [Reset, Session.pairBuffer, getD_replicate_general]
    split <;> rfl

theorem CameraCalibration_consistent (parameters : Parameters) (arity : Nat)
    (hframes : 1 ≤ parameters.CALIBRATION_FRAMES) :
    (CameraCalibration parameters arity).Consistent :=
  Reset_consistent parameters _ hframes (GenerateArray_entries arity)

theorem slot_to_ready (threshold : Nat) (st : CalibrationState) (n : Nat)
    (h : slotOK threshold st n) :
    slotOK threshold kReady ([] : List Point2Vector).length ∧
      collectedOf threshold st n ≤ collectedOf threshold kReady ([] : List Point2Vector).length := by
  cases st <;> simp [slotOK, collectedOf, -List.length_eq_zero] at h ⊢ <;> omega

theorem slot_to_collecting (threshold : Nat) (st : CalibrationState) (buffer : List Point2Vector)
    (points : Point2Vector) (h : slotOK threshold st buffer.length) (hne : st ≠ kReady)
    (hbelow : ¬ threshold ≤ buffer.length + 1) :
    slotOK threshold kCollecting (buffer ++ [points]).length ∧
      collectedOf threshold st buffer.length ≤
        collectedOf threshold kCollecting (buffer ++ [points]).length := by
  cases st <;> simp [slotOK, collectedOf, -List.length_eq_zero] at h hne ⊢ <;> omega

theorem measureCamera_slots (env : Env) (frameset : Frameset) (r : Run) (cam : Nat)
    (hs : r.session.Consistent) (hcam : cam < r.session.arity_) (j : Nat) :
    slotOK r.session.frames_to_collect_ ((measureCamera env frameset r cam).session.cameraState j)
        ((measureCamera env frameset r cam).session.cameraBuffer j).length ∧
      collectedOf r.session.frames_to_collect_ (r.session.cameraState j)
          (r.session.cameraBuffer j).length ≤
        collectedOf r.session.frames_to_collect_
          ((measureCamera env frameset r cam).session.cameraState j)
          ((measureCamera env frameset r cam).session.cameraBuffer j).length := by
  have hold := hs.camera_ok j
  by_cases hj : j = cam
  · subst hj
    have hs1 : j < r.session.camera_states_.length := by rw [hs.camera_states_size]; exact hcam
    have hs2 : j < r.session.image_points_.length := by rw [hs.image_points_size]; exact hcam
    cases hvalid : frameset.IsValid j with
    | false =>
      rw [(measureCamera_invalid env frameset r j hvalid).1]
      exact ⟨hold, le_refl _⟩
    | true =>
      by_cases hready : r.session.cameraState j = kReady
      · rw [(measureCamera_of_ready env frameset r j hready).1]
        exact ⟨hold, le_refl _⟩
      · cases hm : env.Match (frameset.frame j).data with
        | some points =>
          obtain ⟨d1, d2⟩ := measureCamera_detected env frameset r j points hs1 hs2 hvalid hready hm
          by_cases hT : r.session.frames_to_collect_ ≤ (r.session.cameraBuffer j).length + 1
          · obtain ⟨e1, e2, -⟩ := d1 hT
            rw [e1, e2]
            exact slot_to_ready _ _ _ hold
          · obtain ⟨e1, e2, -⟩ := d2 hT
            rw [e1, e2]
            exact slot_to_collecting _ _ _ points hold hready hT
        | none =>
          obtain ⟨d1, d2⟩ := measureCamera_undetected env frameset r j hs1 hs2 hvalid hready hm
          by_cases hT : r.session.frames_to_collect_ ≤ (r.session.cameraBuffer j).length
          · obtain ⟨e1, e2, -⟩ := d1 hT
            rw [e1, e2]
            exact slot_to_ready _ _ _ hold
          · rw [(d2 hT).1]
            exact ⟨hold, le_refl _⟩
  · obtain ⟨o1, o2, -, -⟩ := measureCamera_other env frameset r cam j hj
    rw [o1, o2]
    exact ⟨hold, le_refl _⟩

theorem measureCamera_consistent (env : Env) (frameset : Frameset) (r : Run) (cam : Nat)
    (hs : r.session.Consistent) (hcam : cam < r.session.arity_) :
    (measureCamera env frameset r cam).session.Consistent := by
  obtain ⟨f1, f2, f3, -, -, f6, f7, -⟩ := measureCamera_frame env frameset r cam
  obtain ⟨z1, z2, -⟩ := measureCamera_sizes env frameset r cam
  constructor
  · rw [f1, f2]; exact hs.pairs_in_range
  · rw [z1, f1]; exact hs.camera_states_size
  · rw [z2, f1]; exact hs.image_points_size
  · rw [f6, f1]; exact hs.pair_states_size
  · rw [f7, f1]; exact hs.image_points_pair_size
  · rw [f3]; exact hs.threshold_pos
  · intro j
    rw [f3]
    exact (measureCamera_slots env frameset r cam hs hcam j).1
  · intro index
    simp only [Session.pairState, Session.pairBuffer, f3, f6, f7]
    exact hs.pair_ok index
  · intro index
    simp only [Session.pairBuffer, f7]
    exact hs.lockstep index

theorem pairDetect_other (env : Env) (frameset : Frameset) (pair : CameraPair) (s : Session)
    (j : Nat) (hL : s.image_points_pair_.length = s.pair_states_.length)
    (hc : ¬ (pair.index = j ∧ pair.index < s.pair_states_.length)) :
    (pairDetect env frameset pair s).1.pairState j = s.pairState j ∧
      (pairDetect env frameset pair s).1.pairBuffer j = s.pairBuffer j ∧
      (pairDetect env frameset pair s).1.image_points_pair_.length =
        (pairDetect env frameset pair s).1.pair_states_.length ∧
      (pairDetect env frameset pair s).1.pair_states_.length = s.pair_states_.length := by
  rcases pairDetect_cases env frameset pair s with hd | ⟨p1, p2, -, -, hd⟩
  · rw [hd]
    exact ⟨rfl, rfl, hL, rfl⟩
  · rw [hd]
    simp only [Session.pairState, Session.pairBuffer, getD_set_general, hL, if_neg hc,
      List.length_set, and_self]

theorem pairSolve_other (env : Env) (pair : CameraPair) (s : Session)
    (j : Nat) (hL : s.image_points_pair_.length = s.pair_states_.length)
    (hc : ¬ (pair.index = j ∧ pair.index < s.pair_states_.length)) :
    (pairSolve env pair s).1.pairState j = s.pairState j ∧
      (pairSolve env pair s).1.pairBuffer j = s.pairBuffer j := by
  by_cases hT : s.frames_to_collect_ ≤ (s.pairBuffer pair.index).1.length
  · rw [pairSolve_reached env pair s hT]
    simp only [Session.pairState, Session.pairBuffer, getD_set_general, hL, if_neg hc, and_self]
  · rw [pairSolve_below env pair s hT]
    exact ⟨rfl, rfl⟩

theorem measurePair_other (env : Env) (frameset : Frameset) (r : Run) (pair : CameraPair)
    (j : Nat) (hL : r.session.image_points_pair_.length = r.session.pair_states_.length)
    (hc : ¬ (pair.index = j ∧ pair.index < r.session.pair_states_.length)) :
    (measurePair env frameset r pair).session.pairState j = r.session.pairState j ∧
      (measurePair env frameset r pair).session.pairBuffer j = r.session.pairBuffer j := by
  rcases measurePair_cases env frameset r pair with h | ⟨-, -, -, -, -, h⟩
  · rw [h]
    exact ⟨rfl, rfl⟩
  · rw [h]
    obtain ⟨d1, d2, d3, d4⟩ := pairDetect_other env frameset pair r.session j hL hc
    obtain ⟨e1, e2⟩ := pairSolve_other env pair (pairDetect env frameset pair r.session).1 j d3
      (by rw [d4]; exact hc)
    exact ⟨e1.trans d1, e2.trans d2⟩

theorem measurePair_slots (env : Env) (frameset : Frameset) (r : Run) (pair : CameraPair)
    (hs : r.session.Consistent) (j : Nat) :
    slotOK r.session.frames_to_collect_ ((measurePair env frameset r pair).session.pairState j)
        ((measurePair env frameset r pair).session.pairBuffer j).1.length ∧
      ((measurePair env frameset r pair).session.pairBuffer j).1.length =
        ((measurePair env frameset r pair).session.pairBuffer j).2.length ∧
      collectedOf r.session.frames_to_collect_ (r.session.pairState j)
          (r.session.pairBuffer j).1.length ≤
        collectedOf r.session.frames_to_collect_
          ((measurePair env frameset r pair).session.pairState j)
          ((measurePair env frameset r pair).session.pairBuffer j).1.length := by
  have hold := hs.pair_ok j
  have hlock := hs.lockstep j
  have hL : r.session.image_points_pair_.length = r.session.pair_states_.length := by
    rw [hs.image_points_pair_size, hs.pair_states_size]
  by_cases hc : pair.index = j ∧ pair.index < r.session.pair_states_.length
  · obtain ⟨hj, hin⟩ := hc
    subst hj
    rcases measurePair_cases env frameset r pair with h | ⟨hne, -, -, -, -, h⟩
    · rw [h]
      exact ⟨hold, hlock, le_refl _⟩
    · rw [h]
      rcases pairDetect_cases env frameset pair r.session with hd | ⟨p1, p2, -, -, hd⟩
      · rw [hd]
        by_cases hT : r.session.frames_to_collect_ ≤ (r.session.pairBuffer pair.index).1.length
        · rw [pairSolve_reached env pair _ hT]
          simp only [Session.pairState, Session.pairBuffer, getD_set_general, hL, hin, and_self,
            if_true]
          exact ⟨(slot_to_ready _ _ _ hold).1, trivial, (slot_to_ready _ _ _ hold).2⟩
        · rw [pairSolve_below env pair _ hT]
          exact ⟨hold, hlock, le_refl _⟩
      · rw [hd]
        have hb : Session.pairBuffer
            { r.session with
              image_points_pair_ := r.session.image_points_pair_.set pair.index
                ((r.session.pairBuffer pair.index).1 ++ [p1],
                 (r.session.pairBuffer pair.index).2 ++ [p2])
              pair_states_ := r.session.pair_states_.set pair.index kCollecting } pair.index =
            ((r.session.pairBuffer pair.index).1 ++ [p1],
             (r.session.pairBuffer pair.index).2 ++ [p2]) := by
          simp [Session.pairBuffer, getD_set_general, hL, hin]
        by_cases hT : r.session.frames_to_collect_ ≤ (r.session.pairBuffer pair.index).1.length + 1
        · rw [pairSolve_reached env pair _ (by rw [hb]; simpa using hT)]
          simp only [Session.pairState, Session.pairBuffer, getD_set_general, List.length_set, hL,
            hin, and_self, if_true]
          exact ⟨(slot_to_ready _ _ _ hold).1, trivial, (slot_to_ready _ _ _ hold).2⟩
        · rw [pairSolve_below env pair _ (by rw [hb]; simpa using hT)]
          simp only [Session.pairState, Session.pairBuffer, getD_set_general, hL, hin, and_self,
            if_true]
          refine ⟨(slot_to_collecting _ _ _ p1 hold hne hT).1, ?_,
            (slot_to_collecting _ _ _ p1 hold hne hT).2⟩
          simp only [List.length_append, List.length_singleton]
          exact congrArg (· + 1) hlock
  · obtain ⟨o1, o2⟩ := measurePair_other env frameset r pair j hL hc
    rw [o1, o2]
    exact ⟨hold, hlock, le_refl _⟩

theorem measurePair_sizes (env : Env) (frameset : Frameset) (r : Run) (pair : CameraPair) :
    (measurePair env frameset r pair).session.pair_states_.length =
        r.session.pair_states_.length ∧
      (measurePair env frameset r pair).session.image_points_pair_.length =
        r.session.image_points_pair_.length := by
  rcases measurePair_cases env frameset r pair with h | ⟨-, -, -, -, -, h⟩
  · rw [h]
    exact ⟨rfl, rfl⟩
  · rw [h]
    have hsolve : ∀ s : Session, (pairSolve env pair s).1.pair_states_.length =
        s.pair_states_.length ∧ (pairSolve env pair s).1.image_points_pair_.length =
        s.image_points_pair_.length := by
      intro s
      by_cases hT : s.frames_to_collect_ ≤ (s.pairBuffer pair.index).1.length
      · rw [pairSolve_reached env pair s hT]; simp
      · rw [pairSolve_below env pair s hT]; exact ⟨rfl, rfl⟩
    obtain ⟨e1, e2⟩ := hsolve (pairDetect env frameset pair r.session).1
    rcases pairDetect_cases env frameset pair r.session with hd | ⟨p1, p2, -, -, hd⟩
    · rw [hd] at e1 e2 ⊢
      exact ⟨e1, e2⟩
    · refine ⟨e1.trans ?_, e2.trans ?_⟩ <;> rw [hd] <;> simp

theorem measurePair_consistent (env : Env) (frameset : Frameset) (r : Run) (pair : CameraPair)
    (hs : r.session.Consistent) : (measurePair env frameset r pair).session.Consistent := by
  obtain ⟨f1, f2, f3, -, -, f6, f7, -⟩ := measurePair_frame env frameset r pair
  obtain ⟨z1, z2⟩ := measurePair_sizes env frameset r pair
  constructor
  · rw [f1, f2]; exact hs.pairs_in_range
  · rw [f6, f1]; exact hs.camera_states_size
  · rw [f7, f1]; exact hs.image_points_size
  · rw [z1, f1]; exact hs.pair_states_size
  · rw [z2, f1]; exact hs.image_points_pair_size
  · rw [f3]; exact hs.threshold_pos
  · intro cam
    simp only [Session.cameraState, Session.cameraBuffer, f3, f6, f7]
    exact hs.camera_ok cam
  · intro index
    rw [f3]
    exact (measurePair_slots env frameset r pair hs index).1
  · intro index
    exact (measurePair_slots env frameset r pair hs index).2.1

theorem cameraLoop_consistent (env : Env) (frameset : Frameset) (cams : List Nat) (r : Run)
    (hs : r.session.Consistent) (hcams : ∀ cam ∈ cams, cam < r.session.arity_) :
    (cams.foldl (measureCamera env frameset) r).session.Consistent ∧
      ∀ j, collectedOf r.session.frames_to_collect_ (r.session.cameraState j)
          (r.session.cameraBuffer j).length ≤
        collectedOf r.session.frames_to_collect_
          ((cams.foldl (measureCamera env frameset) r).session.cameraState j)
          ((cams.foldl (measureCamera env frameset) r).session.cameraBuffer j).length := by
  induction cams generalizing r with
  | nil => exact ⟨hs, fun _ => le_refl _⟩
  | cons c cs ih =>
    rw [List.foldl_cons]
    have hc := hcams c (List.mem_cons_self c cs)
    obtain ⟨f1, -, f3, -⟩ := measureCamera_frame env frameset r c
    obtain ⟨k1, k2⟩ := ih (measureCamera env frameset r c)
      (measureCamera_consistent env frameset r c hs hc)
      (by
        intro cam hmem
        rw [f1]
        exact hcams cam (List.mem_cons_of_mem c hmem))
    rw [f3] at k2
    exact ⟨k1, fun j => le_trans (measureCamera_slots env frameset r c hs hc j).2 (k2 j)⟩

theorem pairLoop_consistent (env : Env) (frameset : Frameset) (pairs : List CameraPair) (r : Run)
    (hs : r.session.Consistent) :
    (pairs.foldl (measurePair env frameset) r).session.Consistent ∧
      ∀ j, collectedOf r.session.frames_to_collect_ (r.session.pairState j)
          (r.session.pairBuffer j).1.length ≤
        collectedOf r.session.frames_to_collect_
          ((pairs.foldl (measurePair env frameset) r).session.pairState j)
          ((pairs.foldl (measurePair env frameset) r).session.pairBuffer j).1.length := by
  induction pairs generalizing r with
  | nil => exact ⟨hs, fun _ => le_refl _⟩
  | cons c cs ih =>
    rw [List.foldl_cons]
    obtain ⟨-, -, f3, -⟩ := measurePair_frame env frameset r c
    obtain ⟨k1, k2⟩ := ih (measurePair env frameset r c)
      (measurePair_consistent env frameset r c hs)
    rw [f3] at k2
    exact ⟨k1, fun j => le_trans (measurePair_slots env frameset r c hs j).2.2 (k2 j)⟩

theorem measureWork_consistent (env : Env) (s : Session) (frameset : Frameset)
    (hs : s.Consistent) :
    (measureWork env s frameset).session.Consistent ∧
      (∀ j, collectedOf s.frames_to_collect_ (s.cameraState j) (s.cameraBuffer j).length ≤
        collectedOf s.frames_to_collect_ ((measureWork env s frameset).session.cameraState j)
          ((measureWork env s frameset).session.cameraBuffer j).length) ∧
      ∀ j, collectedOf s.frames_to_collect_ (s.pairState j) (s.pairBuffer j).1.length ≤
        collectedOf s.frames_to_collect_ ((measureWork env s frameset).session.pairState j)
          ((measureWork env s frameset).session.pairBuffer j).1.length := by
  unfold measureWork
  obtain ⟨c1, c2⟩ := cameraLoop_consistent env frameset (List.range s.arity_)
    { session := s, result := true, log := [] } hs (fun cam h => List.mem_range.1 h)
  obtain ⟨-, -, g3, -, -, g6, g7, -⟩ := cameraLoop_frame env frameset (List.range s.arity_)
    { session := s, result := true, log := [] }
  generalize (List.range s.arity_).foldl (measureCamera env frameset)
    { session := s, result := true, log := [] } = r1 at c1 c2 g3 g6 g7
  obtain ⟨p1, p2⟩ := pairLoop_consistent env frameset s.pairs_ r1 c1
  obtain ⟨-, -, -, -, -, f6, f7, -⟩ := pairLoop_frame env frameset s.pairs_ r1
  refine ⟨p1, ?_, ?_⟩
  · intro j
    simp only [Session.cameraState, Session.cameraBuffer, f6, f7]
    exact c2 j
  · intro j
    have := p2 j
    simp only [Session.pairState, Session.pairBuffer, g3, g6, g7] at this
    exact this

theorem consistent_next_frame (s : Session) (hs : s.Consistent) :
    Session.Consistent { s with frame_no_ := s.frame_no_ + 1 } :=
  ⟨hs.pairs_in_range, hs.camera_states_size, hs.image_points_size, hs.pair_states_size,
    hs.image_points_pair_size, hs.threshold_pos, hs.camera_ok, hs.pair_ok, hs.lockstep⟩

theorem MeasureFrameset_consistent (env : Env) (s : Session) (frameset : Frameset) (r : Run)
    (hs : s.Consistent) (h : MeasureFrameset env s frameset = some r) :
    r.session.Consistent ∧
      (∀ j, collectedOf s.frames_to_collect_ (s.cameraState j) (s.cameraBuffer j).length ≤
        collectedOf s.frames_to_collect_ (r.session.cameraState j)
          (r.session.cameraBuffer j).length) ∧
      ∀ j, collectedOf s.frames_to_collect_ (s.pairState j) (s.pairBuffer j).1.length ≤
        collectedOf s.frames_to_collect_ (r.session.pairState j)
          (r.session.pairBuffer j).1.length := by
  unfold MeasureFrameset at h
  split at h
  · exact absurd h (by simp)
  · split at h
    · cases h
      exact ⟨consistent_next_frame s hs, fun _ => le_refl _, fun _ => le_refl _⟩
    · cases h
      exact measureWork_consistent env { s with frame_no_ := s.frame_no_ + 1 } frameset
        (consistent_next_frame s hs)

theorem measureAll_consistent (env : Env) (frames : List Frameset) (s : Session)
    (hs : s.Consistent) (hframes : ∀ frameset ∈ frames, frameset.Arity = s.arity_) :
    ∃ s' results log, measureAll env s frames = some (s', results, log) ∧
      s'.Consistent ∧ s'.arity_ = s.arity_ ∧ s'.frames_to_collect_ = s.frames_to_collect_ ∧
      (∀ j, collectedOf s.frames_to_collect_ (s.cameraState j) (s.cameraBuffer j).length ≤
        collectedOf s.frames_to_collect_ (s'.cameraState j) (s'.cameraBuffer j).length) ∧
      ∀ j, collectedOf s.frames_to_collect_ (s.pairState j) (s.pairBuffer j).1.length ≤
        collectedOf s.frames_to_collect_ (s'.pairState j) (s'.pairBuffer j).1.length := by
  induction frames generalizing s with
  | nil => exact ⟨s, [], [], rfl, hs, rfl, rfl, fun _ => le_refl _, fun _ => le_refl _⟩
  | cons f fs ih =>
    obtain ⟨r, hr⟩ := MeasureFrameset_some env s f (hframes f (List.mem_cons_self f fs))
    obtain ⟨c1, -, c3, -⟩ := MeasureFrameset_config env s f r hr
    obtain ⟨m0, m1, m2⟩ := MeasureFrameset_consistent env s f r hs hr
    obtain ⟨s', results, log, hrun, k0, ka, kt, k1, k2⟩ := ih r.session m0 (by
      intro frameset hmem
      rw [c1]
      exact hframes frameset (List.mem_cons_of_mem f hmem))
    rw [c3] at k1 k2
    refine ⟨s', r.result :: results, r.log ++ log, ?_, k0, ka.trans c1, kt.trans c3,
      fun j => le_trans (m1 j) (k1 j), fun j => le_trans (m2 j) (k2 j)⟩
    simp [measureAll, hr, hrun]

theorem Reachable.consistent (env : Env) (s : Session) (hs : Reachable env s) : s.Consistent := by
  induction hs with
  | construct parameters arity _ hframes => exact CameraCalibration_consistent parameters arity hframes
  | measure s frameset r _ hcall ih => exact (MeasureFrameset_consistent env s frameset r ih hcall).1
  | reset s parameters _ hframes ih => exact Reset_consistent parameters s hframes ih.pairs_in_range

/-! ## Rounding to `double` -/

theorem roundHalfEven_bounds (x : ℚ) :
    ⌊x⌋ ≤ roundHalfEven x ∧ roundHalfEven x ≤ ⌊x⌋ + 1 := by
  unfold roundHalfEven
  split_ifs <;> constructor <;> omega

theorem roundHalfEven_intCast (k : ℤ) : roundHalfEven (k : ℚ) = k := by
  unfold roundHalfEven
  simp

theorem roundHalfEven_mono {x y : ℚ} (h : x ≤ y) : roundHalfEven x ≤ roundHalfEven y := by
  have hf : ⌊x⌋ ≤ ⌊y⌋ := Int.floor_mono h
  rcases hf.lt_or_eq with hlt | heq
  · exact le_trans (roundHalfEven_bounds x).2 (le_trans hlt (roundHalfEven_bounds y).1)
  · unfold roundHalfEven
    rw [heq]
    split_ifs <;> first | omega | (exfalso; linarith)

theorem binaryExponent_spec {x : ℚ} (hx : 0 < x) :
    (2 : ℚ) ^ binaryExponent x ≤ x ∧ x < 2 ^ (binaryExponent x + 1) := by
  have hnum : 0 < x.num := Rat.num_pos.2 hx
  have hn0 : x.num.natAbs ≠ 0 := by omega
  have hd0 : x.den ≠ 0 := x.den_nz
  have hcast : ((x.num.natAbs : ℕ) : ℚ) = (x.num : ℚ) := by
    rw [← Int.cast_natCast, Int.natAbs_of_nonneg hnum.le]
  have hx' : x = ((x.num.natAbs : ℕ) : ℚ) / ((x.den : ℕ) : ℚ) := by
    rw [hcast]; exact (Rat.num_div_den x).symm
  have hdpos : (0 : ℚ) < (x.den : ℚ) := by exact_mod_cast Nat.pos_of_ne_zero hd0
  have h1 : ((2 : ℚ) ^ x.num.natAbs.log2) ≤ (x.num.natAbs : ℚ) := by
    exact_mod_cast Nat.log2_self_le hn0
  have h2 : (x.num.natAbs : ℚ) < (2 : ℚ) ^ (x.num.natAbs.log2 + 1) := by
    exact_mod_cast (Nat.lt_log2_self : x.num.natAbs < 2 ^ (x.num.natAbs.log2 + 1))
  have h3 : ((2 : ℚ) ^ x.den.log2) ≤ (x.den : ℚ) := by
    exact_mod_cast Nat.log2_self_le hd0
  have h4 : (x.den : ℚ) < (2 : ℚ) ^ (x.den.log2 + 1) := by
    exact_mod_cast (Nat.lt_log2_self : x.den < 2 ^ (x.den.log2 + 1))
  have hp : ∀ k : ℕ, (0 : ℚ) < 2 ^ k := fun k => by positivity
  unfold binaryExponent
  simp only []
  rw [abs_of_pos hx]
  split_ifs with h
  · refine ⟨h, ?_⟩
    have e1 : (2 : ℚ) ^ ((x.num.natAbs.log2 : ℤ) - (x.den.log2 : ℤ) + 1) =
        (2 : ℚ) ^ (x.num.natAbs.log2 + 1) / 2 ^ x.den.log2 := by
      rw [show (x.num.natAbs.log2 : ℤ) - (x.den.log2 : ℤ) + 1 =
        ((x.num.natAbs.log2 + 1 : ℕ) : ℤ) - ((x.den.log2 : ℕ) : ℤ) by push_cast; ring,
        zpow_sub₀ two_ne_zero, zpow_natCast, zpow_natCast]
    rw [e1]
    refine lt_of_eq_of_lt hx' ?_
    rw [div_lt_div_iff₀ hdpos (hp _)]
    calc (x.num.natAbs : ℚ) * 2 ^ x.den.log2 ≤ (x.num.natAbs : ℚ) * x.den :=
          mul_le_mul_of_nonneg_left h3 (Nat.cast_nonneg _)
      _ < 2 ^ (x.num.natAbs.log2 + 1) * x.den := mul_lt_mul_of_pos_right h2 hdpos
  · refine ⟨?_, ?_⟩
    · have e1 : (2 : ℚ) ^ ((x.num.natAbs.log2 : ℤ) - (x.den.log2 : ℤ) - 1) =
          (2 : ℚ) ^ x.num.natAbs.log2 / 2 ^ (x.den.log2 + 1) := by
        rw [show (x.num.natAbs.log2 : ℤ) - (x.den.log2 : ℤ) - 1 =
          ((x.num.natAbs.log2 : ℕ) : ℤ) - ((x.den.log2 + 1 : ℕ) : ℤ) by push_cast; ring,
          zpow_sub₀ two_ne_zero, zpow_natCast, zpow_natCast]
      rw [e1]
      refine le_of_le_of_eq ?_ hx'.symm
      rw [div_le_div_iff₀ (hp _) hdpos]
      calc (2 : ℚ) ^ x.num.natAbs.log2 * x.den ≤ (x.num.natAbs : ℚ) * x.den :=
            mul_le_mul_of_nonneg_right h1 hdpos.le
        _ ≤ (x.num.natAbs : ℚ) * 2 ^ (x.den.log2 + 1) :=
            mul_le_mul_of_nonneg_left h4.le (Nat.cast_nonneg _)
    · rw [sub_add_cancel]
      exact not_le.1 h

theorem round_le_multiple {x u : ℚ} (hu : 0 < u) (k : ℤ) (h : x ≤ k * u) :
    (roundHalfEven (x / u) : ℚ) * u ≤ k * u := by
  have h1 : x / u ≤ (k : ℚ) := (div_le_iff₀ hu).2 h
  have h2 := roundHalfEven_mono h1
  rw [roundHalfEven_intCast] at h2
  exact mul_le_mul_of_nonneg_right (by exact_mod_cast h2) hu.le

theorem multiple_le_round {x u : ℚ} (hu : 0 < u) (k : ℤ) (h : k * u ≤ x) :
    (k : ℚ) * u ≤ roundHalfEven (x / u) * u := by
  have h1 : (k : ℚ) ≤ x / u := (le_div_iff₀ hu).2 h
  have h2 := roundHalfEven_mono h1
  rw [roundHalfEven_intCast] at h2
  exact mul_le_mul_of_nonneg_right (by exact_mod_cast h2) hu.le

theorem zpow_eq_multiple (e : ℤ) (j : ℕ) :
    (2 : ℚ) ^ (e + j) = ((2 ^ j : ℕ) : ℤ) * (2 : ℚ) ^ e := by
  rw [zpow_add₀ two_ne_zero, zpow_natCast]
  push_cast
  ring

theorem roundToDouble_bounds {x : ℚ} (hx : 0 < x) :
    (2 : ℚ) ^ binaryExponent x ≤ roundToDouble x ∧
      roundToDouble x ≤ 2 ^ (binaryExponent x + 1) := by
  obtain ⟨h1, h2⟩ := binaryExponent_spec hx
  have hu : (0 : ℚ) < 2 ^ (binaryExponent x - 52) := by positivity
  unfold roundToDouble
  rw [if_neg hx.ne']
  constructor
  · have e := zpow_eq_multiple (binaryExponent x - 52) 52
    rw [show binaryExponent x - 52 + ((52 : ℕ) : ℤ) = binaryExponent x by push_cast; ring] at e
    rw [e] at h1 ⊢
    exact multiple_le_round hu _ h1
  · have e := zpow_eq_multiple (binaryExponent x - 52) 53
    rw [show binaryExponent x - 52 + ((53 : ℕ) : ℤ) = binaryExponent x + 1 by
      push_cast; ring] at e
    rw [e] at h2 ⊢
    exact round_le_multiple hu _ h2.le

theorem roundToDouble_zero : roundToDouble 0 = 0 := by
  unfold roundToDouble
  rw [if_pos rfl]

theorem roundToDouble_pos {x : ℚ} (hx : 0 < x) : 0 < roundToDouble x :=
  lt_of_lt_of_le (by positivity) (roundToDouble_bounds hx).1

theorem roundToDouble_mono {x y : ℚ} (hx : 0 ≤ x) (h : x ≤ y) :
    roundToDouble x ≤ roundToDouble y := by
  rcases hx.lt_or_eq with hx | rfl
  · have hy : 0 < y := lt_of_lt_of_le hx h
    obtain ⟨a1, a2⟩ := binaryExponent_spec hx
    obtain ⟨b1, b2⟩ := binaryExponent_spec hy
    have hlt : binaryExponent x < binaryExponent y + 1 :=
      (zpow_lt_zpow_iff_right₀ (by norm_num : (1 : ℚ) < 2)).1
        (lt_of_le_of_lt a1 (lt_of_le_of_lt h b2))
    rcases (Int.lt_add_one_iff.1 hlt).lt_or_eq with hl | he
    · refine le_trans (roundToDouble_bounds hx).2 (le_trans ?_ (roundToDouble_bounds hy).1)
      exact (zpow_le_zpow_iff_right₀ (by norm_num : (1 : ℚ) < 2)).2 (by omega)
    · have hu : (0 : ℚ) < 2 ^ (binaryExponent y - 52) := by positivity
      unfold roundToDouble
      rw [if_neg hx.ne', if_neg hy.ne', he]
      refine mul_le_mul_of_nonneg_right ?_ hu.le
      exact_mod_cast roundHalfEven_mono (div_le_div_of_nonneg_right h hu.le)
  · rw [roundToDouble_zero]
    rcases h.lt_or_eq with hy | rfl
    · exact (roundToDouble_pos hy).le
    · rw [roundToDouble_zero]

theorem roundToDouble_one : roundToDouble 1 = 1 := by decide!

theorem roundHalfEven_error (y : ℚ) : |(roundHalfEven y : ℚ) - y| ≤ 1 / 2 := by
  have h1 := Int.floor_le y
  have h2 := Int.lt_floor_add_one y
  rw [abs_le]
  unfold roundHalfEven
  split_ifs <;> push_cast <;> constructor <;> linarith

theorem roundToDouble_error {x : ℚ} (hx : 0 < x) :
    |roundToDouble x - x| ≤ 2 ^ (binaryExponent x - 53) := by
  have hu : (0 : ℚ) < 2 ^ (binaryExponent x - 52) := by positivity
  have h := roundHalfEven_error (x / 2 ^ (binaryExponent x - 52))
  have e1 : roundToDouble x - x =
      ((roundHalfEven (x / 2 ^ (binaryExponent x - 52)) : ℚ) - x / 2 ^ (binaryExponent x - 52)) *
        2 ^ (binaryExponent x - 52) := by
    unfold roundToDouble
    rw [if_neg hx.ne', sub_mul, div_mul_cancel₀ _ hu.ne']
  have e2 : (2 : ℚ) ^ (binaryExponent x - 53) = 1 / 2 * 2 ^ (binaryExponent x - 52) := by
    rw [show binaryExponent x - 53 = -1 + (binaryExponent x - 52) by ring,
      zpow_add₀ two_ne_zero]
    norm_num
  rw [e1, e2, abs_mul, abs_of_pos hu]
  exact mul_le_mul_of_nonneg_right h hu.le

theorem roundToDouble_natCast (n : Nat) (hn : n < 2 ^ 53) : roundToDouble n = n := by
  rcases Nat.eq_zero_or_pos n with rfl | hpos
  · simp [roundToDouble]
  · have hx : (0 : ℚ) < (n : ℚ) := by exact_mod_cast hpos
    obtain ⟨h1, -⟩ := binaryExponent_spec hx
    have hlt : ((2 : ℚ) ^ binaryExponent (n : ℚ)) < 2 ^ (53 : ℤ) := by
      refine lt_of_le_of_lt h1 ?_
      rw [show (53 : ℤ) = ((53 : ℕ) : ℤ) by rfl, zpow_natCast]
      exact_mod_cast hn
    have he : binaryExponent (n : ℚ) < 53 :=
      (zpow_lt_zpow_iff_right₀ (by norm_num : (1 : ℚ) < 2)).1 hlt
    obtain ⟨j, hj⟩ : ∃ j : ℕ, (j : ℤ) = 52 - binaryExponent (n : ℚ) :=
      ⟨(52 - binaryExponent (n : ℚ)).toNat, Int.toNat_of_nonneg (by omega)⟩
    have hu : (2 : ℚ) ^ (binaryExponent (n : ℚ) - 52) = ((2 : ℚ) ^ j)⁻¹ := by
      rw [show binaryExponent (n : ℚ) - 52 = -(j : ℤ) by omega, zpow_neg, zpow_natCast]
    unfold roundToDouble
    rw [if_neg hx.ne', hu, div_inv_eq_mul]
    have hk : (n : ℚ) * 2 ^ j = (((n * 2 ^ j : ℕ) : ℤ) : ℚ) := by push_cast; ring
    rw [hk, roundHalfEven_intCast]
    push_cast
    field_simp

theorem toDouble_eq (n : Nat) (hn : n < 2 ^ 53) : toDouble n = n :=
  roundToDouble_natCast n hn

theorem toDouble_zero : toDouble 0 = 0 := by
  unfold toDouble
  rw [Nat.cast_zero, roundToDouble_zero]

theorem toDouble_pos {n : Nat} (hn : 1 ≤ n) : 0 < toDouble n :=
  roundToDouble_pos (by exact_mod_cast hn)

theorem toDouble_mono {m n : Nat} (h : m ≤ n) : toDouble m ≤ toDouble n :=
  roundToDouble_mono (Nat.cast_nonneg m) (by exact_mod_cast h)

theorem doubleDiv_toDouble_zero (threshold : Nat) :
    doubleDiv (toDouble 0) (toDouble threshold) = 0 := by
  unfold doubleDiv
  rw [toDouble_zero, zero_div, roundToDouble_zero]

theorem doubleDiv_toDouble_self (threshold : Nat) (hT : 1 ≤ threshold) :
    doubleDiv (toDouble threshold) (toDouble threshold) = 1 := by
  unfold doubleDiv
  rw [div_self (toDouble_pos hT).ne', roundToDouble_one]

theorem doubleDiv_toDouble_mono {m n : Nat} (threshold : Nat) (h : m ≤ n) :
    doubleDiv (toDouble m) (toDouble threshold) ≤ doubleDiv (toDouble n) (toDouble threshold) := by
  have hm : 0 ≤ toDouble m := by
    have := toDouble_mono (Nat.zero_le m)
    rwa [toDouble_zero] at this
  have hT : 0 ≤ toDouble threshold := by
    have := toDouble_mono (Nat.zero_le threshold)
    rwa [toDouble_zero] at this
  exact roundToDouble_mono (div_nonneg hm hT) (div_le_div_of_nonneg_right (toDouble_mono h) hT)

/-- Below `2^53` both conversions are exact and the quotient of `1 ≤ n < T` is
the exact quotient rounded once, so it is within `2^-54` of it. -/
theorem doubleDiv_toDouble_error (n threshold : Nat) (hn : 1 ≤ n) (hlt : n < threshold)
    (hT : threshold < 2 ^ 53) :
    |doubleDiv (toDouble n) (toDouble threshold) - (n : ℚ) / (threshold : ℚ)| ≤ 1 / 2 ^ 54 := by
  have hn0 : (0 : ℚ) < (n : ℚ) := by exact_mod_cast hn
  have hT0 : (0 : ℚ) < (threshold : ℚ) := lt_trans hn0 (by exact_mod_cast hlt)
  have hx : (0 : ℚ) < (n : ℚ) / (threshold : ℚ) := div_pos hn0 hT0
  have hx1 : (n : ℚ) / (threshold : ℚ) < 1 := (div_lt_one hT0).2 (by exact_mod_cast hlt)
  unfold doubleDiv
  rw [toDouble_eq n (lt_trans hlt hT), toDouble_eq threshold hT]
  refine le_trans (roundToDouble_error hx) ?_
  obtain ⟨h1, -⟩ := binaryExponent_spec hx
  have he : binaryExponent ((n : ℚ) / (threshold : ℚ)) < 0 := by
    have : (2 : ℚ) ^ binaryExponent ((n : ℚ) / (threshold : ℚ)) < 2 ^ (0 : ℤ) := by
      rw [zpow_zero]; exact lt_of_le_of_lt h1 hx1
    exact (zpow_lt_zpow_iff_right₀ (by norm_num : (1 : ℚ) < 2)).1 this
  have : (2 : ℚ) ^ (binaryExponent ((n : ℚ) / (threshold : ℚ)) - 53) ≤ 2 ^ (-54 : ℤ) :=
    (zpow_le_zpow_iff_right₀ (by norm_num : (1 : ℚ) < 2)).2 (by omega)
  refine le_trans this ?_
  rw [zpow_neg]
  norm_num

/-! ## C9, C10: progress -/

theorem collectedOf_le (threshold : Nat) (st : CalibrationState) (n : Nat)
    (h : slotOK threshold st n) : collectedOf threshold st n ≤ threshold := by
  cases st <;> simp [slotOK, collectedOf] at h ⊢ <;> omega

theorem CameraProgress_eq (s : Session) (cam : Nat) (hcam : cam < s.arity_)
    (hT : 1 ≤ s.frames_to_collect_) :
    CameraProgress s cam =
      some (doubleDiv (toDouble (collectedOf s.frames_to_collect_ (s.cameraState cam)
        (s.cameraBuffer cam).length)) (toDouble s.frames_to_collect_)) := by
  unfold CameraProgress
  rw [if_pos hcam]
  cases s.cameraState cam
  · simp only [collectedOf]
    rw [doubleDiv_toDouble_zero]
  · rfl
  · simp only [collectedOf]
    rw [doubleDiv_toDouble_self _ hT]

theorem PairProgress_eq (s : Session) (index : Nat) (hindex : index < Pairity s.arity_)
    (hT : 1 ≤ s.frames_to_collect_) :
    PairProgress s index =
      some (doubleDiv (toDouble (collectedOf s.frames_to_collect_ (s.pairState index)
        (s.pairBuffer index).1.length)) (toDouble s.frames_to_collect_)) := by
  unfold PairProgress
  rw [if_pos hindex]
  cases s.pairState index
  · simp only [collectedOf]
    rw [doubleDiv_toDouble_zero]
  · rfl
  · simp only [collectedOf]
    rw [doubleDiv_toDouble_self _ hT]

theorem progress_value (threshold : Nat) (hT : 1 ≤ threshold) (st : CalibrationState) (n : Nat)
    (h : slotOK threshold st n) :
    0 ≤ doubleDiv (toDouble (collectedOf threshold st n)) (toDouble threshold) ∧
      doubleDiv (toDouble (collectedOf threshold st n)) (toDouble threshold) ≤ 1 ∧
      (st = kUnitialized →
        doubleDiv (toDouble (collectedOf threshold st n)) (toDouble threshold) = 0) ∧
      (st = kCollecting →
        doubleDiv (toDouble (collectedOf threshold st n)) (toDouble threshold) =
          doubleDiv (toDouble n) (toDouble threshold) ∧
        n < threshold ∧
        (threshold < 2 ^ 53 →
          |doubleDiv (toDouble (collectedOf threshold st n)) (toDouble threshold) -
            (n : ℚ) / (threshold : ℚ)| ≤ 1 / 2 ^ 54)) ∧
      (st = kReady →
        doubleDiv (toDouble (collectedOf threshold st n)) (toDouble threshold) = 1) := by
  refine ⟨?_, ?_, ?_, ?_, ?_⟩
  · have := doubleDiv_toDouble_mono threshold (Nat.zero_le (collectedOf threshold st n))
    rwa [doubleDiv_toDouble_zero] at this
  · have := doubleDiv_toDouble_mono threshold (collectedOf_le threshold st n h)
    rwa [doubleDiv_toDouble_self _ hT] at this
  · rintro rfl
    simp only [collectedOf]
    exact doubleDiv_toDouble_zero threshold
  · rintro rfl
    exact ⟨rfl, h.2, fun hbig => doubleDiv_toDouble_error n threshold h.1 h.2 hbig⟩
  · rintro rfl
    simp only [collectedOf]
    exact doubleDiv_toDouble_self _ hT

theorem measureAll_reachable (env : Env) (frames : List Frameset) (s : Session)
    (hs : Reachable env s) (s' : Session) (results : List Bool) (log : List Event)
    (h : measureAll env s frames = some (s', results, log)) : Reachable env s' := by
  induction frames generalizing s s' results log with
  | nil =>
    simp only [measureAll, Option.some.injEq, Prod.mk.injEq] at h
    rw [← h.1]
    exact hs
  | cons f fs ih =>
    unfold measureAll at h
    split at h
    · exact absurd h (by simp)
    · next r hr =>
      split at h
      · exact absurd h (by simp)
      · next t res lg hrest =>
        simp only [Option.some.injEq, Prod.mk.injEq] at h
        rw [← h.1]
        exact ih r.session (Reachable.measure s f r hs hr) t res lg hrest

/-- C9: in every session reachable from construction by `MeasureFrameset` and
`Reset()` calls with a threshold of at least 1, `CameraProgress(cam)` for
`cam < N` and `PairProgress(i)` for `i < N*(N-1)/2` return a value in [0,1]:
0 when Uninitialized, 1 when Ready, and when Collecting the `double` quotient
of the buffer length by the threshold, the buffer length being then strictly
below the threshold; for a threshold below `2^53` that quotient is within
`2^-54` of the exact `collected/threshold`. -/
theorem progress_in_unit_interval (env : Env) (s : Session) (hs : Reachable env s) :
    (∀ cam, cam < s.arity_ → ∃ q, CameraProgress s cam = some q ∧ 0 ≤ q ∧ q ≤ 1 ∧
        (s.cameraState cam = kUnitialized → q = 0) ∧
        (s.cameraState cam = kCollecting →
          q = doubleDiv (toDouble (s.cameraBuffer cam).length) (toDouble s.frames_to_collect_) ∧
          (s.cameraBuffer cam).length < s.frames_to_collect_ ∧
          (s.frames_to_collect_ < 2 ^ 53 →
            |q - ((s.cameraBuffer cam).length : ℚ) / (s.frames_to_collect_ : ℚ)| ≤ 1 / 2 ^ 54)) ∧
        (s.cameraState cam = kReady → q = 1)) ∧
      (∀ index, index < s.arity_ * (s.arity_ - 1) / 2 →
        ∃ q, PairProgress s index = some q ∧ 0 ≤ q ∧ q ≤ 1 ∧
        (s.pairState index = kUnitialized → q = 0) ∧
        (s.pairState index = kCollecting →
          q = doubleDiv (toDouble (s.pairBuffer index).1.length)
            (toDouble s.frames_to_collect_) ∧
          (s.pairBuffer index).1.length < s.frames_to_collect_ ∧
          (s.frames_to_collect_ < 2 ^ 53 →
            |q - ((s.pairBuffer index).1.length : ℚ) / (s.frames_to_collect_ : ℚ)| ≤
              1 / 2 ^ 54)) ∧
        (s.pairState index = kReady → q = 1)) := by
  have hc := Reachable.consistent env s hs
  constructor
  · intro cam hcam
    exact ⟨_, CameraProgress_eq s cam hcam hc.threshold_pos,
      progress_value _ hc.threshold_pos _ _ (hc.camera_ok cam)⟩
  · intro index hindex
    exact ⟨_, PairProgress_eq s index hindex hc.threshold_pos,
      progress_value _ hc.threshold_pos _ _ (hc.pair_ok index)⟩

/-- C9 (witness): two cameras, threshold 3, no skipping, in two reachable
sessions.  After three calls with only slot 0 valid and one with only slot 1
valid, camera 0 is Ready with progress 1, camera 1 is Collecting with one
sample and progress the `double` nearest to 1/3
(0.333333333333333314829616256247...), and the pair is Uninitialized with
progress 0.  After four calls with both slots valid both cameras are Ready and
the pair is Collecting with two samples and progress the `double` nearest to
2/3. -/
theorem progress_in_unit_interval_witness :
    (∃ s' results log,
      measureAll detectAlways (CameraCalibration ⟨3, 0⟩ 2)
        [framesetOf [true, false], framesetOf [true, false], framesetOf [true, false],
          framesetOf [false, true]] = some (s', results, log) ∧
      s'.camera_states_ = [kReady, kCollecting] ∧ s'.pair_states_ = [kUnitialized] ∧
      CameraProgress s' 0 = some 1 ∧
      CameraProgress s' 1 = some (6004799503160661 / 18014398509481984) ∧
      PairProgress s' 0 = some 0 ∧
      (∀ cam, cam < s'.arity_ → ∃ q, CameraProgress s' cam = some q ∧ 0 ≤ q ∧ q ≤ 1 ∧
        (s'.cameraState cam = kUnitialized → q = 0) ∧
        (s'.cameraState cam = kCollecting →
          q = doubleDiv (toDouble (s'.cameraBuffer cam).length) (toDouble s'.frames_to_collect_) ∧
          (s'.cameraBuffer cam).length < s'.frames_to_collect_ ∧
          (s'.frames_to_collect_ < 2 ^ 53 →
            |q - ((s'.cameraBuffer cam).length : ℚ) / (s'.frames_to_collect_ : ℚ)| ≤ 1 / 2 ^ 54)) ∧
        (s'.cameraState cam = kReady → q = 1)) ∧
      (∀ index, index < s'.arity_ * (s'.arity_ - 1) / 2 →
        ∃ q, PairProgress s' index = some q ∧ 0 ≤ q ∧ q ≤ 1 ∧
        (s'.pairState index = kUnitialized → q = 0) ∧
        (s'.pairState index = kCollecting →
          q = doubleDiv (toDouble (s'.pairBuffer index).1.length)
            (toDouble s'.frames_to_collect_) ∧
          (s'.pairBuffer index).1.length < s'.frames_to_collect_ ∧
          (s'.frames_to_collect_ < 2 ^ 53 →
            |q - ((s'.pairBuffer index).1.length : ℚ) / (s'.frames_to_collect_ : ℚ)| ≤
              1 / 2 ^ 54)) ∧
        (s'.pairState index = kReady → q = 1))) ∧
    ∃ t' results log,
      measureAll detectAlways (CameraCalibration ⟨3, 0⟩ 2)
        [framesetOf [true, true], framesetOf [true, true], framesetOf [true, true],
          framesetOf [true, true]] = some (t', results, log) ∧
      t'.camera_states_ = [kReady, kReady] ∧ t'.pair_states_ = [kCollecting] ∧
      PairProgress t' 0 = some (6004799503160661 / 9007199254740992) ∧
      (∀ cam, cam < t'.arity_ → ∃ q, CameraProgress t' cam = some q ∧ 0 ≤ q ∧ q ≤ 1 ∧
        (t'.cameraState cam = kUnitialized → q = 0) ∧
        (t'.cameraState cam = kCollecting →
          q = doubleDiv (toDouble (t'.cameraBuffer cam).length) (toDouble t'.frames_to_collect_) ∧
          (t'.cameraBuffer cam).length < t'.frames_to_collect_ ∧
          (t'.frames_to_collect_ < 2 ^ 53 →
            |q - ((t'.cameraBuffer cam).length : ℚ) / (t'.frames_to_collect_ : ℚ)| ≤ 1 / 2 ^ 54)) ∧
        (t'.cameraState cam = kReady → q = 1)) ∧
      (∀ index, index < t'.arity_ * (t'.arity_ - 1) / 2 →
        ∃ q, PairProgress t' index = some q ∧ 0 ≤ q ∧ q ≤ 1 ∧
        (t'.pairState index = kUnitialized → q = 0) ∧
        (t'.pairState index = kCollecting →
          q = doubleDiv (toDouble (t'.pairBuffer index).1.length)
            (toDouble t'.frames_to_collect_) ∧
          (t'.pairBuffer index).1.length < t'.frames_to_collect_ ∧
          (t'.frames_to_collect_ < 2 ^ 53 →
            |q - ((t'.pairBuffer index).1.length : ℚ) / (t'.frames_to_collect_ : ℚ)| ≤
              1 / 2 ^ 54)) ∧
        (t'.pairState index = kReady → q = 1)) := by
  constructor
  · obtain ⟨s', results, log, hrun, -⟩ := measureAll_some detectAlways
      [framesetOf [true, false], framesetOf [true, false], framesetOf [true, false],
        framesetOf [false, true]] (CameraCalibration ⟨3, 0⟩ 2) (by decide)
    have hval : (measureAll detectAlways (CameraCalibration ⟨3, 0⟩ 2)
        [framesetOf [true, false], framesetOf [true, false], framesetOf [true, false],
          framesetOf [false, true]]).map
        (fun x => (x.1.camera_states_, x.1.pair_states_, CameraProgress x.1 0,
          CameraProgress x.1 1, PairProgress x.1 0)) =
        some ([kReady, kCollecting], [kUnitialized], some 1,
          some (6004799503160661 / 18014398509481984), some 0) := by
      decide!
    rw [hrun] at hval
    simp only [Option.map_some', Option.some.injEq, Prod.mk.injEq] at hval
    obtain ⟨v1, v2, v3, v4, v5⟩ := hval
    obtain ⟨hcam, hpair⟩ := progress_in_unit_interval detectAlways s'
      (measureAll_reachable detectAlways _ _
        (Reachable.construct ⟨3, 0⟩ 2 (by decide) (by decide)) s' results log hrun)
    exact ⟨s', results, log, hrun, v1, v2, v3, v4, v5, hcam, hpair⟩
  · obtain ⟨t', results, log, hrun, -⟩ := measureAll_some detectAlways
      [framesetOf [true, true], framesetOf [true, true], framesetOf [true, true],
        framesetOf [true, true]] (CameraCalibration ⟨3, 0⟩ 2) (by decide)
    have hval : (measureAll detectAlways (CameraCalibration ⟨3, 0⟩ 2)
        [framesetOf [true, true], framesetOf [true, true], framesetOf [true, true],
          framesetOf [true, true]]).map
        (fun x => (x.1.camera_states_, x.1.pair_states_, PairProgress x.1 0)) =
        some ([kReady, kReady], [kCollecting],
          some (6004799503160661 / 9007199254740992)) := by
      decide!
    rw [hrun] at hval
    simp only [Option.map_some', Option.some.injEq, Prod.mk.injEq] at hval
    obtain ⟨v1, v2, v3⟩ := hval
    obtain ⟨hcam, hpair⟩ := progress_in_unit_interval detectAlways t'
      (measureAll_reachable detectAlways _ _
        (Reachable.construct ⟨3, 0⟩ 2 (by decide) (by decide)) t' results log hrun)
    exact ⟨t', results, log, hrun, v1, v2, v3, hcam, hpair⟩

/-- C10: from a reachable session (threshold at least 1), over any number of
`MeasureFrameset` calls with no `Reset()` in between (one call included), on
framesets of matching arity, `CameraProgress(cam)` and `PairProgress(i)` after
the calls are at least their values before. -/
theorem progress_never_decreases (env : Env) (s : Session) (frames : List Frameset)
    (hs : Reachable env s) (hframes : ∀ frameset ∈ frames, frameset.Arity = s.arity_) :
    ∃ s' results log, measureAll env s frames = some (s', results, log) ∧
      (∀ cam, cam < s.arity_ →
        ∃ q q', CameraProgress s cam = some q ∧ CameraProgress s' cam = some q' ∧ q ≤ q') ∧
      (∀ index, index < s.arity_ * (s.arity_ - 1) / 2 →
        ∃ q q', PairProgress s index = some q ∧ PairProgress s' index = some q' ∧ q ≤ q') := by
  have hc := Reachable.consistent env s hs
  obtain ⟨s', results, log, hrun, k0, ka, kt, k1, k2⟩ :=
    measureAll_consistent env frames s hc hframes
  refine ⟨s', results, log, hrun, ?_, ?_⟩
  · intro cam hcam
    refine ⟨_, _, CameraProgress_eq s cam hcam hc.threshold_pos,
      CameraProgress_eq s' cam (by rw [ka]; exact hcam) k0.threshold_pos, ?_⟩
    rw [kt]
    exact doubleDiv_toDouble_mono _ (k1 cam)
  · intro index hindex
    refine ⟨_, _, PairProgress_eq s index hindex hc.threshold_pos,
      PairProgress_eq s' index (by rw [ka]; exact hindex) k0.threshold_pos, ?_⟩
    rw [kt]
    exact doubleDiv_toDouble_mono _ (k2 index)

/-- C10 (witness): two calls on a fresh session of two cameras with
threshold 2. -/
theorem progress_never_decreases_witness :
    ∃ s' results log,
      measureAll detectAlways (CameraCalibration ⟨2, 0⟩ 2)
        [framesetOf [true, true], framesetOf [true, false]] = some (s', results, log) ∧
      (∀ cam, cam < (CameraCalibration ⟨2, 0⟩ 2).arity_ →
        ∃ q q', CameraProgress (CameraCalibration ⟨2, 0⟩ 2) cam = some q ∧
          CameraProgress s' cam = some q' ∧ q ≤ q') ∧
      (∀ index, index < (CameraCalibration ⟨2, 0⟩ 2).arity_ *
          ((CameraCalibration ⟨2, 0⟩ 2).arity_ - 1) / 2 →
        ∃ q q', PairProgress (CameraCalibration ⟨2, 0⟩ 2) index = some q ∧
          PairProgress s' index = some q' ∧ q ≤ q') :=
  progress_never_decreases detectAlways (CameraCalibration ⟨2, 0⟩ 2)
    [framesetOf [true, true], framesetOf [true, false]]
    (Reachable.construct ⟨2, 0⟩ 2 (by decide) (by decide)) (by decide)

/-! ## C11: `Reset()` -/

/-- C11: after `Reset()`, from any session, every camera and pair state is
Uninitialized, every camera buffer and both buffers of every pair are empty,
the frame counter is 0, threshold and skip are the values the configuration
holds at the call, `CameraProgress` and `PairProgress` return 0 for every
index in range, the arity is kept, the per-camera vectors have `N` entries and
the per-pair vectors `N*(N-1)/2`. -/
theorem Reset_returns_to_fresh (parameters : Parameters) (s : Session) :
    (∀ cam, (Reset parameters s).cameraState cam = kUnitialized) ∧
      (∀ index, (Reset parameters s).pairState index = kUnitialized) ∧
      (∀ cam, (Reset parameters s).cameraBuffer cam = []) ∧
      (∀ index, (Reset parameters s).pairBuffer index = ([], [])) ∧
      (Reset parameters s).frame_no_ = 0 ∧
      (Reset parameters s).frames_to_collect_ = parameters.CALIBRATION_FRAMES ∧
      (Reset parameters s).frames_skip_ = parameters.CALIBRATION_SKIP ∧
      (∀ cam, cam < s.arity_ → CameraProgress (Reset parameters s) cam = some 0) ∧
      (∀ index, index < s.arity_ * (s.arity_ - 1) / 2 →
        PairProgress (Reset parameters s) index = some 0) ∧
      (Reset parameters s).arity_ = s.arity_ ∧
      (Reset parameters s).camera_states_.length = s.arity_ ∧
      (Reset parameters s).image_points_.length = s.arity_ ∧
      (Reset parameters s).pair_states_.length = s.arity_ * (s.arity_ - 1) / 2 ∧
      (Reset parameters s).image_points_pair_.length = s.arity_ * (s.arity_ - 1) / 2 := by
  have hcs : ∀ cam, (Reset parameters s).cameraState cam = kUnitialized := by
    intro cam
    simp only [Reset, Session.cameraState, getD_replicate_general]
    split <;> rfl
  have hps : ∀ index, (Reset parameters s).pairState index = kUnitialized := by
    intro index
    simp only [Reset, Session.pairState, getD_replicate_general]
    split <;> rfl
  refine ⟨hcs, hps, ?_, ?_, rfl, rfl, rfl, ?_, ?_, rfl, ?_, ?_, ?_, ?_⟩
  · intro cam
    simp only [Reset, Session.cameraBuffer, getD_replicate_general]
    split <;> rfl
  · intro index
    simp only [Reset, Session.pairBuffer, getD_replicate_general]
    split <;> rfl
  · intro cam hcam
    have harity : cam < (Reset parameters s).arity_ := hcam
    unfold CameraProgress
    rw [if_pos harity, hcs cam]
  · intro index hindex
    have harity : index < Pairity (Reset parameters s).arity_ := hindex
    unfold PairProgress
    rw [if_pos harity, hps index]
  · simp [Reset]
  · simp [Reset]
  · simp [Reset, Pairity]
  · simp [Reset, Pairity]

/-- C11 (witness): `Reset()` with threshold 3 and skip 1 on a two-camera
session in which everything is Ready. -/
theorem Reset_returns_to_fresh_witness :
    (∀ cam, (Reset ⟨3, 1⟩ readyPairSession).cameraState cam = kUnitialized) ∧
      (∀ index, (Reset ⟨3, 1⟩ readyPairSession).pairState index = kUnitialized) ∧
      (∀ cam, (Reset ⟨3, 1⟩ readyPairSession).cameraBuffer cam = []) ∧
      (∀ index, (Reset ⟨3, 1⟩ readyPairSession).pairBuffer index = ([], [])) ∧
      (Reset ⟨3, 1⟩ readyPairSession).frame_no_ = 0 ∧
      (Reset ⟨3, 1⟩ readyPairSession).frames_to_collect_ =
        (⟨3, 1⟩ : Parameters).CALIBRATION_FRAMES ∧
      (Reset ⟨3, 1⟩ readyPairSession).frames_skip_ = (⟨3, 1⟩ : Parameters).CALIBRATION_SKIP ∧
      (∀ cam, cam < readyPairSession.arity_ →
        CameraProgress (Reset ⟨3, 1⟩ readyPairSession) cam = some 0) ∧
      (∀ index, index < readyPairSession.arity_ * (readyPairSession.arity_ - 1) / 2 →
        PairProgress (Reset ⟨3, 1⟩ readyPairSession) index = some 0) ∧
      (Reset ⟨3, 1⟩ readyPairSession).arity_ = readyPairSession.arity_ ∧
      (Reset ⟨3, 1⟩ readyPairSession).camera_states_.length = readyPairSession.arity_ ∧
      (Reset ⟨3, 1⟩ readyPairSession).image_points_.length = readyPairSession.arity_ ∧
      (Reset ⟨3, 1⟩ readyPairSession).pair_states_.length =
        readyPairSession.arity_ * (readyPairSession.arity_ - 1) / 2 ∧
      (Reset ⟨3, 1⟩ readyPairSession).image_points_pair_.length =
        readyPairSession.arity_ * (readyPairSession.arity_ - 1) / 2 :=
  Reset_returns_to_fresh ⟨3, 1⟩ readyPairSession

/-! ## C20: states and buffers agree -/

/-- C20: in every session reachable from construction by `MeasureFrameset` and
`Reset()` calls with a threshold `T` of at least 1, the two buffers of every
pair have the same length, a camera or pair that is Uninitialized or Ready has
empty buffers, and a camera or pair that is Collecting holds at least 1 and at
most `T - 1` samples. -/
theorem reachable_states_match_buffers (env : Env) (s : Session) (hs : Reachable env s) :
    (∀ index, (s.pairBuffer index).1.length = (s.pairBuffer index).2.length) ∧
      (∀ cam, s.cameraState cam = kUnitialized ∨ s.cameraState cam = kReady →
        s.cameraBuffer cam = []) ∧
      (∀ index, s.pairState index = kUnitialized ∨ s.pairState index = kReady →
        s.pairBuffer index = ([], [])) ∧
      (∀ cam, s.cameraState cam = kCollecting →
        1 ≤ (s.cameraBuffer cam).length ∧ (s.cameraBuffer cam).length ≤ s.frames_to_collect_ - 1) ∧
      (∀ index, s.pairState index = kCollecting →
        1 ≤ (s.pairBuffer index).1.length ∧
        (s.pairBuffer index).1.length ≤ s.frames_to_collect_ - 1 ∧
        1 ≤ (s.pairBuffer index).2.length ∧
        (s.pairBuffer index).2.length ≤ s.frames_to_collect_ - 1) := by
  have hc := Reachable.consistent env s hs
  refine ⟨hc.lockstep, ?_, ?_, ?_, ?_⟩
  · intro cam h
    have := hc.camera_ok cam
    rcases h with h | h <;> rw [h] at this <;> exact List.length_eq_zero.1 this
  · intro index h
    have h1 : (s.pairBuffer index).1.length = 0 := by
      have := hc.pair_ok index
      rcases h with h | h <;> rw [h] at this <;> exact this
    have h2 : (s.pairBuffer index).2.length = 0 := by
      rw [← hc.lockstep index]; exact h1
    exact Prod.ext (List.length_eq_zero.1 h1) (List.length_eq_zero.1 h2)
  · intro cam h
    have := hc.camera_ok cam
    rw [h] at this
    have h1 : 1 ≤ (s.cameraBuffer cam).length := this.1
    have h2 : (s.cameraBuffer cam).length < s.frames_to_collect_ := this.2
    omega
  · intro index h
    have := hc.pair_ok index
    rw [h] at this
    have h1 : 1 ≤ (s.pairBuffer index).1.length := this.1
    have h2 : (s.pairBuffer index).1.length < s.frames_to_collect_ := this.2
    have h3 := hc.lockstep index
    omega

/-- C20 (witness): the session reached from construction (two cameras,
threshold 2) by one call on a frameset with both slots valid. -/
theorem reachable_states_match_buffers_witness :
    ∃ r, MeasureFrameset detectAlways (CameraCalibration ⟨2, 0⟩ 2) (framesetOf [true, true]) =
        some r ∧ r.session.cameraState 0 = kCollecting ∧
      (∀ index, (r.session.pairBuffer index).1.length = (r.session.pairBuffer index).2.length) ∧
      (∀ cam, r.session.cameraState cam = kUnitialized ∨ r.session.cameraState cam = kReady →
        r.session.cameraBuffer cam = []) ∧
      (∀ index, r.session.pairState index = kUnitialized ∨ r.session.pairState index = kReady →
        r.session.pairBuffer index = ([], [])) ∧
      (∀ cam, r.session.cameraState cam = kCollecting →
        1 ≤ (r.session.cameraBuffer cam).length ∧
        (r.session.cameraBuffer cam).length ≤ r.session.frames_to_collect_ - 1) ∧
      (∀ index, r.session.pairState index = kCollecting →
        1 ≤ (r.session.pairBuffer index).1.length ∧
        (r.session.pairBuffer index).1.length ≤ r.session.frames_to_collect_ - 1 ∧
        1 ≤ (r.session.pairBuffer index).2.length ∧
        (r.session.pairBuffer index).2.length ≤ r.session.frames_to_collect_ - 1) :=
  ⟨_, MeasureFrameset_work detectAlways (CameraCalibration ⟨2, 0⟩ 2) (framesetOf [true, true])
      (by decide) (by decide), by decide,
    reachable_states_match_buffers detectAlways _
      (Reachable.measure _ _ _ (Reachable.construct ⟨2, 0⟩ 2 (by decide) (by decide))
        (MeasureFrameset_work detectAlways (CameraCalibration ⟨2, 0⟩ 2) (framesetOf [true, true])
          (by decide) (by decide)))⟩

/-! ## The tracking session: effect of `TrackSingle` on one camera -/

theorem TrackSingle_idle {σ : Type} (alg : InnerTracker σ) (cam : Nat) (frame : Frame)
    (r : TrackRun σ)
    (h : r.session.trackState cam = kUninitialized ∨ r.session.trackState cam = kLost) :
    TrackSingle alg cam frame r = r := by
  unfold TrackSingle
  rcases h with h | h <;> rw [h]

theorem TrackSingle_markSet_eq {σ : Type} (alg : InnerTracker σ) (cam : Nat) (frame : Frame)
    (r : TrackRun σ) (out : Bool × Mark × σ) (h : r.session.trackState cam = kMarkSet)
    (hout : alg.InitializeTracking (r.session.tracker alg.Clone cam) frame
      (r.session.trackpoints_.position cam) = out) :
    TrackSingle alg cam frame r =
      if out.1 = true then
        { session :=
            { r.session with
              trackers_ := r.session.trackers_.set cam out.2.2
              trackstates_ := r.session.trackstates_.set cam kTracking
              trackpoints_ := (r.session.trackpoints_.assign cam out.2.1).SetValid cam true }
          log := r.log ++ [TrackEvent.init cam] }
      else
        { session :=
            { r.session with
              trackers_ := r.session.trackers_.set cam out.2.2
              trackpoints_ := (r.session.trackpoints_.assign cam out.2.1).SetValid cam false }
          log := r.log ++ [TrackEvent.init cam] } := by
  unfold TrackSingle
  rw [h]
  dsimp only
  rw [hout]

theorem TrackSingle_tracking_eq {σ : Type} (alg : InnerTracker σ) (cam : Nat) (frame : Frame)
    (r : TrackRun σ) (out : Bool × Mark × σ) (h : r.session.trackState cam = kTracking)
    (hout : alg.Track (r.session.tracker alg.Clone cam) frame
      (r.session.trackpoints_.position cam) = out) :
    TrackSingle alg cam frame r =
      if out.1 = false then
        { session :=
            { r.session with
              trackers_ := r.session.trackers_.set cam out.2.2
              trackstates_ := r.session.trackstates_.set cam kLost
              trackpoints_ := (r.session.trackpoints_.assign cam out.2.1).SetValid cam false }
          log := r.log ++ [TrackEvent.track cam] }
      else
        { session :=
            { r.session with
              trackers_ := r.session.trackers_.set cam out.2.2
              trackpoints_ := r.session.trackpoints_.assign cam out.2.1 }
          log := r.log ++ [TrackEvent.track cam] } := by
  unfold TrackSingle
  rw [h]
  dsimp only
  rw [hout]

theorem TrackSingle_frame {σ : Type} (alg : InnerTracker σ) (cam : Nat) (frame : Frame)
    (r : TrackRun σ) :
    (TrackSingle alg cam frame r).session.arity = r.session.arity ∧
      (TrackSingle alg cam frame r).session.trackpoints_.positions.length =
        r.session.trackpoints_.positions.length ∧
      (TrackSingle alg cam frame r).session.trackpoints_.valid.length =
        r.session.trackpoints_.valid.length ∧
      (TrackSingle alg cam frame r).session.trackstates_.length =
        r.session.trackstates_.length ∧
      (TrackSingle alg cam frame r).session.trackers_.length = r.session.trackers_.length := by
  cases h : r.session.trackState cam with
  | kUninitialized => rw [TrackSingle_idle alg cam frame r (Or.inl h)]; simp
  | kLost => rw [TrackSingle_idle alg cam frame r (Or.inr h)]; simp
  | kMarkSet =>
    rw [TrackSingle_markSet_eq alg cam frame r _ h rfl]
    split <;> simp [Positset.assign, Positset.SetValid]
  | kTracking =>
    rw [TrackSingle_tracking_eq alg cam frame r _ h rfl]
    split <;> simp [Positset.assign, Positset.SetValid]

theorem TrackSingle_other {σ : Type} (alg : InnerTracker σ) (cam j : Nat) (frame : Frame)
    (r : TrackRun σ) (hj : j ≠ cam) :
    (TrackSingle alg cam frame r).session.slot alg.Clone j = r.session.slot alg.Clone j ∧
      (TrackSingle alg cam frame r).log.filter (TrackEvent.isFor j) =
        r.log.filter (TrackEvent.isFor j) := by
  cases h : r.session.trackState cam with
  | kUninitialized => rw [TrackSingle_idle alg cam frame r (Or.inl h)]; simp
  | kLost => rw [TrackSingle_idle alg cam frame r (Or.inr h)]; simp
  | kMarkSet =>
    rw [TrackSingle_markSet_eq alg cam frame r _ h rfl]
    split <;>
      simp [TrackSession.slot, TrackSession.trackState, TrackSession.tracker, Positset.assign,
        Positset.SetValid, Positset.position, Positset.IsValid, getD_set_general, Ne.symm hj,
        TrackEvent.isFor]
  | kTracking =>
    rw [TrackSingle_tracking_eq alg cam frame r _ h rfl]
    split <;>
      simp [TrackSession.slot, TrackSession.trackState, TrackSession.tracker, Positset.assign,
        Positset.SetValid, Positset.position, Positset.IsValid, getD_set_general, Ne.symm hj,
        TrackEvent.isFor]

theorem TrackSingle_markSet {σ : Type} (alg : InnerTracker σ) (cam : Nat) (frame : Frame)
    (r : TrackRun σ) (hs : r.session.Sized) (hcam : cam < r.session.arity)
    (h : r.session.trackState cam = kMarkSet) :
    (TrackSingle alg cam frame r).session.trackState cam =
        (if (alg.InitializeTracking (r.session.tracker alg.Clone cam) frame
            (r.session.trackpoints_.position cam)).1 = true then kTracking else kMarkSet) ∧
      (TrackSingle alg cam frame r).session.trackpoints_.position cam =
        (alg.InitializeTracking (r.session.tracker alg.Clone cam) frame
          (r.session.trackpoints_.position cam)).2.1 ∧
      (TrackSingle alg cam frame r).session.trackpoints_.IsValid cam =
        (alg.InitializeTracking (r.session.tracker alg.Clone cam) frame
          (r.session.trackpoints_.position cam)).1 ∧
      (TrackSingle alg cam frame r).session.tracker alg.Clone cam =
        (alg.InitializeTracking (r.session.tracker alg.Clone cam) frame
          (r.session.trackpoints_.position cam)).2.2 ∧
      (TrackSingle alg cam frame r).log = r.log ++ [TrackEvent.init cam] := by
  have h1 : cam < r.session.trackpoints_.positions.length := by rw [hs.positions_size]; exact hcam
  have h2 : cam < r.session.trackpoints_.valid.length := by rw [hs.valid_size]; exact hcam
  have h3 : cam < r.session.trackstates_.length := by rw [hs.trackstates_size]; exact hcam
  have h4 : cam < r.session.trackers_.length := by rw [hs.trackers_size]; exact hcam
  rw [TrackSingle_markSet_eq alg cam frame r _ h rfl]
  cases hout : (alg.InitializeTracking (r.session.tracker alg.Clone cam) frame
      (r.session.trackpoints_.position cam)).1 <;>
    simp [TrackSession.trackState, TrackSession.tracker, Positset.assign,
      Positset.SetValid, Positset.position, Positset.IsValid, getD_set_general, h1, h2, h3, h4]
      at h ⊢
  · exact h

theorem TrackSingle_tracking {σ : Type} (alg : InnerTracker σ) (cam : Nat) (frame : Frame)
    (r : TrackRun σ) (hs : r.session.Sized) (hcam : cam < r.session.arity)
    (h : r.session.trackState cam = kTracking) :
    (TrackSingle alg cam frame r).session.trackState cam =
        (if (alg.Track (r.session.tracker alg.Clone cam) frame
            (r.session.trackpoints_.position cam)).1 = true then kTracking else kLost) ∧
      (TrackSingle alg cam frame r).session.trackpoints_.position cam =
        (alg.Track (r.session.tracker alg.Clone cam) frame
          (r.session.trackpoints_.position cam)).2.1 ∧
      (TrackSingle alg cam frame r).session.trackpoints_.IsValid cam =
        ((alg.Track (r.session.tracker alg.Clone cam) frame
          (r.session.trackpoints_.position cam)).1 && r.session.trackpoints_.IsValid cam) ∧
      (TrackSingle alg cam frame r).session.tracker alg.Clone cam =
        (alg.Track (r.session.tracker alg.Clone cam) frame
          (r.session.trackpoints_.position cam)).2.2 ∧
      (TrackSingle alg cam frame r).log = r.log ++ [TrackEvent.track cam] := by
  have h1 : cam < r.session.trackpoints_.positions.length := by rw [hs.positions_size]; exact hcam
  have h2 : cam < r.session.trackpoints_.valid.length := by rw [hs.valid_size]; exact hcam
  have h3 : cam < r.session.trackstates_.length := by rw [hs.trackstates_size]; exact hcam
  have h4 : cam < r.session.trackers_.length := by rw [hs.trackers_size]; exact hcam
  rw [TrackSingle_tracking_eq alg cam frame r _ h rfl]
  cases hout : (alg.Track (r.session.tracker alg.Clone cam) frame
      (r.session.trackpoints_.position cam)).1 <;>
    simp [TrackSession.trackState, TrackSession.tracker, Positset.assign,
      Positset.SetValid, Positset.position, Positset.IsValid, getD_set_general, h1, h2, h3, h4]
      at h ⊢
  · exact h

theorem TrackSingle_sized {σ : Type} (alg : InnerTracker σ) (cam : Nat) (frame : Frame)
    (r : TrackRun σ) (hs : r.session.Sized) :
    (TrackSingle alg cam frame r).session.Sized ∧
      (TrackSingle alg cam frame r).session.arity = r.session.arity := by
  obtain ⟨f0, f1, f2, f3, f4⟩ := TrackSingle_frame alg cam frame r
  exact ⟨⟨by rw [f1, f0]; exact hs.positions_size, by rw [f2, f0]; exact hs.valid_size,
    by rw [f3, f0]; exact hs.trackstates_size, by rw [f4, f0]; exact hs.trackers_size⟩, f0⟩

theorem trackLoop_sized {σ : Type} (alg : InnerTracker σ) (frameset : Frameset)
    (cams : List Nat) (r : TrackRun σ) (hs : r.session.Sized) :
    (cams.foldl (fun r cam => TrackSingle alg cam (frameset.frame cam) r) r).session.Sized ∧
      (cams.foldl (fun r cam => TrackSingle alg cam (frameset.frame cam) r) r).session.arity =
        r.session.arity := by
  induction cams generalizing r with
  | nil => exact ⟨hs, rfl⟩
  | cons c cs ih =>
    rw [List.foldl_cons]
    obtain ⟨s1, a1⟩ := TrackSingle_sized alg c (frameset.frame c) r hs
    obtain ⟨s2, a2⟩ := ih _ s1
    exact ⟨s2, a2.trans a1⟩

theorem trackLoop_other {σ : Type} (alg : InnerTracker σ) (frameset : Frameset)
    (cams : List Nat) (r : TrackRun σ) (j : Nat) (hj : j ∉ cams) :
    (cams.foldl (fun r cam => TrackSingle alg cam (frameset.frame cam) r) r).session.slot
        alg.Clone j = r.session.slot alg.Clone j ∧
      (cams.foldl (fun r cam => TrackSingle alg cam (frameset.frame cam) r) r).log.filter
        (TrackEvent.isFor j) = r.log.filter (TrackEvent.isFor j) := by
  induction cams generalizing r with
  | nil => exact ⟨rfl, rfl⟩
  | cons c cs ih =>
    rw [List.foldl_cons]
    obtain ⟨h1, h2⟩ := ih (TrackSingle alg c (frameset.frame c) r)
      (fun h => hj (List.mem_cons_of_mem c h))
    obtain ⟨g1, g2⟩ := TrackSingle_other alg c j (frameset.frame c) r
      (fun h => hj (h ▸ List.mem_cons_self c cs))
    exact ⟨h1.trans g1, h2.trans g2⟩

theorem slot_eq_iff {σ : Type} (t t' : TrackSession σ) (fresh : σ) (cam : Nat) :
    t.slot fresh cam = t'.slot fresh cam ↔
      t.trackState cam = t'.trackState cam ∧
      t.trackpoints_.position cam = t'.trackpoints_.position cam ∧
      t.trackpoints_.IsValid cam = t'.trackpoints_.IsValid cam ∧
      t.tracker fresh cam = t'.tracker fresh cam := by
  simp only [TrackSession.slot, Prod.mk.injEq]

theorem Track_camera {σ : Type} (alg : InnerTracker σ) (t : TrackSession σ)
    (frameset : Frameset) (c : Nat) (hs : t.Sized) (hc : c < t.arity)
    (harity : frameset.Arity = t.arity) :
    ∃ r, Track alg t frameset = some r ∧ r.session.Sized ∧ r.session.arity = t.arity ∧
      r.session.slot alg.Clone c =
        (TrackSingle alg c (frameset.frame c) { session := t, log := [] }).session.slot
          alg.Clone c ∧
      r.log.filter (TrackEvent.isFor c) =
        (TrackSingle alg c (frameset.frame c) { session := t, log := [] }).log.filter
          (TrackEvent.isFor c) := by
  obtain ⟨before, after, hsplit, hb, ha⟩ := range_split t.arity c hc
  refine ⟨_, by unfold Track; rw [if_neg (not_not.2 harity)],
    (trackLoop_sized alg frameset _ _ hs).1, (trackLoop_sized alg frameset _ _ hs).2, ?_⟩
  rw [hsplit, List.foldl_append, List.foldl_cons]
  obtain ⟨b1, b2⟩ := trackLoop_other alg frameset before { session := t, log := [] } c hb
  obtain ⟨bs, ba⟩ := trackLoop_sized alg frameset before { session := t, log := [] } hs
  generalize before.foldl (fun r cam => TrackSingle alg cam (frameset.frame cam) r)
    { session := t, log := [] } = r0 at b1 b2 bs ba
  obtain ⟨a1, a2⟩ := trackLoop_other alg frameset after
    (TrackSingle alg c (frameset.frame c) r0) c ha
  rw [a1, a2]
  have b1' : r0.session.slot alg.Clone c = t.slot alg.Clone c := b1
  have b2' : r0.log.filter (TrackEvent.isFor c) = [] := b2
  have hc0 : c < r0.session.arity := by rw [ba]; exact hc
  obtain ⟨e1, e2, e3, e4⟩ := (slot_eq_iff _ _ _ _).1 b1'
  cases hst : t.trackState c with
  | kUninitialized =>
    rw [TrackSingle_idle alg c _ r0 (Or.inl (e1.trans hst)),
      TrackSingle_idle alg c _ { session := t, log := [] } (Or.inl hst)]
    exact ⟨b1, b2⟩
  | kLost =>
    rw [TrackSingle_idle alg c _ r0 (Or.inr (e1.trans hst)),
      TrackSingle_idle alg c _ { session := t, log := [] } (Or.inr hst)]
    exact ⟨b1, b2⟩
  | kMarkSet =>
    obtain ⟨x1, x2, x3, x4, x5⟩ := TrackSingle_markSet alg c (frameset.frame c) r0 bs hc0
      (e1.trans hst)
    obtain ⟨y1, y2, y3, y4, y5⟩ := TrackSingle_markSet alg c (frameset.frame c)
      { session := t, log := [] } hs hc hst
    constructor
    · rw [slot_eq_iff, x1, x2, x3, x4, y1, y2, y3, y4, e2, e4]
      exact ⟨rfl, rfl, rfl, rfl⟩
    · rw [x5, y5, List.filter_append, b2']
      rfl
  | kTracking =>
    obtain ⟨x1, x2, x3, x4, x5⟩ := TrackSingle_tracking alg c (frameset.frame c) r0 bs hc0
      (e1.trans hst)
    obtain ⟨y1, y2, y3, y4, y5⟩ := TrackSingle_tracking alg c (frameset.frame c)
      { session := t, log := [] } hs hc hst
    constructor
    · rw [slot_eq_iff, x1, x2, x3, x4, y1, y2, y3, y4, e2, e3, e4]
      exact ⟨rfl, rfl, rfl, rfl⟩
    · rw [x5, y5, List.filter_append, b2']
      rfl

theorem Track_idle {σ : Type} (alg : InnerTracker σ) (t : TrackSession σ)
    (frameset : Frameset) (c : Nat) (hs : t.Sized) (hc : c < t.arity)
    (harity : frameset.Arity = t.arity)
    (hst : t.trackState c = kUninitialized ∨ t.trackState c = kLost) :
    ∃ r, Track alg t frameset = some r ∧ r.session.Sized ∧ r.session.arity = t.arity ∧
      r.session.trackState c = t.trackState c ∧
      r.session.trackpoints_.position c = t.trackpoints_.position c ∧
      r.session.trackpoints_.IsValid c = t.trackpoints_.IsValid c ∧
      r.session.tracker alg.Clone c = t.tracker alg.Clone c ∧
      r.log.filter (TrackEvent.isFor c) = [] := by
  obtain ⟨r, hr, hsz, har, hslot, hlog⟩ := Track_camera alg t frameset c hs hc harity
  rw [TrackSingle_idle alg c _ { session := t, log := [] } hst] at hslot hlog
  obtain ⟨e1, e2, e3, e4⟩ := (slot_eq_iff _ _ _ _).1 hslot
  exact ⟨r, hr, hsz, har, e1, e2, e3, e4, hlog⟩

theorem Track_markSet {σ : Type} (alg : InnerTracker σ) (t : TrackSession σ)
    (frameset : Frameset) (c : Nat) (hs : t.Sized) (hc : c < t.arity)
    (harity : frameset.Arity = t.arity) (hst : t.trackState c = kMarkSet) :
    ∃ r, Track alg t frameset = some r ∧ r.session.Sized ∧ r.session.arity = t.arity ∧
      r.session.trackState c =
        (if (alg.InitializeTracking (t.tracker alg.Clone c) (frameset.frame c)
            (t.trackpoints_.position c)).1 = true then kTracking else kMarkSet) ∧
      r.session.trackpoints_.position c =
        (alg.InitializeTracking (t.tracker alg.Clone c) (frameset.frame c)
          (t.trackpoints_.position c)).2.1 ∧
      r.session.trackpoints_.IsValid c =
        (alg.InitializeTracking (t.tracker alg.Clone c) (frameset.frame c)
          (t.trackpoints_.position c)).1 ∧
      r.session.tracker alg.Clone c =
        (alg.InitializeTracking (t.tracker alg.Clone c) (frameset.frame c)
          (t.trackpoints_.position c)).2.2 ∧
      r.log.filter (TrackEvent.isFor c) = [TrackEvent.init c] := by
  obtain ⟨r, hr, hsz, har, hslot, hlog⟩ := Track_camera alg t frameset c hs hc harity
  obtain ⟨y1, y2, y3, y4, y5⟩ := TrackSingle_markSet alg c (frameset.frame c)
    { session := t, log := [] } hs hc hst
  obtain ⟨e1, e2, e3, e4⟩ := (slot_eq_iff _ _ _ _).1 hslot
  refine ⟨r, hr, hsz, har, e1.trans y1, e2.trans y2, e3.trans y3, e4.trans y4, ?_⟩
  rw [hlog, y5]
  simp [TrackEvent.isFor]

theorem Track_tracking {σ : Type} (alg : InnerTracker σ) (t : TrackSession σ)
    (frameset : Frameset) (c : Nat) (hs : t.Sized) (hc : c < t.arity)
    (harity : frameset.Arity = t.arity) (hst : t.trackState c = kTracking) :
    ∃ r, Track alg t frameset = some r ∧ r.session.Sized ∧ r.session.arity = t.arity ∧
      r.session.trackState c =
        (if (alg.Track (t.tracker alg.Clone c) (frameset.frame c)
            (t.trackpoints_.position c)).1 = true then kTracking else kLost) ∧
      r.session.trackpoints_.position c =
        (alg.Track (t.tracker alg.Clone c) (frameset.frame c) (t.trackpoints_.position c)).2.1 ∧
      r.session.trackpoints_.IsValid c =
        ((alg.Track (t.tracker alg.Clone c) (frameset.frame c) (t.trackpoints_.position c)).1 &&
          t.trackpoints_.IsValid c) ∧
      r.session.tracker alg.Clone c =
        (alg.Track (t.tracker alg.Clone c) (frameset.frame c) (t.trackpoints_.position c)).2.2 ∧
      r.log.filter (TrackEvent.isFor c) = [TrackEvent.track c] := by
  obtain ⟨r, hr, hsz, har, hslot, hlog⟩ := Track_camera alg t frameset c hs hc harity
  obtain ⟨y1, y2, y3, y4, y5⟩ := TrackSingle_tracking alg c (frameset.frame c)
    { session := t, log := [] } hs hc hst
  obtain ⟨e1, e2, e3, e4⟩ := (slot_eq_iff _ _ _ _).1 hslot
  refine ⟨r, hr, hsz, har, e1.trans y1, e2.trans y2, e3.trans y3, e4.trans y4, ?_⟩
  rw [hlog, y5]
  simp [TrackEvent.isFor]

theorem Tracker_sized {σ : Type} (alg : InnerTracker σ) (arity : Nat) :
    (Tracker alg arity).Sized :=
  ⟨by simp [Tracker, Positset.ofArity], by simp [Tracker, Positset.ofArity],
    by simp [Tracker], by simp [Tracker]⟩

theorem SetMark_effect {σ : Type} (t : TrackSession σ) (cam : Nat) (mark : Mark)
    (hs : t.Sized) (hcam : cam < t.arity) :
    ∃ t', SetMark t cam mark false = some t' ∧ t'.Sized ∧ t'.arity = t.arity ∧
      t'.trackers_ = t.trackers_ ∧
      t'.trackState cam = kMarkSet ∧ t'.trackpoints_.position cam = mark ∧
      t'.trackpoints_.IsValid cam = false ∧
      ∀ j, j ≠ cam → t'.trackState j = t.trackState j ∧
        t'.trackpoints_.position j = t.trackpoints_.position j ∧
        t'.trackpoints_.IsValid j = t.trackpoints_.IsValid j := by
  have h1 : cam < t.trackpoints_.positions.length := by rw [hs.positions_size]; exact hcam
  have h2 : cam < t.trackpoints_.valid.length := by rw [hs.valid_size]; exact hcam
  have h3 : cam < t.trackstates_.length := by rw [hs.trackstates_size]; exact hcam
  refine ⟨{ t with
             trackpoints_ := (t.trackpoints_.assign cam mark).SetValid cam false
             trackstates_ := t.trackstates_.set cam kMarkSet },
    by unfold SetMark; rw [if_neg (not_not.2 hcam), if_neg (by simp)], ?_, rfl, rfl,
    ?_, ?_, ?_, ?_⟩
  · exact ⟨by simp [Positset.assign, Positset.SetValid, hs.positions_size],
      by simp [Positset.assign, Positset.SetValid, hs.valid_size],
      by simp [hs.trackstates_size], hs.trackers_size⟩
  · simp [TrackSession.trackState, getD_set_general, h3]
  · simp [Positset.assign, Positset.SetValid, Positset.position, getD_set_general, h1]
  · simp [Positset.assign, Positset.SetValid, Positset.IsValid, getD_set_general, h2]
  · intro j hj
    simp [TrackSession.trackState, Positset.assign, Positset.SetValid, Positset.position,
      Positset.IsValid, getD_set_general, Ne.symm hj]

/-! ## C14, C15: `SetMark` -/

/-- C14: `SetMark(cam, p, projectOther = true)` fails its assertion for every
tracking session, camera index and mark: there is no session after the call,
so no camera is seeded. -/
theorem SetMark_projectOther_fails {σ : Type} (t : TrackSession σ) (cam : Nat) (mark : Mark) :
    SetMark t cam mark true = none := by
  unfold SetMark
  split
  · rfl
  · rfl

/-- C15: for every tracking session (camera `cam` in any track state), every
`cam < N` and mark `p`, `SetMark(cam, p, false)` returns a session in which
camera `cam` is MarkSet, its stored position is `p` and its output slot is
invalid, while track state, position and validity of every other camera, the
algorithm instances and the arity are unchanged. -/
theorem SetMark_seeds_only_cam {σ : Type} (t : TrackSession σ) (cam : Nat) (mark : Mark)
    (hs : t.Sized) (hcam : cam < t.arity) :
    ∃ t', SetMark t cam mark false = some t' ∧
      t'.trackState cam = kMarkSet ∧ t'.trackpoints_.position cam = mark ∧
      t'.trackpoints_.IsValid cam = false ∧
      (∀ j, j ≠ cam → t'.trackState j = t.trackState j ∧
        t'.trackpoints_.position j = t.trackpoints_.position j ∧
        t'.trackpoints_.IsValid j = t.trackpoints_.IsValid j) ∧
      t'.trackers_ = t.trackers_ ∧ t'.arity = t.arity := by
  obtain ⟨t', h, -, h2, h3, h4, h5, h6, h7⟩ := SetMark_effect t cam mark hs hcam
  exact ⟨t', h, h4, h5, h6, h7, h3, h2⟩

/-! ## The tracking session: reachable sessions -/

theorem SetMark_some_cam {σ : Type} (t t' : TrackSession σ) (cam : Nat) (mark : Mark)
    (project_other : Bool) (h : SetMark t cam mark project_other = some t') : cam < t.arity := by
  unfold SetMark at h
  by_contra hc
  rw [if_pos hc] at h
  exact absurd h (by simp)

theorem Track_some_arity {σ : Type} (alg : InnerTracker σ) (t : TrackSession σ)
    (frameset : Frameset) (r : TrackRun σ) (h : Track alg t frameset = some r) :
    frameset.Arity = t.arity ∧
      r = (List.range t.arity).foldl
        (fun r cam => TrackSingle alg cam (frameset.frame cam) r) { session := t, log := [] } := by
  unfold Track at h
  by_cases ha : frameset.Arity = t.arity
  · rw [if_neg (not_not.2 ha)] at h
    exact ⟨ha, (Option.some.inj h).symm⟩
  · rw [if_pos ha] at h
    exact absurd h (by simp)

theorem TrackReachable.invariant {σ : Type} (alg : InnerTracker σ) (t : TrackSession σ)
    (ht : TrackReachable alg t) :
    t.Sized ∧ ∀ cam, t.trackpoints_.IsValid cam = true ↔ t.trackState cam = kTracking := by
  induction ht with
  | construct arity =>
    refine ⟨Tracker_sized alg arity, fun cam => ?_⟩
    simp only [Tracker, Positset.ofArity, Positset.IsValid, TrackSession.trackState,
      getD_replicate_general]
    split <;> simp
  | setMark t t' cam mark _ hcall ih =>
    obtain ⟨hs, hv⟩ := ih
    have hcam := SetMark_some_cam t t' cam mark false hcall
    obtain ⟨t'', h, hsz, -, -, h4, -, h6, h7⟩ := SetMark_effect t cam mark hs hcam
    rw [h] at hcall
    cases hcall
    refine ⟨hsz, fun j => ?_⟩
    by_cases hj : j = cam
    · subst hj
      rw [h4, h6]
      simp
    · obtain ⟨e1, -, e3⟩ := h7 j hj
      rw [e1, e3]
      exact hv j
  | track t frameset r _ hcall ih =>
    obtain ⟨hs, hv⟩ := ih
    obtain ⟨harity, hr⟩ := Track_some_arity alg t frameset r hcall
    refine ⟨by rw [hr]; exact (trackLoop_sized alg frameset _ _ hs).1, fun c => ?_⟩
    by_cases hc : c < t.arity
    · cases hst : t.trackState c with
      | kUninitialized =>
        obtain ⟨r', h', -, -, e1, -, e3, -⟩ := Track_idle alg t frameset c hs hc harity (Or.inl hst)
        rw [h'] at hcall; cases hcall
        rw [e1, e3]; exact hv c
      | kLost =>
        obtain ⟨r', h', -, -, e1, -, e3, -⟩ := Track_idle alg t frameset c hs hc harity (Or.inr hst)
        rw [h'] at hcall; cases hcall
        rw [e1, e3]; exact hv c
      | kMarkSet =>
        obtain ⟨r', h', -, -, e1, -, e3, -⟩ := Track_markSet alg t frameset c hs hc harity hst
        rw [h'] at hcall; cases hcall
        rw [e1, e3]
        cases (alg.InitializeTracking (t.tracker alg.Clone c) (frameset.frame c)
          (t.trackpoints_.position c)).1 <;> simp
      | kTracking =>
        obtain ⟨r', h', -, -, e1, -, e3, -⟩ := Track_tracking alg t frameset c hs hc harity hst
        rw [h'] at hcall; cases hcall
        rw [e1, e3, (hv c).2 hst]
        cases (alg.Track (t.tracker alg.Clone c) (frameset.frame c)
          (t.trackpoints_.position c)).1 <;> simp
    · obtain ⟨o1, -⟩ := trackLoop_other alg frameset (List.range t.arity)
        { session := t, log := [] } c (fun h => hc (List.mem_range.1 h))
      rw [← hr] at o1
      obtain ⟨e1, -, e3, -⟩ := (slot_eq_iff _ _ _ _).1 o1
      rw [e1, e3]
      exact hv c

theorem trackAll_markSet_failing {σ : Type} (alg : InnerTracker σ) (c : Nat)
    (frames : List Frameset) (t : TrackSession σ) (hs : t.Sized) (hc : c < t.arity)
    (hst : t.trackState c = kMarkSet) (hv : t.trackpoints_.IsValid c = false)
    (hframes : ∀ frameset ∈ frames, frameset.Arity = t.arity)
    (hfail : initFailsAlong alg c t frames) :
    ∃ r, trackAll alg t frames = some r ∧ r.session.Sized ∧ r.session.arity = t.arity ∧
      r.session.trackState c = kMarkSet ∧ r.session.trackpoints_.IsValid c = false := by
  induction frames generalizing t with
  | nil => exact ⟨_, rfl, hs, rfl, hst, hv⟩
  | cons f fs ih =>
    obtain ⟨hf1, hf2⟩ := hfail
    obtain ⟨r, hr, hsz, har, e1, -, e3, -⟩ := Track_markSet alg t f c hs hc
      (hframes f (List.mem_cons_self f fs)) hst
    rw [hf1] at e1 e3
    rw [hr] at hf2
    obtain ⟨r', hr', k1, k2, k3, k4⟩ := ih r.session hsz (by rw [har]; exact hc) e1 e3
      (by
        intro frameset hmem
        rw [har]
        exact hframes frameset (List.mem_cons_of_mem f hmem))
      hf2
    exact ⟨{ session := r'.session, log := r.log ++ r'.log }, by simp [trackAll, hr, hr'], k1,
      k2.trans har, k3, k4⟩

theorem trackAll_lost {σ : Type} (alg : InnerTracker σ) (c : Nat)
    (frames : List Frameset) (t : TrackSession σ) (hs : t.Sized) (hc : c < t.arity)
    (hst : t.trackState c = kLost)
    (hframes : ∀ frameset ∈ frames, frameset.Arity = t.arity) :
    ∃ r, trackAll alg t frames = some r ∧
      r.session.trackState c = kLost ∧
      r.session.trackpoints_.IsValid c = t.trackpoints_.IsValid c ∧
      r.log.filter (TrackEvent.isFor c) = [] := by
  induction frames generalizing t with
  | nil => exact ⟨_, rfl, hst, rfl, rfl⟩
  | cons f fs ih =>
    obtain ⟨r, hr, hsz, har, e1, -, e3, -, e5⟩ := Track_idle alg t f c hs hc
      (hframes f (List.mem_cons_self f fs)) (Or.inr hst)
    obtain ⟨r', hr', k1, k2, k3⟩ := ih r.session hsz (by rw [har]; exact hc) (e1.trans hst)
      (by
        intro frameset hmem
        rw [har]
        exact hframes frameset (List.mem_cons_of_mem f hmem))
    refine ⟨{ session := r'.session, log := r.log ++ r'.log }, by simp [trackAll, hr, hr'], k1,
      k2.trans e3, ?_⟩
    simp only [List.filter_append, e5, k3, List.append_nil]
/-! ## C12, C13, C18: `Track` -/

/-- C12: after `SetMark(cam, p)` on a tracking session with `cam < N`, any
number of consecutive `Track` calls on each of which `InitializeTracking`
fails for `cam` leaves `cam` in MarkSet with its output slot invalid; a
following `Track` call on which `InitializeTracking` succeeds for `cam` moves
it to Tracking with its output slot valid and its position equal to the
position the algorithm returned. -/
theorem SetMark_then_Track_initialises {σ : Type} (alg : InnerTracker σ) (t : TrackSession σ)
    (cam : Nat) (p : Mark) (frames : List Frameset) (next : Frameset)
    (hs : t.Sized) (hcam : cam < t.arity)
    (hframes : ∀ frameset ∈ frames, frameset.Arity = t.arity) (hnext : next.Arity = t.arity) :
    ∃ t1, SetMark t cam p false = some t1 ∧
      (initFailsAlong alg cam t1 frames →
        ∃ r, trackAll alg t1 frames = some r ∧
          r.session.trackState cam = kMarkSet ∧ r.session.trackpoints_.IsValid cam = false ∧
          ((alg.InitializeTracking (r.session.tracker alg.Clone cam) (next.frame cam)
              (r.session.trackpoints_.position cam)).1 = true →
            ∃ r2, Track alg r.session next = some r2 ∧
              r2.session.trackState cam = kTracking ∧ r2.positset.IsValid cam = true ∧
              r2.positset.position cam =
                (alg.InitializeTracking (r.session.tracker alg.Clone cam) (next.frame cam)
                  (r.session.trackpoints_.position cam)).2.1)) := by
  obtain ⟨t1, h, hsz, har, -, h4, -, h6, -⟩ := SetMark_effect t cam p hs hcam
  refine ⟨t1, h, fun hfail => ?_⟩
  obtain ⟨r, hr, k1, k2, k3, k4⟩ := trackAll_markSet_failing alg cam frames t1 hsz
    (by rw [har]; exact hcam) h4 h6 (by rw [har]; exact hframes) hfail
  refine ⟨r, hr, k3, k4, fun hok => ?_⟩
  obtain ⟨r2, hr2, -, -, e1, e2, e3, -⟩ := Track_markSet alg r.session next cam k1
    (by rw [k2, har]; exact hcam) (by rw [k2, har]; exact hnext) k3
  rw [hok] at e1 e3
  exact ⟨r2, hr2, e1, e3, e2⟩

/-- C12 (witness): two cameras, camera 1 seeded at (3, 4); two `Track` calls on
frames on which initialisation fails, then one on which it succeeds. -/
theorem SetMark_then_Track_initialises_witness :
    ∃ t1, SetMark (Tracker stampTracker 2) 1 (3, 4) false = some t1 ∧
      initFailsAlong stampTracker 1 t1 [stampedFrameset [1, 0], stampedFrameset [0, 0]] ∧
      (initFailsAlong stampTracker 1 t1 [stampedFrameset [1, 0], stampedFrameset [0, 0]] →
        ∃ r, trackAll stampTracker t1 [stampedFrameset [1, 0], stampedFrameset [0, 0]] = some r ∧
          r.session.trackState 1 = kMarkSet ∧ r.session.trackpoints_.IsValid 1 = false ∧
          ((stampTracker.InitializeTracking (r.session.tracker stampTracker.Clone 1)
              ((stampedFrameset [0, 1]).frame 1) (r.session.trackpoints_.position 1)).1 = true →
            ∃ r2, Track stampTracker r.session (stampedFrameset [0, 1]) = some r2 ∧
              r2.session.trackState 1 = kTracking ∧ r2.positset.IsValid 1 = true ∧
              r2.positset.position 1 =
                (stampTracker.InitializeTracking (r.session.tracker stampTracker.Clone 1)
                  ((stampedFrameset [0, 1]).frame 1) (r.session.trackpoints_.position 1)).2.1)) := by
  obtain ⟨t1, h, himp⟩ := SetMark_then_Track_initialises stampTracker (Tracker stampTracker 2) 1
    (3, 4) [stampedFrameset [1, 0], stampedFrameset [0, 0]] (stampedFrameset [0, 1])
    (Tracker_sized stampTracker 2) (by decide) (by decide) (by decide)
  refine ⟨t1, h, ?_, himp⟩
  have ht1 : t1 = { arity := 2
                    trackpoints_ := { positions := [(0, 0), (3, 4)], valid := [false, false] }
                    trackstates_ := [kUninitialized, kMarkSet]
                    trackers_ := [(), ()] } :=
    Option.some.inj (h.symm.trans (by decide))
  subst ht1
  exact ⟨by decide, by decide, trivial⟩

/-- C13: in a reachable tracking session, a camera `cam < N` that is Tracking
and for which the algorithm's `Track` reports failure on a `Track` call is
Lost with an invalid output slot after that call; and a camera that is Lost
stays Lost with an invalid output slot over any number of further `Track`
calls, none of which calls its algorithm instance. -/
theorem Track_failure_is_final {σ : Type} (alg : InnerTracker σ) (t : TrackSession σ)
    (cam : Nat) (ht : TrackReachable alg t) (hcam : cam < t.arity) :
    (t.trackState cam = kTracking →
        ∀ frameset, frameset.Arity = t.arity →
          (alg.Track (t.tracker alg.Clone cam) (frameset.frame cam)
            (t.trackpoints_.position cam)).1 = false →
          ∃ r, Track alg t frameset = some r ∧
            r.session.trackState cam = kLost ∧ r.positset.IsValid cam = false) ∧
      (t.trackState cam = kLost →
        ∀ frames : List Frameset, (∀ frameset ∈ frames, frameset.Arity = t.arity) →
          ∃ r, trackAll alg t frames = some r ∧
            r.session.trackState cam = kLost ∧ r.session.trackpoints_.IsValid cam = false ∧
            r.log.filter (TrackEvent.isFor cam) = []) := by
  obtain ⟨hs, hv⟩ := TrackReachable.invariant alg t ht
  constructor
  · intro hst frameset harity hfail
    obtain ⟨r, hr, -, -, e1, -, e3, -⟩ := Track_tracking alg t frameset cam hs hcam harity hst
    rw [hfail] at e1 e3
    exact ⟨r, hr, e1, e3⟩
  · intro hst frames hframes
    obtain ⟨r, hr, k1, k2, k3⟩ := trackAll_lost alg cam frames t hs hcam hst hframes
    refine ⟨r, hr, k1, ?_, k3⟩
    rw [k2]
    cases hval : t.trackpoints_.IsValid cam with
    | false => rfl
    | true =>
      have := (hv cam).1 hval
      rw [hst] at this
      exact absurd this (by decide)

/-- C13 (witness): camera 0 of `trackingPair`, which is reachable and
Tracking. -/
theorem Track_failure_is_final_witness :
    trackingPair.trackState 0 = kTracking ∧
    ((trackingPair.trackState 0 = kTracking →
        ∀ frameset, frameset.Arity = trackingPair.arity →
          (stampTracker.Track (trackingPair.tracker stampTracker.Clone 0) (frameset.frame 0)
            (trackingPair.trackpoints_.position 0)).1 = false →
          ∃ r, Track stampTracker trackingPair frameset = some r ∧
            r.session.trackState 0 = kLost ∧ r.positset.IsValid 0 = false) ∧
      (trackingPair.trackState 0 = kLost →
        ∀ frames : List Frameset, (∀ frameset ∈ frames, frameset.Arity = trackingPair.arity) →
          ∃ r, trackAll stampTracker trackingPair frames = some r ∧
            r.session.trackState 0 = kLost ∧ r.session.trackpoints_.IsValid 0 = false ∧
            r.log.filter (TrackEvent.isFor 0) = [])) :=
  ⟨by decide, Track_failure_is_final stampTracker trackingPair 0
    (TrackReachable.track
      { arity := 2
        trackpoints_ := { positions := [(3, 4), (0, 0)], valid := [false, false] }
        trackstates_ := [kMarkSet, kUninitialized]
        trackers_ := [(), ()] }
      (stampedFrameset [1, 0]) { session := trackingPair, log := [TrackEvent.init 0] }
      (TrackReachable.setMark (Tracker stampTracker 2) _ 0 (3, 4)
        (TrackReachable.construct 2) (by decide))
      (by decide))
    (by decide)⟩

/-- C15 (witness): `SetMark(0, (7, 8), false)` on `trackingPair`, whose camera
0 is Tracking. -/
theorem SetMark_seeds_only_cam_witness :
    ∃ t', SetMark trackingPair 0 (7, 8) false = some t' ∧
      t'.trackState 0 = kMarkSet ∧ t'.trackpoints_.position 0 = (7, 8) ∧
      t'.trackpoints_.IsValid 0 = false ∧
      (∀ j, j ≠ 0 → t'.trackState j = trackingPair.trackState j ∧
        t'.trackpoints_.position j = trackingPair.trackpoints_.position j ∧
        t'.trackpoints_.IsValid j = trackingPair.trackpoints_.IsValid j) ∧
      t'.trackers_ = trackingPair.trackers_ ∧ t'.arity = trackingPair.arity :=
  SetMark_seeds_only_cam trackingPair 0 (7, 8) ⟨rfl, rfl, rfl, rfl⟩ (by decide)

/-- C18: take two tracking sessions that agree on camera `c`'s track state,
stored position, validity flag and algorithm instance, and two framesets (each
of its session's arity) that hold the same frame in slot `c`.  After `Track`,
camera `c` has the same track state, position, validity flag and algorithm
instance in both runs, whatever the arities, the other cameras and the other
frames are. -/
theorem Track_camera_independent {σ : Type} (alg : InnerTracker σ) (t1 t2 : TrackSession σ)
    (frameset1 frameset2 : Frameset) (c : Nat) (hs1 : t1.Sized) (hs2 : t2.Sized)
    (hc1 : c < t1.arity) (hc2 : c < t2.arity)
    (ha1 : frameset1.Arity = t1.arity) (ha2 : frameset2.Arity = t2.arity)
    (hstate : t1.trackState c = t2.trackState c)
    (hpos : t1.trackpoints_.position c = t2.trackpoints_.position c)
    (hvalid : t1.trackpoints_.IsValid c = t2.trackpoints_.IsValid c)
    (hinst : t1.tracker alg.Clone c = t2.tracker alg.Clone c)
    (hframe : frameset1.frame c = frameset2.frame c) :
    ∃ r1 r2, Track alg t1 frameset1 = some r1 ∧ Track alg t2 frameset2 = some r2 ∧
      r1.session.trackState c = r2.session.trackState c ∧
      r1.positset.position c = r2.positset.position c ∧
      r1.positset.IsValid c = r2.positset.IsValid c ∧
      r1.session.tracker alg.Clone c = r2.session.tracker alg.Clone c := by
  cases hst : t2.trackState c with
  | kUninitialized =>
    obtain ⟨r1, h1, -, -, a1, a2, a3, a4, -⟩ := Track_idle alg t1 frameset1 c hs1 hc1 ha1
      (Or.inl (hstate.trans hst))
    obtain ⟨r2, h2, -, -, b1, b2, b3, b4, -⟩ := Track_idle alg t2 frameset2 c hs2 hc2 ha2
      (Or.inl hst)
    exact ⟨r1, r2, h1, h2, a1.trans (hstate.trans b1.symm), a2.trans (hpos.trans b2.symm),
      a3.trans (hvalid.trans b3.symm), a4.trans (hinst.trans b4.symm)⟩
  | kLost =>
    obtain ⟨r1, h1, -, -, a1, a2, a3, a4, -⟩ := Track_idle alg t1 frameset1 c hs1 hc1 ha1
      (Or.inr (hstate.trans hst))
    obtain ⟨r2, h2, -, -, b1, b2, b3, b4, -⟩ := Track_idle alg t2 frameset2 c hs2 hc2 ha2
      (Or.inr hst)
    exact ⟨r1, r2, h1, h2, a1.trans (hstate.trans b1.symm), a2.trans (hpos.trans b2.symm),
      a3.trans (hvalid.trans b3.symm), a4.trans (hinst.trans b4.symm)⟩
  | kMarkSet =>
    obtain ⟨r1, h1, -, -, a1, a2, a3, a4, -⟩ := Track_markSet alg t1 frameset1 c hs1 hc1 ha1
      (hstate.trans hst)
    obtain ⟨r2, h2, -, -, b1, b2, b3, b4, -⟩ := Track_markSet alg t2 frameset2 c hs2 hc2 ha2 hst
    rw [hpos, hinst, hframe] at a1 a2 a3 a4
    exact ⟨r1, r2, h1, h2, a1.trans b1.symm, a2.trans b2.symm, a3.trans b3.symm,
      a4.trans b4.symm⟩
  | kTracking =>
    obtain ⟨r1, h1, -, -, a1, a2, a3, a4, -⟩ := Track_tracking alg t1 frameset1 c hs1 hc1 ha1
      (hstate.trans hst)
    obtain ⟨r2, h2, -, -, b1, b2, b3, b4, -⟩ := Track_tracking alg t2 frameset2 c hs2 hc2 ha2 hst
    rw [hpos, hinst, hframe] at a1 a2 a3 a4
    rw [hvalid] at a3
    exact ⟨r1, r2, h1, h2, a1.trans b1.symm, a2.trans b2.symm, a3.trans b3.symm,
      a4.trans b4.symm⟩

/-- C18 (witness): camera 0 of `trackingPair` and of `trackingTriple`, on
framesets of two and three slots whose slot 0 holds the same frame. -/
theorem Track_camera_independent_witness :
    ∃ r1 r2, Track stampTracker trackingPair (stampedFrameset [1, 0]) = some r1 ∧
      Track stampTracker trackingTriple (stampedFrameset [1, 0, 1]) = some r2 ∧
      r1.session.trackState 0 = r2.session.trackState 0 ∧
      r1.positset.position 0 = r2.positset.position 0 ∧
      r1.positset.IsValid 0 = r2.positset.IsValid 0 ∧
      r1.session.tracker stampTracker.Clone 0 = r2.session.tracker stampTracker.Clone 0 :=
  Track_camera_independent stampTracker trackingPair trackingTriple (stampedFrameset [1, 0])
    (stampedFrameset [1, 0, 1]) 0 ⟨rfl, rfl, rfl, rfl⟩ ⟨rfl, rfl, rfl, rfl⟩ (by decide)
    (by decide) (by decide) (by decide) (by decide) (by decide) (by decide) (by decide)
    (by decide)

/-! ## C16: driving the calibration to completion -/

theorem GenerateArray_index_zero (n : Nat) : ∀ p ∈ GenerateArray n, p.index = 0 := by
  intro p hp
  have hlen : 0 < (GenerateArray n).length := List.length_pos_of_mem hp
  rw [GenerateArray_length_eq] at hlen
  have hn : 0 < n := by
    rcases Nat.eq_zero_or_pos n with h | h
    · subst h; simp at hlen
    · exact h
  exact ((generateOuter_fold_entries n (List.range n) (fun c hc => List.mem_range.1 hc)
    (List.replicate (n * (n - 1) / 2) CameraPair.zero, 0)
    ⟨rfl, fun q hq => by
      rw [(List.mem_replicate.1 hq).2]
      exact ⟨rfl, hn, hn⟩⟩).2 p hp).1

theorem pairLoop_other (env : Env) (frameset : Frameset) (pairs : List CameraPair) (r : Run)
    (j : Nat) (hL : r.session.image_points_pair_.length = r.session.pair_states_.length)
    (hidx : ∀ pair ∈ pairs, pair.index ≠ j) :
    (pairs.foldl (measurePair env frameset) r).session.pairState j = r.session.pairState j ∧
      (pairs.foldl (measurePair env frameset) r).session.pairBuffer j =
        r.session.pairBuffer j ∧
      (pairs.foldl (measurePair env frameset) r).session.image_points_pair_.length =
        (pairs.foldl (measurePair env frameset) r).session.pair_states_.length ∧
      (pairs.foldl (measurePair env frameset) r).session.pair_states_.length =
        r.session.pair_states_.length := by
  induction pairs generalizing r with
  | nil => exact ⟨rfl, rfl, hL, rfl⟩
  | cons c cs ih =>
    rw [List.foldl_cons]
    obtain ⟨z1, z2⟩ := measurePair_sizes env frameset r c
    obtain ⟨o1, o2⟩ := measurePair_other env frameset r c j hL
      (fun h => hidx c (List.mem_cons_self c cs) h.1)
    obtain ⟨k1, k2, k3, k4⟩ := ih (measurePair env frameset r c) (by rw [z1, z2]; exact hL)
      (fun pair hmem => hidx pair (List.mem_cons_of_mem c hmem))
    exact ⟨k1.trans o1, k2.trans o2, k3, k4.trans z1⟩

theorem measureWork_pair_other (env : Env) (s : Session) (frameset : Frameset) (j : Nat)
    (hL : s.image_points_pair_.length = s.pair_states_.length)
    (hidx : ∀ pair ∈ s.pairs_, pair.index ≠ j) :
    (measureWork env s frameset).session.pairState j = s.pairState j ∧
      (measureWork env s frameset).session.image_points_pair_.length =
        (measureWork env s frameset).session.pair_states_.length ∧
      (measureWork env s frameset).session.pair_states_.length = s.pair_states_.length := by
  unfold measureWork
  obtain ⟨-, -, -, -, -, g6, g7, -⟩ := cameraLoop_frame env frameset (List.range s.arity_)
    { session := s, result := true, log := [] }
  generalize (List.range s.arity_).foldl (measureCamera env frameset)
    { session := s, result := true, log := [] } = r1 at g6 g7
  obtain ⟨k1, -, k3, k4⟩ := pairLoop_other env frameset s.pairs_ r1 j
    (by rw [g6, g7]; exact hL) hidx
  refine ⟨k1.trans ?_, k3, k4.trans (congrArg List.length g6)⟩
  simp only [Session.pairState, g6]

theorem MeasureFrameset_pair_other (env : Env) (s : Session) (frameset : Frameset) (r : Run)
    (j : Nat) (h : MeasureFrameset env s frameset = some r)
    (hL : s.image_points_pair_.length = s.pair_states_.length)
    (hidx : ∀ pair ∈ s.pairs_, pair.index ≠ j) :
    r.session.pairState j = s.pairState j ∧
      r.session.image_points_pair_.length = r.session.pair_states_.length ∧
      r.session.pair_states_.length = s.pair_states_.length := by
  unfold MeasureFrameset at h
  split at h
  · exact absurd h (by simp)
  · split at h
    · cases h
      exact ⟨rfl, hL, rfl⟩
    · cases h
      exact measureWork_pair_other env { s with frame_no_ := s.frame_no_ + 1 } frameset j hL hidx

theorem measureAll_pair_other (env : Env) (frames : List Frameset) (s : Session) (j : Nat)
    (hframes : ∀ frameset ∈ frames, frameset.Arity = s.arity_)
    (hL : s.image_points_pair_.length = s.pair_states_.length)
    (hidx : ∀ pair ∈ s.pairs_, pair.index ≠ j) :
    ∃ s' results log, measureAll env s frames = some (s', results, log) ∧
      s'.pairState j = s.pairState j ∧ s'.pair_states_.length = s.pair_states_.length := by
  induction frames generalizing s with
  | nil => exact ⟨s, [], [], rfl, rfl, rfl⟩
  | cons f fs ih =>
    obtain ⟨r, hr⟩ := MeasureFrameset_some env s f (hframes f (List.mem_cons_self f fs))
    obtain ⟨c1, c2, -⟩ := MeasureFrameset_config env s f r hr
    obtain ⟨m1, m2, m3⟩ := MeasureFrameset_pair_other env s f r j hr hL hidx
    obtain ⟨s', results, log, hrun, k, k'⟩ := ih r.session
      (by
        intro frameset hmem
        rw [c1]
        exact hframes frameset (List.mem_cons_of_mem f hmem))
      m2 (by rw [c2]; exact hidx)
    exact ⟨s', r.result :: results, r.log ++ log, by simp [measureAll, hr, hrun], k.trans m1,
      k'.trans m3⟩

/-- C16: from a freshly constructed session of `N` cameras, whatever the
configuration, the detector and the frames, every sequence of
`MeasureFrameset` calls leaves every pair state with index 1 or more
Uninitialized, while the pair-state vector has `N*(N-1)/2` entries.  For
`N ≥ 3` there are such pair states, so there is no number of calls after which
every pair state is Ready. -/
theorem pair_states_beyond_first_stay_unready (env : Env) (parameters : Parameters) (N : Nat)
    (frames : List Frameset) (hframes : ∀ frameset ∈ frames, frameset.Arity = N) :
    ∃ s' results log,
      measureAll env (CameraCalibration parameters N) frames = some (s', results, log) ∧
      s'.pair_states_.length = N * (N - 1) / 2 ∧
      ∀ j, 1 ≤ j → s'.pairState j = kUnitialized := by
  have hfresh : ∀ j, (CameraCalibration parameters N).pairState j = kUnitialized := by
    intro j
    simp only [CameraCalibration, Reset, Session.pairState, getD_replicate_general]
    split <;> rfl
  have hL : (CameraCalibration parameters N).image_points_pair_.length =
      (CameraCalibration parameters N).pair_states_.length := by
    simp [CameraCalibration, Reset]
  have hidx : ∀ j, 1 ≤ j → ∀ pair ∈ (CameraCalibration parameters N).pairs_, pair.index ≠ j := by
    intro j hj pair hmem h
    have := GenerateArray_index_zero N pair hmem
    omega
  obtain ⟨s', results, log, hrun, -, hc⟩ := measureAll_pair_other env frames
    (CameraCalibration parameters N) 1 hframes hL (hidx 1 (le_refl 1))
  refine ⟨s', results, log, hrun, ?_, ?_⟩
  · rw [hc]
    simp [CameraCalibration, Reset, Pairity]
  · intro j hj
    obtain ⟨s'', results', log', hrun', k, -⟩ := measureAll_pair_other env frames
      (CameraCalibration parameters N) j hframes hL (hidx j hj)
    rw [hrun] at hrun'
    cases hrun'
    rw [k]
    exact hfresh j

/-- C16 (witness): three cameras, threshold 1, skip 0, a detector that always
succeeds and four framesets with every slot valid. -/
theorem pair_states_beyond_first_stay_unready_witness :
    ∃ s' results log,
      measureAll detectAlways (CameraCalibration ⟨1, 0⟩ 3)
        (List.replicate 4 (framesetOf [true, true, true])) = some (s', results, log) ∧
      s'.pair_states_.length = 3 * (3 - 1) / 2 ∧
      ∀ j, 1 ≤ j → s'.pairState j = kUnitialized :=
  pair_states_beyond_first_stay_unready detectAlways ⟨1, 0⟩ 3
    (List.replicate 4 (framesetOf [true, true, true])) (by decide)

/-! ## C19: a camera without a detection -/

theorem measureWork_camera (env : Env) (s : Session) (frameset : Frameset) (c : Nat)
    (hc : c < s.arity_) :
    ∃ r0 : Run,
      r0.session.cameraState c = s.cameraState c ∧
      r0.session.cameraBuffer c = s.cameraBuffer c ∧
      r0.session.cameraParameters c = s.cameraParameters c ∧
      r0.session.frames_to_collect_ = s.frames_to_collect_ ∧
      r0.session.camera_states_.length = s.camera_states_.length ∧
      r0.session.image_points_.length = s.image_points_.length ∧
      r0.log.filter (Event.isCameraSolve c) = [] ∧
      (measureWork env s frameset).session.cameraState c =
        (measureCamera env frameset r0 c).session.cameraState c ∧
      (measureWork env s frameset).session.cameraBuffer c =
        (measureCamera env frameset r0 c).session.cameraBuffer c ∧
      (measureWork env s frameset).session.cameraParameters c =
        (measureCamera env frameset r0 c).session.cameraParameters c ∧
      (measureWork env s frameset).log.filter (Event.isCameraSolve c) =
        (measureCamera env frameset r0 c).log.filter (Event.isCameraSolve c) := by
  obtain ⟨before, after, hsplit, hb, ha⟩ := range_split s.arity_ c hc
  unfold measureWork
  rw [hsplit, List.foldl_append, List.foldl_cons]
  obtain ⟨b1, b2, b3, b4⟩ := cameraLoop_other env frameset before
    { session := s, result := true, log := [] } c hb
  obtain ⟨z1, z2, -⟩ := cameraLoop_sizes env frameset before
    { session := s, result := true, log := [] }
  obtain ⟨-, -, f3, -⟩ := cameraLoop_frame env frameset before
    { session := s, result := true, log := [] }
  generalize (before.foldl (measureCamera env frameset)
    { session := s, result := true, log := [] }) = r0 at b1 b2 b3 b4 z1 z2 f3
  refine ⟨r0, b1, b2, b3, f3, z1, z2, b4, ?_⟩
  obtain ⟨a1, a2, a3, a4⟩ := cameraLoop_other env frameset after
    (measureCamera env frameset r0 c) c ha
  generalize after.foldl (measureCamera env frameset) (measureCamera env frameset r0 c) = r2
    at a1 a2 a3 a4
  obtain ⟨-, -, -, -, -, p1, p2, p4⟩ := pairLoop_frame env frameset s.pairs_ r2
  have p3 := pairLoop_log_camera env frameset s.pairs_ r2 c
  refine ⟨?_, ?_, ?_, p3.trans a4⟩
  · rw [← a1]; simp only [Session.cameraState, p1]
  · rw [← a2]; simp only [Session.cameraBuffer, p2]
  · rw [← a3]; simp only [Session.cameraParameters, p4]

theorem measureWork_camera_idle (env : Env) (s : Session) (frameset : Frameset) (c : Nat)
    (hs : s.Consistent) (hc : c < s.arity_)
    (hidle : frameset.IsValid c = false ∨ s.cameraState c = kReady ∨
      env.Match (frameset.frame c).data = none) :
    (measureWork env s frameset).session.cameraState c = s.cameraState c ∧
      (measureWork env s frameset).session.cameraBuffer c = s.cameraBuffer c ∧
      (measureWork env s frameset).session.cameraParameters c = s.cameraParameters c ∧
      (measureWork env s frameset).log.filter (Event.isCameraSolve c) = [] := by
  obtain ⟨r0, e1, e2, e3, e4, z1, z2, e5, k1, k2, k3, k4⟩ := measureWork_camera env s frameset c hc
  rw [k1, k2, k3, k4]
  have hs1 : c < r0.session.camera_states_.length := by rw [z1, hs.camera_states_size]; exact hc
  have hs2 : c < r0.session.image_points_.length := by rw [z2, hs.image_points_size]; exact hc
  cases hvalid : frameset.IsValid c with
  | false =>
    obtain ⟨m1, m2⟩ := measureCamera_invalid env frameset r0 c hvalid
    rw [m1, m2]
    exact ⟨e1, e2, e3, e5⟩
  | true =>
    by_cases hready : s.cameraState c = kReady
    · obtain ⟨m1, m2⟩ := measureCamera_of_ready env frameset r0 c (e1.trans hready)
      rw [m1, m2]
      exact ⟨e1, e2, e3, e5⟩
    · have hm : env.Match (frameset.frame c).data = none := by
        rcases hidle with h | h | h
        · rw [hvalid] at h; exact absurd h (by decide)
        · exact absurd h hready
        · exact h
      have hbelow : ¬ r0.session.frames_to_collect_ ≤ (r0.session.cameraBuffer c).length := by
        rw [e4, e2]
        have hok := hs.camera_ok c
        have hpos := hs.threshold_pos
        revert hok hready
        cases s.cameraState c <;> simp [slotOK, -List.length_eq_zero] <;> omega
      obtain ⟨m1, m2⟩ := (measureCamera_undetected env frameset r0 c hs1 hs2 hvalid
        (by rw [e1]; exact hready) hm).2 hbelow
      rw [m1, m2, List.filter_append, e5]
      exact ⟨e1, e2, e3, by simp [Event.isCameraSolve]⟩

theorem MeasureFrameset_skip (env : Env) (s : Session) (frameset : Frameset)
    (harity : frameset.Arity = s.arity_) (hskip : s.frame_no_ % (s.frames_skip_ + 1) ≠ 0) :
    MeasureFrameset env s frameset =
      some { session := { s with frame_no_ := s.frame_no_ + 1 }, result := false, log := [] } := by
  unfold MeasureFrameset
  rw [if_neg (not_not.2 harity), if_pos hskip]

/-- C19: in a reachable session (threshold at least 1), on any
`MeasureFrameset` call with a frameset of matching arity, a camera whose slot
is invalid or on whose frame the detector fails keeps its state and its
buffer, and no single-camera solve is made for it; and a second frameset that
has the same validity flag and the same detection outcome in that camera's
slot leaves the camera with the same state and buffer, whatever its other
slots hold. -/
theorem camera_unaffected_without_detection (env : Env) (s : Session)
    (frameset : Frameset) (cam : Nat) (hs : Reachable env s)
    (harity : frameset.Arity = s.arity_) (hcam : cam < s.arity_) :
    ∃ r, MeasureFrameset env s frameset = some r ∧
      (frameset.IsValid cam = false ∨ env.Match (frameset.frame cam).data = none →
        r.session.cameraState cam = s.cameraState cam ∧
        r.session.cameraBuffer cam = s.cameraBuffer cam ∧
        r.log.filter (Event.isCameraSolve cam) = []) ∧
      (∀ other : Frameset, other.Arity = s.arity_ →
        other.IsValid cam = frameset.IsValid cam →
        env.Match (other.frame cam).data = env.Match (frameset.frame cam).data →
        ∃ r', MeasureFrameset env s other = some r' ∧
          r'.session.cameraState cam = r.session.cameraState cam ∧
          r'.session.cameraBuffer cam = r.session.cameraBuffer cam) := by
  have hc := Reachable.consistent env s hs
  have hc' := consistent_next_frame s hc
  have hs1 : cam < s.camera_states_.length := by rw [hc.camera_states_size]; exact hcam
  have hs2 : cam < s.image_points_.length := by rw [hc.image_points_size]; exact hcam
  by_cases hcond : s.frame_no_ % (s.frames_skip_ + 1) = 0
  · have hidle : ∀ fs : Frameset,
        fs.IsValid cam = false ∨ s.cameraState cam = kReady ∨
          env.Match (fs.frame cam).data = none →
        (measureWork env { s with frame_no_ := s.frame_no_ + 1 } fs).session.cameraState cam =
          s.cameraState cam ∧
        (measureWork env { s with frame_no_ := s.frame_no_ + 1 } fs).session.cameraBuffer cam =
          s.cameraBuffer cam ∧
        (measureWork env { s with frame_no_ := s.frame_no_ + 1 } fs).log.filter
          (Event.isCameraSolve cam) = [] := by
      intro fs h
      obtain ⟨i1, i2, -, i4⟩ := measureWork_camera_idle env
        { s with frame_no_ := s.frame_no_ + 1 } fs cam hc' hcam h
      exact ⟨i1, i2, i4⟩
    refine ⟨_, MeasureFrameset_work env s frameset harity hcond, ?_, ?_⟩
    · intro h
      exact hidle frameset (h.elim Or.inl (fun h' => Or.inr (Or.inr h')))
    · intro other hoa hov hom
      refine ⟨_, MeasureFrameset_work env s other hoa hcond, ?_⟩
      by_cases hi : frameset.IsValid cam = false ∨ s.cameraState cam = kReady ∨
          env.Match (frameset.frame cam).data = none
      · obtain ⟨i1, i2, -⟩ := hidle frameset hi
        obtain ⟨j1, j2, -⟩ := hidle other (by rw [hov, hom]; exact hi)
        exact ⟨j1.trans i1.symm, j2.trans i2.symm⟩
      · have hvalid : frameset.IsValid cam = true := by
          cases hv : frameset.IsValid cam
          · exact absurd (Or.inl hv) hi
          · rfl
        have hne : s.cameraState cam ≠ kReady := fun h => hi (Or.inr (Or.inl h))
        obtain ⟨points, hm⟩ : ∃ points, env.Match (frameset.frame cam).data = some points := by
          cases hm : env.Match (frameset.frame cam).data with
          | none => exact absurd (Or.inr (Or.inr hm)) hi
          | some points => exact ⟨points, rfl⟩
        obtain ⟨d1, d2⟩ := measureWork_camera_detected_next env s frameset cam points hcam hs1 hs2
          hvalid hne hm _ rfl
        obtain ⟨o1, o2⟩ := measureWork_camera_detected_next env s other cam points hcam hs1 hs2
          (hov.trans hvalid) hne (hom.trans hm) _ rfl
        by_cases hT : s.frames_to_collect_ ≤ (s.cameraBuffer cam).length + 1
        · obtain ⟨x1, x2, -⟩ := d1 hT
          obtain ⟨y1, y2, -⟩ := o1 hT
          exact ⟨y1.trans x1.symm, y2.trans x2.symm⟩
        · obtain ⟨x1, x2, -⟩ := d2 hT
          obtain ⟨y1, y2, -⟩ := o2 hT
          exact ⟨y1.trans x1.symm, y2.trans x2.symm⟩
  · refine ⟨_, MeasureFrameset_skip env s frameset harity hcond, fun _ => ⟨rfl, rfl, rfl⟩, ?_⟩
    intro other hoa _ _
    exact ⟨_, MeasureFrameset_skip env s other hoa hcond, rfl, rfl⟩

/-- C19 (witness): the session reached from construction (two cameras,
threshold 2) by one call with both slots valid; camera 1, on a frameset whose
slot 1 is invalid. -/
theorem camera_unaffected_without_detection_witness :
    ∃ r, MeasureFrameset detectAlways
        (measureWork detectAlways { CameraCalibration ⟨2, 0⟩ 2 with frame_no_ := 1 }
          (framesetOf [true, true])).session (framesetOf [true, false]) = some r ∧
      (framesetOf [true, false]).IsValid 1 = false ∧
      ((framesetOf [true, false]).IsValid 1 = false ∨
          detectAlways.Match ((framesetOf [true, false]).frame 1).data = none →
        r.session.cameraState 1 =
          (measureWork detectAlways { CameraCalibration ⟨2, 0⟩ 2 with frame_no_ := 1 }
            (framesetOf [true, true])).session.cameraState 1 ∧
        r.session.cameraBuffer 1 =
          (measureWork detectAlways { CameraCalibration ⟨2, 0⟩ 2 with frame_no_ := 1 }
            (framesetOf [true, true])).session.cameraBuffer 1 ∧
        r.log.filter (Event.isCameraSolve 1) = []) ∧
      (∀ other : Frameset,
        other.Arity = (measureWork detectAlways { CameraCalibration ⟨2, 0⟩ 2 with frame_no_ := 1 }
          (framesetOf [true, true])).session.arity_ →
        other.IsValid 1 = (framesetOf [true, false]).IsValid 1 →
        detectAlways.Match (other.frame 1).data =
          detectAlways.Match ((framesetOf [true, false]).frame 1).data →
        ∃ r', MeasureFrameset detectAlways
            (measureWork detectAlways { CameraCalibration ⟨2, 0⟩ 2 with frame_no_ := 1 }
              (framesetOf [true, true])).session other = some r' ∧
          r'.session.cameraState 1 = r.session.cameraState 1 ∧
          r'.session.cameraBuffer 1 = r.session.cameraBuffer 1) := by
  obtain ⟨r, hr, h1, h2⟩ := camera_unaffected_without_detection detectAlways
    (measureWork detectAlways { CameraCalibration ⟨2, 0⟩ 2 with frame_no_ := 1 }
      (framesetOf [true, true])).session (framesetOf [true, false]) 1
    (Reachable.measure _ _ _ (Reachable.construct ⟨2, 0⟩ 2 (by decide) (by decide))
      (MeasureFrameset_work detectAlways (CameraCalibration ⟨2, 0⟩ 2) (framesetOf [true, true])
        (by decide) (by decide)))
    (by decide) (by decide)
  exact ⟨r, hr, by decide, h1, h2⟩

/-! ## C17: each solve is made once, at the transition to Ready -/

theorem becameReady_self (a : CalibrationState) : becameReady a a = 0 := by
  cases a <;> simp [becameReady]

theorem becameReady_add (a b c : CalibrationState) (hab : a = kReady → b = kReady)
    (hbc : b = kReady → c = kReady) :
    becameReady a b + becameReady b c = becameReady a c := by
  cases a <;> cases b <;> cases c <;> simp [becameReady] at hab hbc ⊢

theorem cameraSolves_append (cam : Nat) (l l' : List Event) :
    cameraSolves cam (l ++ l') = cameraSolves cam l + cameraSolves cam l' := by
  simp [cameraSolves, List.filter_append]

theorem stereoSolves_append (index : Nat) (l l' : List Event) :
    stereoSolves index (l ++ l') = stereoSolves index l + stereoSolves index l' := by
  simp [stereoSolves, List.filter_append]

theorem measureWork_camera_once (env : Env) (s : Session) (frameset : Frameset) (c : Nat)
    (hs : s.Consistent) (hc : c < s.arity_) :
    cameraSolves c (measureWork env s frameset).log =
        becameReady (s.cameraState c) ((measureWork env s frameset).session.cameraState c) ∧
      (s.cameraState c = kReady →
        (measureWork env s frameset).session.cameraParameters c = s.cameraParameters c) := by
  have hs1 : c < s.camera_states_.length := by rw [hs.camera_states_size]; exact hc
  have hs2 : c < s.image_points_.length := by rw [hs.image_points_size]; exact hc
  by_cases hi : frameset.IsValid c = false ∨ s.cameraState c = kReady ∨
      env.Match (frameset.frame c).data = none
  · obtain ⟨i1, -, i3, i4⟩ := measureWork_camera_idle env s frameset c hs hc hi
    refine ⟨?_, fun _ => i3⟩
    rw [cameraSolves, i4, i1, becameReady_self]
    rfl
  · have hvalid : frameset.IsValid c = true := by
      cases hv : frameset.IsValid c
      · exact absurd (Or.inl hv) hi
      · rfl
    have hne : s.cameraState c ≠ kReady := fun h => hi (Or.inr (Or.inl h))
    obtain ⟨points, hm⟩ : ∃ points, env.Match (frameset.frame c).data = some points := by
      cases hm : env.Match (frameset.frame c).data with
      | none => exact absurd (Or.inr (Or.inr hm)) hi
      | some points => exact ⟨points, rfl⟩
    obtain ⟨d1, d2⟩ := measureWork_camera_detected env s frameset c points hc hs1 hs2
      hvalid hne hm
    refine ⟨?_, fun h => absurd h hne⟩
    by_cases hT : s.frames_to_collect_ ≤ (s.cameraBuffer c).length + 1
    · obtain ⟨x1, -, x3⟩ := d1 hT
      rw [cameraSolves, x3, x1]
      simp [becameReady, hne]
    · obtain ⟨x1, -, x3⟩ := d2 hT
      rw [cameraSolves, x3, x1]
      simp [becameReady]
theorem measureCamera_log_stereo (env : Env) (frameset : Frameset) (r : Run) (cam j : Nat) :
    stereoSolves j (measureCamera env frameset r cam).log = stereoSolves j r.log := by
  cases hvalid : frameset.IsValid cam with
  | false => rw [(measureCamera_invalid env frameset r cam hvalid).2]
  | true =>
    by_cases hready : r.session.cameraState cam = kReady
    · rw [(measureCamera_of_ready env frameset r cam hready).2]
    · rw [measureCamera_work env frameset r cam hvalid hready]
      by_cases hT : (cameraDetect env frameset cam r.session).frames_to_collect_ ≤
          ((cameraDetect env frameset cam r.session).cameraBuffer cam).length
      · rw [cameraSolve_reached env frameset cam _ hT]
        simp [stereoSolves, Event.isStereoSolve]
      · rw [cameraSolve_below env frameset cam _ hT]
        simp [stereoSolves, Event.isStereoSolve]

theorem cameraLoop_log_stereo (env : Env) (frameset : Frameset) (cams : List Nat) (r : Run)
    (j : Nat) :
    stereoSolves j (cams.foldl (measureCamera env frameset) r).log = stereoSolves j r.log := by
  induction cams generalizing r with
  | nil => rfl
  | cons c cs ih => rw [List.foldl_cons, ih, measureCamera_log_stereo]

theorem measurePair_cases_log (env : Env) (frameset : Frameset) (r : Run) (pair : CameraPair) :
    ((measurePair env frameset r pair).session = r.session ∧
        (measurePair env frameset r pair).log = r.log) ∨
      (r.session.pairState pair.index ≠ kReady ∧
        measurePair env frameset r pair =
          { session := (pairSolve env pair (pairDetect env frameset pair r.session).1).1
            result := false
            log := r.log ++ (pairDetect env frameset pair r.session).2 ++
              (pairSolve env pair (pairDetect env frameset pair r.session).1).2 }) := by
  unfold measurePair
  split
  · exact Or.inl ⟨rfl, rfl⟩
  · split
    · exact Or.inl ⟨rfl, rfl⟩
    · split
      · exact Or.inl ⟨rfl, rfl⟩
      · next hne => exact Or.inr ⟨hne, rfl⟩

theorem pairDetect_log_stereo (env : Env) (frameset : Frameset) (pair : CameraPair)
    (s : Session) (j : Nat) : stereoSolves j (pairDetect env frameset pair s).2 = 0 := by
  unfold pairDetect
  cases env.Match (frameset.frame pair.cam1).data with
  | none => rfl
  | some p1 => cases env.Match (frameset.frame pair.cam2).data <;> rfl

theorem pairDetect_self (env : Env) (frameset : Frameset) (pair : CameraPair) (s : Session)
    (hne : s.pairState pair.index ≠ kReady) :
    (pairDetect env frameset pair s).1.pairState pair.index ≠ kReady ∧
      (pairDetect env frameset pair s).1.pair_states_.length = s.pair_states_.length := by
  rcases pairDetect_cases env frameset pair s with hd | ⟨p1, p2, -, -, hd⟩
  · rw [hd]
    exact ⟨hne, rfl⟩
  · rw [hd]
    refine ⟨?_, by simp⟩
    simp only [Session.pairState, getD_set_general]
    split
    · decide
    · exact hne

theorem pairSolve_once (env : Env) (pair : CameraPair) (s : Session) (j : Nat)
    (hin : pair.index < s.pair_states_.length) (hne : s.pairState pair.index ≠ kReady) :
    stereoSolves j (pairSolve env pair s).2 =
        becameReady (s.pairState j) ((pairSolve env pair s).1.pairState j) ∧
      (s.pairState j = kReady → (pairSolve env pair s).1.pairParameters j = s.pairParameters j) := by
  by_cases hT : s.frames_to_collect_ ≤ (s.pairBuffer pair.index).1.length
  · rw [pairSolve_reached env pair s hT]
    by_cases hj : pair.index = j
    · subst hj
      refine ⟨?_, fun h => absurd h hne⟩
      simp only [stereoSolves, Event.isStereoSolve, Session.pairState, getD_set_general, hin,
        and_self, if_true, List.filter_cons, decide_True, List.filter_nil, List.length_cons,
        List.length_nil]
      have hne' : s.pair_states_.getD pair.index kUnitialized ≠ kReady := hne
      unfold becameReady
      rw [if_pos ⟨hne', rfl⟩]
    · refine ⟨?_, fun _ => ?_⟩
      · simp only [stereoSolves, Event.isStereoSolve, Session.pairState, getD_set_general, hj,
          false_and, if_false, List.filter_cons, decide_False, List.filter_nil, List.length_nil]
        exact (becameReady_self _).symm
      · simp only [Session.pairParameters, getD_set_general, hj, false_and, if_false]
  · rw [pairSolve_below env pair s hT]
    exact ⟨(becameReady_self _).symm, fun _ => rfl⟩
theorem becameReady_of_ne (a b c : CalibrationState) (ha : a ≠ kReady) (hb : b ≠ kReady) :
    becameReady a c = becameReady b c := by
  simp [becameReady, ha, hb]

theorem measurePair_once (env : Env) (frameset : Frameset) (r : Run) (pair : CameraPair)
    (j : Nat) (hs : r.session.Consistent) (hin : pair.index < r.session.pair_states_.length) :
    stereoSolves j (measurePair env frameset r pair).log =
        stereoSolves j r.log +
          becameReady (r.session.pairState j)
            ((measurePair env frameset r pair).session.pairState j) ∧
      (r.session.pairState j = kReady →
        (measurePair env frameset r pair).session.pairParameters j =
          r.session.pairParameters j) := by
  have hL : r.session.image_points_pair_.length = r.session.pair_states_.length := by
    rw [hs.image_points_pair_size, hs.pair_states_size]
  rcases measurePair_cases_log env frameset r pair with ⟨hsess, hlog⟩ | ⟨hne, h⟩
  · rw [hsess, hlog, becameReady_self]
    exact ⟨rfl, fun _ => rfl⟩
  · rw [h]
    dsimp only
    obtain ⟨dne, dsz⟩ := pairDetect_self env frameset pair r.session hne
    obtain ⟨v1, v2⟩ := pairSolve_once env pair (pairDetect env frameset pair r.session).1 j
      (by rw [dsz]; exact hin) dne
    have hdata : (pairDetect env frameset pair r.session).1.pairParameters j =
        r.session.pairParameters j := by
      simp only [Session.pairParameters, (pairDetect_frame env frameset pair r.session).2.2.2.2.2.2.2]
    rw [stereoSolves_append, stereoSolves_append, pairDetect_log_stereo, v1, Nat.add_zero]
    by_cases hj : pair.index = j
    · subst hj
      exact ⟨by rw [becameReady_of_ne _ _ _ dne hne], fun h' => absurd h' hne⟩
    · obtain ⟨o1, -⟩ := pairDetect_other env frameset pair r.session j hL (fun hc => hj hc.1)
      rw [o1] at v1 v2 ⊢
      exact ⟨rfl, fun h' => (v2 h').trans hdata⟩

theorem pairLoop_once (env : Env) (frameset : Frameset) (pairs : List CameraPair) (r : Run)
    (j : Nat) (hs : r.session.Consistent)
    (hin : ∀ pair ∈ pairs, pair.index < r.session.pair_states_.length) :
    stereoSolves j (pairs.foldl (measurePair env frameset) r).log =
        stereoSolves j r.log +
          becameReady (r.session.pairState j)
            ((pairs.foldl (measurePair env frameset) r).session.pairState j) ∧
      (r.session.pairState j = kReady →
        (pairs.foldl (measurePair env frameset) r).session.pairState j = kReady ∧
        (pairs.foldl (measurePair env frameset) r).session.pairParameters j =
          r.session.pairParameters j) := by
  induction pairs generalizing r with
  | nil =>
    rw [List.foldl_nil, becameReady_self]
    exact ⟨rfl, fun h => ⟨h, rfl⟩⟩
  | cons c cs ih =>
    rw [List.foldl_cons]
    obtain ⟨m1, m2⟩ := measurePair_once env frameset r c j hs
      (hin c (List.mem_cons_self c cs))
    obtain ⟨z1, -⟩ := measurePair_sizes env frameset r c
    have hmono : r.session.pairState j = kReady →
        (measurePair env frameset r c).session.pairState j = kReady :=
      fun h => ready_of_rank_le _ _ (measurePair_rank env frameset r c j) h
    obtain ⟨k1, k2⟩ := ih (measurePair env frameset r c)
      (measurePair_consistent env frameset r c hs)
      (by
        intro pair hmem
        rw [z1]
        exact hin pair (List.mem_cons_of_mem c hmem))
    refine ⟨?_, fun h => ⟨(k2 (hmono h)).1, ((k2 (hmono h)).2).trans (m2 h)⟩⟩
    rw [k1, m1, Nat.add_assoc, becameReady_add _ _ _ hmono (fun h => (k2 h).1)]

theorem measureWork_pair_once (env : Env) (s : Session) (frameset : Frameset) (j : Nat)
    (hs : s.Consistent) :
    stereoSolves j (measureWork env s frameset).log =
        becameReady (s.pairState j) ((measureWork env s frameset).session.pairState j) ∧
      (s.pairState j = kReady →
        (measureWork env s frameset).session.pairParameters j = s.pairParameters j) := by
  unfold measureWork
  obtain ⟨c1, -⟩ := cameraLoop_consistent env frameset (List.range s.arity_)
    { session := s, result := true, log := [] } hs (fun cam h => List.mem_range.1 h)
  obtain ⟨g1, g2, -, -, -, g6, -, g8⟩ := cameraLoop_frame env frameset (List.range s.arity_)
    { session := s, result := true, log := [] }
  have g9 := cameraLoop_log_stereo env frameset (List.range s.arity_)
    { session := s, result := true, log := [] } j
  generalize (List.range s.arity_).foldl (measureCamera env frameset)
    { session := s, result := true, log := [] } = r1 at c1 g1 g2 g6 g8 g9
  have hstate : r1.session.pairState j = s.pairState j := by
    simp only [Session.pairState, g6]
  have hparams : r1.session.pairParameters j = s.pairParameters j := by
    simp only [Session.pairParameters, g8]
  have hzero : stereoSolves j r1.log = 0 := g9
  obtain ⟨k1, k2⟩ := pairLoop_once env frameset s.pairs_ r1 j c1 (by
    intro pair hmem
    have hp : pair ∈ r1.session.pairs_ := by rw [g2]; exact hmem
    rw [c1.pair_states_size]
    exact (c1.pairs_in_range pair hp).1)
  rw [hstate, hzero, Nat.zero_add] at k1
  rw [hstate, hparams] at k2
  exact ⟨k1, fun h => (k2 h).2⟩

theorem MeasureFrameset_once (env : Env) (s : Session) (frameset : Frameset) (r : Run)
    (hs : s.Consistent) (h : MeasureFrameset env s frameset = some r) :
    (∀ cam, cam < s.arity_ →
        cameraSolves cam r.log = becameReady (s.cameraState cam) (r.session.cameraState cam) ∧
        (s.cameraState cam = kReady → r.session.cameraParameters cam = s.cameraParameters cam)) ∧
      ∀ index,
        stereoSolves index r.log =
          becameReady (s.pairState index) (r.session.pairState index) ∧
        (s.pairState index = kReady →
          r.session.pairParameters index = s.pairParameters index) := by
  unfold MeasureFrameset at h
  split at h
  · exact absurd h (by simp)
  · split at h
    · cases h
      exact ⟨fun cam _ => ⟨(becameReady_self _).symm, fun _ => rfl⟩,
        fun index => ⟨(becameReady_self _).symm, fun _ => rfl⟩⟩
    · cases h
      exact ⟨fun cam hcam => measureWork_camera_once env { s with frame_no_ := s.frame_no_ + 1 }
          frameset cam (consistent_next_frame s hs) hcam,
        fun index => measureWork_pair_once env { s with frame_no_ := s.frame_no_ + 1 }
          frameset index (consistent_next_frame s hs)⟩

/-- C17: from a reachable session (threshold at least 1), over any sequence
of `MeasureFrameset` calls with no `Reset()` in between (one call included):
the number of single-camera solves made for a camera is 1 if the camera was
not Ready before the calls and is Ready after them, and 0 otherwise; the same
holds for the stereo solves of every pair index; so each solve is made at most
once and only in a call that makes its camera or pair Ready.  A camera or
pair that is Ready before the calls has the same stored calibration result
after them. -/
theorem solves_once_at_ready (env : Env) (s : Session) (frames : List Frameset)
    (hs : Reachable env s) (hframes : ∀ frameset ∈ frames, frameset.Arity = s.arity_) :
    ∃ s' results log, measureAll env s frames = some (s', results, log) ∧
      (∀ cam, cam < s.arity_ →
        cameraSolves cam log = becameReady (s.cameraState cam) (s'.cameraState cam) ∧
        cameraSolves cam log ≤ 1 ∧
        (s.cameraState cam = kReady → s'.cameraParameters cam = s.cameraParameters cam)) ∧
      (∀ index,
        stereoSolves index log = becameReady (s.pairState index) (s'.pairState index) ∧
        stereoSolves index log ≤ 1 ∧
        (s.pairState index = kReady → s'.pairParameters index = s.pairParameters index)) := by
  have hle : ∀ a b : CalibrationState, becameReady a b ≤ 1 := by
    intro a b
    unfold becameReady
    split <;> omega
  have key : ∀ (frames : List Frameset) (s : Session), s.Consistent →
      (∀ frameset ∈ frames, frameset.Arity = s.arity_) →
      ∃ s' results log, measureAll env s frames = some (s', results, log) ∧
        (∀ cam, (s.cameraState cam = kReady → s'.cameraState cam = kReady)) ∧
        (∀ index, (s.pairState index = kReady → s'.pairState index = kReady)) ∧
        (∀ cam, cam < s.arity_ →
          cameraSolves cam log = becameReady (s.cameraState cam) (s'.cameraState cam) ∧
          (s.cameraState cam = kReady → s'.cameraParameters cam = s.cameraParameters cam)) ∧
        (∀ index,
          stereoSolves index log = becameReady (s.pairState index) (s'.pairState index) ∧
          (s.pairState index = kReady → s'.pairParameters index = s.pairParameters index)) := by
    intro frames
    induction frames with
    | nil =>
      intro s _ _
      exact ⟨s, [], [], rfl, fun _ h => h, fun _ h => h,
        fun cam _ => ⟨(becameReady_self _).symm, fun _ => rfl⟩,
        fun index => ⟨(becameReady_self _).symm, fun _ => rfl⟩⟩
    | cons f fs ih =>
      intro s hc hframes
      obtain ⟨r, hr⟩ := MeasureFrameset_some env s f (hframes f (List.mem_cons_self f fs))
      obtain ⟨c1, -⟩ := MeasureFrameset_config env s f r hr
      obtain ⟨m0, -, -⟩ := MeasureFrameset_consistent env s f r hc hr
      obtain ⟨q1, q2⟩ := MeasureFrameset_rank env s f r hr
      obtain ⟨o1, o2⟩ := MeasureFrameset_once env s f r hc hr
      obtain ⟨s', results, log, hrun, a1, a2, a3, a4⟩ := ih r.session m0 (by
        intro frameset hmem
        rw [c1]
        exact hframes frameset (List.mem_cons_of_mem f hmem))
      have hm1 : ∀ cam, s.cameraState cam = kReady → r.session.cameraState cam = kReady :=
        fun cam h => ready_of_rank_le _ _ (q1 cam) h
      have hm2 : ∀ index, s.pairState index = kReady → r.session.pairState index = kReady :=
        fun index h => ready_of_rank_le _ _ (q2 index) h
      refine ⟨s', r.result :: results, r.log ++ log, by simp [measureAll, hr, hrun],
        fun cam h => a1 cam (hm1 cam h), fun index h => a2 index (hm2 index h), ?_, ?_⟩
      · intro cam hcam
        obtain ⟨x1, x2⟩ := o1 cam hcam
        obtain ⟨y1, y2⟩ := a3 cam (by rw [c1]; exact hcam)
        refine ⟨?_, fun h => (y2 (hm1 cam h)).trans (x2 h)⟩
        rw [cameraSolves_append, x1, y1, becameReady_add _ _ _ (hm1 cam) (a1 cam)]
      · intro index
        obtain ⟨x1, x2⟩ := o2 index
        obtain ⟨y1, y2⟩ := a4 index
        refine ⟨?_, fun h => (y2 (hm2 index h)).trans (x2 h)⟩
        rw [stereoSolves_append, x1, y1, becameReady_add _ _ _ (hm2 index) (a2 index)]
  obtain ⟨s', results, log, hrun, -, -, k3, k4⟩ := key frames s (Reachable.consistent env s hs)
    hframes
  refine ⟨s', results, log, hrun, ?_, ?_⟩
  · intro cam hcam
    obtain ⟨x1, x2⟩ := k3 cam hcam
    exact ⟨x1, by rw [x1]; exact hle _ _, x2⟩
  · intro index
    obtain ⟨x1, x2⟩ := k4 index
    exact ⟨x1, by rw [x1]; exact hle _ _, x2⟩

/-- C17 (witness): three calls on a fresh session of two cameras with
threshold 1, all slots valid: every camera and the pair become Ready, each
with one solve. -/
theorem solves_once_at_ready_witness :
    ∃ s' results log,
      measureAll detectAlways (CameraCalibration ⟨1, 0⟩ 2)
        (List.replicate 3 (framesetOf [true, true])) = some (s', results, log) ∧
      (∀ cam, cam < (CameraCalibration ⟨1, 0⟩ 2).arity_ →
        cameraSolves cam log =
          becameReady ((CameraCalibration ⟨1, 0⟩ 2).cameraState cam) (s'.cameraState cam) ∧
        cameraSolves cam log ≤ 1 ∧
        ((CameraCalibration ⟨1, 0⟩ 2).cameraState cam = kReady →
          s'.cameraParameters cam = (CameraCalibration ⟨1, 0⟩ 2).cameraParameters cam)) ∧
      (∀ index,
        stereoSolves index log =
          becameReady ((CameraCalibration ⟨1, 0⟩ 2).pairState index) (s'.pairState index) ∧
        stereoSolves index log ≤ 1 ∧
        ((CameraCalibration ⟨1, 0⟩ 2).pairState index = kReady →
          s'.pairParameters index = (CameraCalibration ⟨1, 0⟩ 2).pairParameters index)) :=
  solves_once_at_ready detectAlways (CameraCalibration ⟨1, 0⟩ 2)
    (List.replicate 3 (framesetOf [true, true]))
    (Reachable.construct ⟨1, 0⟩ 2 (by decide) (by decide)) (by decide)

/-! ## C21: the returned flag and the pair states -/

/-- C21: three cameras, threshold 1, no skipping, a detector that always
succeeds, every slot valid.  After the first call every camera is Ready and
the pair states are Ready, Uninitialized, Uninitialized.  The second call is
not skipped (the frame counter is a multiple of skip + 1) and returns `true`,
although the pair states 1 and 2 were not Ready before it. -/
theorem MeasureFrameset_true_with_unready_pair_states :
    ((MeasureFrameset detectAlways (CameraCalibration ⟨1, 0⟩ 3)
        (framesetOf [true, true, true])).bind fun first =>
      (MeasureFrameset detectAlways first.session (framesetOf [true, true, true])).map
        fun second => (first.session.camera_states_, first.session.pair_states_,
          first.session.frame_no_ % (first.session.frames_skip_ + 1), second.result)) =
      some ([kReady, kReady, kReady], [kReady, kUnitialized, kUnitialized], 0, true) := by
  decide

/-! ## C22: validity and the transitions of `Track` -/

theorem trackingPair_reachable : TrackReachable stampTracker trackingPair :=
  TrackReachable.track
    { arity := 2
      trackpoints_ := { positions := [(3, 4), (0, 0)], valid := [false, false] }
      trackstates_ := [kMarkSet, kUninitialized]
      trackers_ := [(), ()] }
    (stampedFrameset [1, 0]) { session := trackingPair, log := [TrackEvent.init 0] }
    (TrackReachable.setMark (Tracker stampTracker 2) _ 0 (3, 4)
      (TrackReachable.construct 2) (by decide))
    (by decide)

/-- C22: in every tracking session reachable from construction by
`SetMark(cam, p, false)` and `Track` calls, the output slot of every camera
`cam < N` is valid if and only if the camera is Tracking; and a `Track` call
on a frameset of matching arity leaves the track state of every camera as it
is or moves it from MarkSet to Tracking or from Tracking to Lost, a camera
that is Uninitialized or Lost keeping its state, position, validity flag and
algorithm instance, with no call to that instance. -/
theorem valid_iff_tracking_and_Track_transitions {σ : Type} (alg : InnerTracker σ)
    (t : TrackSession σ) (ht : TrackReachable alg t) :
    (∀ cam, cam < t.arity →
        (t.trackpoints_.IsValid cam = true ↔ t.trackState cam = kTracking)) ∧
      ∀ frameset : Frameset, frameset.Arity = t.arity →
        ∃ r, Track alg t frameset = some r ∧
          ∀ cam, cam < t.arity →
            (r.session.trackState cam = t.trackState cam ∨
              (t.trackState cam = kMarkSet ∧ r.session.trackState cam = kTracking) ∨
              (t.trackState cam = kTracking ∧ r.session.trackState cam = kLost)) ∧
            (t.trackState cam = kUninitialized ∨ t.trackState cam = kLost →
              r.session.trackState cam = t.trackState cam ∧
              r.positset.position cam = t.trackpoints_.position cam ∧
              r.positset.IsValid cam = t.trackpoints_.IsValid cam ∧
              r.session.tracker alg.Clone cam = t.tracker alg.Clone cam ∧
              r.log.filter (TrackEvent.isFor cam) = []) := by
  obtain ⟨hs, hv⟩ := TrackReachable.invariant alg t ht
  refine ⟨fun cam _ => hv cam, fun frameset harity => ?_⟩
  refine ⟨(List.range t.arity).foldl
      (fun r cam => TrackSingle alg cam (frameset.frame cam) r) { session := t, log := [] },
    by unfold Track; rw [if_neg (not_not.2 harity)], fun cam hcam => ?_⟩
  have hcall : Track alg t frameset = some ((List.range t.arity).foldl
      (fun r cam => TrackSingle alg cam (frameset.frame cam) r) { session := t, log := [] }) := by
    unfold Track; rw [if_neg (not_not.2 harity)]
  generalize (List.range t.arity).foldl
      (fun r cam => TrackSingle alg cam (frameset.frame cam) r) { session := t, log := [] } = r
    at hcall
  cases hst : t.trackState cam with
  | kUninitialized =>
    obtain ⟨r', h', -, -, e1, e2, e3, e4, e5⟩ := Track_idle alg t frameset cam hs hcam harity
      (Or.inl hst)
    rw [h'] at hcall; cases hcall
    exact ⟨Or.inl (e1.trans hst), fun _ => ⟨e1.trans hst, e2, e3, e4, e5⟩⟩
  | kLost =>
    obtain ⟨r', h', -, -, e1, e2, e3, e4, e5⟩ := Track_idle alg t frameset cam hs hcam harity
      (Or.inr hst)
    rw [h'] at hcall; cases hcall
    exact ⟨Or.inl (e1.trans hst), fun _ => ⟨e1.trans hst, e2, e3, e4, e5⟩⟩
  | kMarkSet =>
    obtain ⟨r', h', -, -, e1, -⟩ := Track_markSet alg t frameset cam hs hcam harity hst
    rw [h'] at hcall; cases hcall
    refine ⟨?_, fun h => by rcases h with h | h <;> exact absurd h (by decide)⟩
    rw [e1]
    split
    · exact Or.inr (Or.inl ⟨rfl, rfl⟩)
    · exact Or.inl rfl
  | kTracking =>
    obtain ⟨r', h', -, -, e1, -⟩ := Track_tracking alg t frameset cam hs hcam harity hst
    rw [h'] at hcall; cases hcall
    refine ⟨?_, fun h => by rcases h with h | h <;> exact absurd h (by decide)⟩
    rw [e1]
    split
    · exact Or.inl rfl
    · exact Or.inr (Or.inr ⟨rfl, rfl⟩)

/-- C22 (witness): the reachable session `trackingPair`, whose camera 0 is
Tracking with a valid slot and whose camera 1 is Uninitialized. -/
theorem valid_iff_tracking_and_Track_transitions_witness :
    (∀ cam, cam < trackingPair.arity →
        (trackingPair.trackpoints_.IsValid cam = true ↔
          trackingPair.trackState cam = kTracking)) ∧
      ∀ frameset : Frameset, frameset.Arity = trackingPair.arity →
        ∃ r, Track stampTracker trackingPair frameset = some r ∧
          ∀ cam, cam < trackingPair.arity →
            (r.session.trackState cam = trackingPair.trackState cam ∨
              (trackingPair.trackState cam = kMarkSet ∧ r.session.trackState cam = kTracking) ∨
              (trackingPair.trackState cam = kTracking ∧ r.session.trackState cam = kLost)) ∧
            (trackingPair.trackState cam = kUninitialized ∨ trackingPair.trackState cam = kLost →
              r.session.trackState cam = trackingPair.trackState cam ∧
              r.positset.position cam = trackingPair.trackpoints_.position cam ∧
              r.positset.IsValid cam = trackingPair.trackpoints_.IsValid cam ∧
              r.session.tracker stampTracker.Clone cam =
                trackingPair.tracker stampTracker.Clone cam ∧
              r.log.filter (TrackEvent.isFor cam) = []) :=
  valid_iff_tracking_and_Track_transitions stampTracker trackingPair trackingPair_reachable

end dove_eye
